import Mathlib

/-!
# Balance-query plugins: a shallow embedding

The four plugins (`88code-balance`, `antigravity`, `right-code`, `zhipu-balance`) are
translated function by function.  Conventions of the embedding:

* a property read from parsed JSON is a `JsOpt`: absent (`undefined`), JSON `null`, or a value
  of the type the plugin expects there;
* a JavaScript number is the rational value of a double (`ℚ`), `NaN` is `none` where it can
  arise; the sums, differences, products and quotients of the amount computations are rounded
  to the nearest double (`roundDouble`: IEEE 754 binary64, round to nearest, ties to even,
  gradual underflow), written `fadd`, `fsub`, `fmul`, `fdiv`; the rounding has no overflow, so
  the embedding is the engine's arithmetic as long as no result reaches `2 ^ 1024`, and the
  theorems on computed amounts take amounts of moderate size (`Moderate`), where none does;
  `Math.round x` is `⌊x + 1/2⌋`, exact on a double; the reset counter `2 - resetTimes` and
  the differences and quotients of time stamps are taken exactly, as they are in doubles for
  the integer values of counts and of times in milliseconds;
* time stamps are integer milliseconds; the clock, the date parser, the calendar fields and the
  Unicode string routines of the engine are fields of `Host`; one evaluation of `fetchData`
  reads one clock value `Host.now`;
* the network is a function `fetch` from the request to the response (or a rejection);
  the response carries its body text together with what `JSON.parse` makes of it;
* the `length` of a string counts UTF-16 code units (`jsLength`); `substring` is the engine's;
* `context.log` calls have no effect on the returned value and are left out.
-/

namespace AibalPlugins

/-! ## JavaScript values -/

/-- A property of a parsed JSON object: absent, JSON null, or present with a value. -/
inductive JsOpt (α : Type) where
  | undefined
  | null
  | val (v : α)
  deriving DecidableEq, Repr

/-- The outcome of `JSON.parse`: a thrown SyntaxError, the value null, or a value whose
properties can be read. -/
inductive Parsed (α : Type) where
  | syntaxError
  | null
  | value (v : α)
  deriving DecidableEq, Repr

/-- Values thrown by the plugins or by the engine. -/
inductive JsError where
  | error (message : String)
  | typeError
  | syntaxError
  deriving DecidableEq, Repr

/-- Engine services the plugins call. -/
structure Host where
  /-- The value of `new Date()` in milliseconds. -/
  now : ℤ
  /-- The time value of `new Date(s)`; `none` is an invalid date (NaN). -/
  parseDate : String → Option ℤ
  /-- Local calendar month of a time value, zero-based as `getMonth`. -/
  getMonth : ℤ → ℕ
  /-- Local day of month, as `getDate`. -/
  getDate : ℤ → ℕ
  /-- Local hour, as `getHours`. -/
  getHours : ℤ → ℕ
  /-- Local minute, as `getMinutes`. -/
  getMinutes : ℤ → ℕ
  /-- The text of `toLocaleDateString` with the zh-CN options used by right-code. -/
  toLocaleDateString : ℤ → String
  /-- The method `String.prototype.toUpperCase`. -/
  toUpperCase : String → String
  /-- The method `String.prototype.trim`. -/
  trim : String → String
  /-- The method `String.prototype.substring`; start and end count UTF-16 code units. -/
  substring : String → ℕ → ℕ → String
  /-- Number-to-string conversion for numbers that are not integers below 10^21. -/
  showOther : ℚ → String

/-- Truthiness of a string property. -/
def truthyStr : JsOpt String → Bool
  | .val s => s != ""
  | _ => false

/-- Truthiness of a boolean property. -/
def truthyBool : JsOpt Bool → Bool
  | .val b => b
  | _ => false

/-- The expression `s || d` for a string property. -/
def strOr (s : JsOpt String) (d : String) : String :=
  match s with
  | .val v => if v != "" then v else d
  | _ => d

/-- The expression `x || d` for a number property. -/
def numOr (x : JsOpt ℚ) (d : ℚ) : ℚ :=
  match x with
  | .val v => if v != 0 then v else d
  | _ => d

/-- The expression `x ?? d`. -/
def nullish {α : Type} (x : JsOpt α) (d : α) : α :=
  match x with
  | .val v => v
  | _ => d

/-- The expression `s || null` for a string property. -/
def strOrNull (s : JsOpt String) : Option String :=
  match s with
  | .val v => if v != "" then some v else none
  | _ => none

/-- The function `Math.round`: nearest integer, ties towards plus infinity. -/
def mathRound (x : ℚ) : ℤ := ⌊x + 1 / 2⌋

/-! ## Double-precision arithmetic -/

/-- The nearest integer to a rational, a tie going to the even neighbour. -/
def roundHalfEven (y : ℚ) : ℤ :=
  if y - ⌊y⌋ < 1 / 2 then ⌊y⌋
  else if 1 / 2 < y - ⌊y⌋ then ⌊y⌋ + 1
  else if ⌊y⌋ % 2 = 0 then ⌊y⌋ else ⌊y⌋ + 1

/-- The exponent of the last significand bit of the double nearest to `x`: 52 binary places
below the leading bit of `x`, and not below the subnormal spacing `2 ^ (-1074)`. -/
def ulpExp (x : ℚ) : ℤ := max (Int.log 2 |x| - 52) (-1074)

/-- The double nearest to `x`: `x` rounded to a multiple of `2 ^ ulpExp x`, a tie going to the
even significand. The exponent has no upper bound; a result of magnitude `2 ^ 1024` or more is
a number the engine replaces by an infinity. -/
def roundDouble (x : ℚ) : ℚ := (roundHalfEven (x / 2 ^ ulpExp x) : ℚ) * 2 ^ ulpExp x

/-- The rational `d` is the value of a double: rounding leaves it unchanged. -/
def IsDouble (d : ℚ) : Prop := roundDouble d = d

instance (d : ℚ) : Decidable (IsDouble d) := by
  unfold IsDouble
  infer_instance

/-- A double of moderate size: zero, or of magnitude between `2 ^ (-500)` and `2 ^ 500`. The
differences, quotients, sums and products by 100 that the plugins form of such amounts stay
far below `2 ^ 1024`. -/
def Moderate (d : ℚ) : Prop :=
  IsDouble d ∧ (d = 0 ∨ ((2 : ℚ) ^ (-500 : ℤ) ≤ |d| ∧ |d| ≤ (2 : ℚ) ^ (500 : ℤ)))

instance (d : ℚ) : Decidable (Moderate d) := by
  unfold Moderate
  infer_instance

/-- The sum `a + b` of two doubles. -/
def fadd (a b : ℚ) : ℚ := roundDouble (a + b)

/-- The difference `a - b` of two doubles. -/
def fsub (a b : ℚ) : ℚ := roundDouble (a - b)

/-- The product `a * b` of two doubles. -/
def fmul (a b : ℚ) : ℚ := roundDouble (a * b)

/-- The quotient `a / b` of two doubles, `b` not zero. -/
def fdiv (a b : ℚ) : ℚ := roundDouble (a / b)

/-- The sum of a list of doubles as `reduce` accumulates it: from the left, starting at 0. -/
def fsum (l : List ℚ) : ℚ := l.foldl fadd 0

/-- Number-to-string conversion of template literals. -/
def numberToString (h : Host) (q : ℚ) : String :=
  if q.den = 1 ∧ |q.num| < 10 ^ 21 then toString q.num else h.showOther q

/-- Interpolation of a number property into a template literal. -/
def interpNum (h : Host) : JsOpt ℚ → String
  | .undefined => "undefined"
  | .null => "null"
  | .val q => numberToString h q

/-- The call `String(n).padStart(2, '0')` for a calendar field. -/
def padStart2 (n : ℕ) : String :=
  let s := toString n
  String.mk (List.replicate (2 - s.length) '0') ++ s

/-- The property `length` of a string: its number of UTF-16 code units. -/
def jsLength (s : String) : ℕ := (s.data.map (fun c => if c.toNat < 65536 then 1 else 2)).sum

/-- The method `String.prototype.includes`. -/
def includes (s t : String) : Bool := decide (t.data <:+: s.data)

/-- The text `s` ends with the text `t`. -/
def endsWith (s t : String) : Bool := decide (t.data <:+ s.data)

/-- The conversion of a number property to a number in arithmetic; `none` is NaN. -/
def toNumber : JsOpt ℚ → Option ℚ
  | .undefined => none
  | .null => some 0
  | .val q => some q

/-- The decimal that `x.toFixed(1)` prints for a double `x`: the multiple of one tenth nearest
to the value of `x`, ties away from zero. (A double of magnitude 10^21 or more is printed in
full; such a double is an integer, which the rounding below leaves unchanged.) `parseFloat`
then reads the decimal as the nearest double. -/
def toFixed1 (x : ℚ) : ℚ :=
  if x < 0 then -((⌊-x * 10 + 1 / 2⌋ : ℤ) : ℚ) / 10
  else ((⌊x * 10 + 1 / 2⌋ : ℤ) : ℚ) / 10

/-- The object returned by `validateConfig`. -/
structure Validation where
  valid : Bool
  message : Option String
  deriving DecidableEq, Repr

/-- An outgoing HTTP request. -/
structure Request where
  url : String
  method : String
  headers : List (String × String)
  body : Option String
  deriving DecidableEq, Repr

/-- An HTTP response: status line, body text, and the body as `JSON.parse` reads it. -/
structure Response (β : Type) where
  ok : Bool
  status : ℕ
  statusText : String
  text : String
  json : Parsed β

/-- Upper-casing of the ASCII letters. -/
def upperAscii (s : String) : String := String.mk (s.data.map Char.toUpper)

/-- Removal of leading and trailing white space. -/
def trimSpaces (s : String) : String :=
  String.mk ((s.data.dropWhile Char.isWhitespace).reverse.dropWhile Char.isWhitespace).reverse

/-- A host for the worked examples: the clock reads 0, three ISO time stamps of January 1970
parse to their time values, calendar fields are those of UTC in January 1970, and the string
routines are the ASCII ones (`substring` counts characters, which are the code units of a text
in the basic plane). -/
def demoHost : Host where
  now := 0
  parseDate := fun s =>
    if s = "1970-01-11T00:00:00.000Z" then some 864000000
    else if s = "1969-12-31T00:00:00.000Z" then some (-86400000)
    else if s = "1970-01-01T05:30:00.000Z" then some 19800000
    else none
  getMonth := fun _ => 0
  getDate := fun t => (t / 86400000).toNat + 1
  getHours := fun t => ((t / 3600000) % 24).toNat
  getMinutes := fun t => ((t / 60000) % 60).toNat
  toLocaleDateString := fun t => "1970/01/" ++ padStart2 ((t / 86400000).toNat + 1)
  toUpperCase := upperAscii
  trim := trimSpaces
  substring := fun s a b => String.mk ((s.data.drop a).take (b - a))
  showOther := fun _ => "?"

/-! ## 88code-balance -/

namespace Code88

def API_URL : String := "https://www.88code.org/admin-api/cc-admin/system/subscription/my"

structure SubscriptionPlan where
  planType : JsOpt String
  creditLimit : JsOpt ℚ
  deriving DecidableEq, Repr

structure Subscription where
  subscriptionStatus : JsOpt String
  isActive : JsOpt Bool
  startDate : JsOpt String
  subscriptionPlan : JsOpt SubscriptionPlan
  subscriptionPlanName : JsOpt String
  currentCredits : JsOpt ℚ
  canResetNow : JsOpt Bool
  nextResetAvailableAt : JsOpt String
  resetTimes : JsOpt ℚ
  remainingDays : JsOpt ℚ
  deriving DecidableEq, Repr

/-- The body of the subscription endpoint, success or error. -/
structure Envelope where
  code : JsOpt ℚ
  ok : JsOpt Bool
  msg : JsOpt String
  data : JsOpt (List Subscription)
  deriving DecidableEq, Repr

structure Config where
  authToken : JsOpt String
  deriving DecidableEq, Repr

structure Limit where
  limitType : String
  label : String
  unit : String
  usage : Option ℚ
  remaining : ℚ
  currentValue : Option ℚ
  percentage : Option ℤ
  nextResetTime : Option String
  statusText : String
  resetToday : Option Bool
  isPayPerUse : Bool
  deriving DecidableEq, Repr

structure BalanceResult where
  dataType : String
  balance : ℚ
  currency : String
  limits : List Limit
  showTotal : Bool
  lastUpdated : ℤ
  deriving DecidableEq, Repr

/-- The plan object `sub.subscriptionPlan || {}`. -/
def planOf (sub : Subscription) : SubscriptionPlan :=
  nullish sub.subscriptionPlan ⟨.undefined, .undefined⟩

def hasStarted (h : Host) (startDate : JsOpt String) : Bool :=
  match startDate with
  | .val s =>
    if s = "" then false
    else
      match h.parseDate s with
      | some t => decide (t ≤ h.now)
      | none => false
  | _ => false

def formatDateTime (h : Host) (dateStr : JsOpt String) : String :=
  match dateStr with
  | .val s =>
    if s = "" then "-"
    else
      match h.parseDate s with
      | some t =>
        padStart2 (h.getMonth t + 1) ++ "-" ++ padStart2 (h.getDate t) ++ " " ++
          padStart2 (h.getHours t) ++ ":" ++ padStart2 (h.getMinutes t)
      | none => "NaN-NaN NaN:NaN"
  | _ => "-"

def getResetStatusText (h : Host) (sub : Subscription) : String :=
  if truthyStr sub.nextResetAvailableAt then
    formatDateTime h sub.nextResetAvailableAt ++ " 可重置"
  else
    match sub.resetTimes with
    | .val r =>
      if r < 2 then "可重置 (" ++ numberToString h (2 - r) ++ "/2)" else "可重置"
    | _ => "可重置"

def isPayPerUse (h : Host) (sub : Subscription) : Bool :=
  let plan := planOf sub
  let planType := h.toUpperCase (strOr plan.planType "")
  let planName := h.toUpperCase (strOr sub.subscriptionPlanName "")
  if planType = "PAY_PER_USE" ∨ planType = "PAYGO" ∨ planType = "PAY_AS_YOU_GO" then true
  else if includes planName "PAYGO" || includes planName "按量" || includes planName "PAY_PER_USE"
  then true
  else
    let limitless : Bool :=
      match plan.creditLimit with
      | .val c => decide (c = 0)
      | _ => true
    let hasCredits : Bool :=
      match sub.currentCredits with
      | .val c => decide (0 ≤ c)
      | _ => false
    if limitless && hasCredits then
      if !truthyBool sub.canResetNow && !truthyStr sub.nextResetAvailableAt then true else false
    else false

/-- The filter callback of `fetchData`: active and already started. -/
def isActiveSub (h : Host) (sub : Subscription) : Bool :=
  let isActive := decide (sub.subscriptionStatus = .val "活跃中") || decide (sub.isActive = .val true)
  let started := hasStarted h sub.startDate
  isActive && started

/-- The map callback of `fetchData`: one limit entry per active subscription. -/
def toLimit (h : Host) (sub : Subscription) : Limit :=
  let plan := planOf sub
  let currentCredits := numOr sub.currentCredits 0
  let payPerUse := isPayPerUse h sub
  if payPerUse then
    let statusText := "剩余 " ++ interpNum h sub.remainingDays ++ " 天"
    { limitType := strOr sub.subscriptionPlanName "PAY_PER_USE"
      label := strOr sub.subscriptionPlanName "按量付费"
      unit := "$"
      usage := none
      remaining := currentCredits
      currentValue := none
      percentage := none
      nextResetTime := none
      statusText := statusText
      resetToday := none
      isPayPerUse := true }
  else
    let creditLimit := numOr plan.creditLimit 0
    let used := fsub creditLimit currentCredits
    let percentage : ℤ :=
      if creditLimit > 0 then mathRound (fmul (fdiv used creditLimit) 100) else 0
    let statusText := "剩余 " ++ interpNum h sub.remainingDays ++ " 天"
    let resetStatus := getResetStatusText h sub
    let statusText := if resetStatus ≠ "" then statusText ++ " | " ++ resetStatus else statusText
    let resetToday : Bool :=
      match sub.nextResetAvailableAt with
      | .val _ => true
      | _ => false
    { limitType := strOr sub.subscriptionPlanName "SUBSCRIPTION"
      label := strOr sub.subscriptionPlanName "订阅套餐"
      unit := "$"
      usage := some creditLimit
      remaining := currentCredits
      currentValue := some (if used > 0 then used else 0)
      percentage := some percentage
      nextResetTime := strOrNull sub.nextResetAvailableAt
      statusText := statusText
      resetToday := some resetToday
      isPayPerUse := false }

/-- The message of the error thrown for a response that is not ok, before the 401/403 test. -/
def httpErrorMsg (h : Host) (response : Response Envelope) : String :=
  let errorMsg := "HTTP " ++ numberToString h response.status
  match response.json with
  | .value errorData =>
    match errorData.msg with
    | .val m => if m != "" then m else errorMsg
    | _ => errorMsg
  | _ => if jsLength response.text < 200 then errorMsg ++ ": " ++ response.text else errorMsg

/-- The part of `fetchData` after the envelope check. -/
def fromSubscriptions (h : Host) (subscriptions : List Subscription) :
    Except JsError BalanceResult :=
  match subscriptions with
  | [] => .error (.error "未找到订阅数据")
  | firstSub :: _ =>
    let activeSubscriptions := subscriptions.filter (isActiveSub h)
    if activeSubscriptions.length = 0 then
      .error (.error ("没有活跃的订阅 (状态: " ++ strOr firstSub.subscriptionStatus "未知" ++ ")"))
    else
      let limits := activeSubscriptions.map (toLimit h)
      let totalBalance :=
        activeSubscriptions.foldl (fun sum sub => fadd sum (numOr sub.currentCredits 0)) 0
      .ok
        { dataType := "balance"
          balance := fdiv (mathRound (fmul totalBalance 100)) 100
          currency := "USD"
          limits := limits
          showTotal := false
          lastUpdated := h.now }

/-- The part of `fetchData` after the response has arrived. -/
def fromResponse (h : Host) (response : Response Envelope) : Except JsError BalanceResult :=
  if !response.ok then
    if response.status = 403 then
      .error (.error "认证失败 (403): Token 可能已过期或格式不正确")
    else if response.status = 401 then
      .error (.error "未授权 (401): 请检查 Token 是否正确")
    else .error (.error (httpErrorMsg h response))
  else
    match response.json with
    | .syntaxError => .error (.error ("响应解析失败: " ++ h.substring response.text 0 100))
    | .null => .error .typeError
    | .value result =>
      if result.code ≠ .val 0 ∨ !truthyBool result.ok then
        .error (.error
          (if truthyStr result.msg then strOr result.msg ""
           else "API 错误: " ++ interpNum h result.code))
      else
        fromSubscriptions h (nullish result.data [])

def fetchData (h : Host) (fetch : Request → Except JsError (Response Envelope))
    (config : Config) : Except JsError BalanceResult :=
  if !truthyStr config.authToken then .error (.error "请配置 Authorization Token")
  else
    let token := h.trim (strOr config.authToken "")
    match fetch ⟨API_URL, "GET", [("Authorization", token)], none⟩ with
    | .error e => .error e
    | .ok response => fromResponse h response

/-- The upstream answers the request made for `config` with a success envelope whose
subscription list is `subs`. -/
def Delivers (h : Host) (fetch : Request → Except JsError (Response Envelope))
    (config : Config) (subs : List Subscription) : Prop :=
  truthyStr config.authToken = true ∧
    ∃ response result,
      fetch ⟨API_URL, "GET", [("Authorization", h.trim (strOr config.authToken ""))], none⟩ =
          .ok response ∧
        response.ok = true ∧ response.json = .value result ∧ result.code = .val 0 ∧
          truthyBool result.ok = true ∧ nullish result.data [] = subs

/-- A subscription record for the worked examples: active since the day before the clock
value, plan `Pro` of type `MONTHLY`, `resetTimes` 1, 12 days left. -/
def demoSub (creditLimit currentCredits : ℚ) (nextResetAvailableAt : JsOpt String) :
    Subscription where
  subscriptionStatus := .val "活跃中"
  isActive := .undefined
  startDate := .val "1969-12-31T00:00:00.000Z"
  subscriptionPlan := .val ⟨.val "MONTHLY", .val creditLimit⟩
  subscriptionPlanName := .val "Pro"
  currentCredits := .val currentCredits
  canResetNow := .val true
  nextResetAvailableAt := nextResetAvailableAt
  resetTimes := .val 1
  remainingDays := .val 12

/-- An upstream that answers every request with status 200 and the given list. -/
def demoFetch (subs : List Subscription) (_ : Request) : Except JsError (Response Envelope) :=
  .ok ⟨true, 200, "OK", "", .value ⟨.val 0, .val true, .undefined, .val subs⟩⟩

def demoConfig : Config := ⟨.val "sk-demo-token"⟩

/-- A pay-per-use subscription for the worked examples: plan type `paygo`, no credit limit. -/
def demoPaygo : Subscription where
  subscriptionStatus := .val "活跃中"
  isActive := .val true
  startDate := .val "1969-12-31T00:00:00.000Z"
  subscriptionPlan := .val ⟨.val "paygo", .undefined⟩
  subscriptionPlanName := .val "Credits"
  currentCredits := .val 25
  canResetNow := .undefined
  nextResetAvailableAt := .null
  resetTimes := .undefined
  remainingDays := .val 12

def validateConfig (config : Config) : Validation :=
  if !truthyStr config.authToken then ⟨false, some "Authorization Token 不能为空"⟩
  else if jsLength (strOr config.authToken "") < 10 then ⟨false, some "Token 格式不正确（太短）"⟩
  else ⟨true, none⟩

end Code88

/-! ## antigravity -/

namespace Antigravity

def API_URL : String :=
  "https://daily-cloudcode-pa.sandbox.googleapis.com/v1internal:fetchAvailableModels"

structure QuotaInfo where
  remainingFraction : JsOpt ℚ
  resetTime : JsOpt String
  deriving DecidableEq, Repr

/-- A model object of the upstream answer; it is taken to carry no `id` property of its own,
so that `id` in the spread `{ id, ...model }` stays the key of the entry. -/
structure Model where
  displayName : JsOpt String
  quotaInfo : JsOpt QuotaInfo
  deriving DecidableEq, Repr

structure ErrorBody where
  message : JsOpt String
  deriving DecidableEq, Repr

/-- The body of the model endpoint; `models` lists the entries of the object in the order of
`Object.entries`. -/
structure Payload where
  models : JsOpt (List (String × Model))
  error : JsOpt ErrorBody
  deriving DecidableEq, Repr

structure Config where
  authorization : JsOpt String
  userAgent : JsOpt String
  clientSecret : JsOpt String
  clientId : JsOpt String
  deriving DecidableEq, Repr

structure Limit where
  limitType : String
  label : String
  unit : String
  usage : ℚ
  remaining : ℤ
  currentValue : ℤ
  percentage : ℤ
  nextResetTime : Option String
  statusText : String
  resetToday : Bool
  isPayPerUse : Bool
  deriving DecidableEq, Repr

structure BalanceResult where
  dataType : String
  balance : ℤ
  currency : String
  limits : List Limit
  showTotal : Bool
  lastUpdated : ℤ
  deriving DecidableEq, Repr

/-- The text for a reset time; the caller passes a truthy `resetTime`, `none` is the result
`null`. -/
def formatResetTime (h : Host) (resetTime : JsOpt String) : Option String :=
  if !truthyStr resetTime then none
  else
    match h.parseDate (strOr resetTime "") with
    | none => some "NaN分钟后重置"
    | some reset =>
      let diffMs := reset - h.now
      if diffMs ≤ 0 then some "即将重置"
      else
        let diffHours := diffMs / (1000 * 60 * 60)
        let diffMinutes := (diffMs % (1000 * 60 * 60)) / (1000 * 60)
        if diffHours > 24 then
          let days := diffHours / 24
          some (toString days ++ "天后重置")
        else if diffHours > 0 then
          some (toString diffHours ++ "小时" ++ toString diffMinutes ++ "分后重置")
        else some (toString diffMinutes ++ "分钟后重置")

/-- The expression `m.quotaInfo?.remainingFraction ?? 1`. -/
def remainingOf (m : Model) : ℚ :=
  match m.quotaInfo with
  | .val q => nullish q.remainingFraction 1
  | _ => 1

/-- The entries of `models` that pass the `displayName` filter, in `Object.entries` order. -/
def validModels (models : List (String × Model)) : List (String × Model) :=
  models.filter (fun e => truthyStr e.2.displayName)

/-- The call `validModels.sort(...)`: the stable ascending sort on the remaining fraction. -/
def sortModels (ms : List (String × Model)) : List (String × Model) :=
  ms.insertionSort (fun a b => remainingOf a.2 ≤ remainingOf b.2)

/-- The map callback of `fetchData`: one limit entry per kept model. -/
def toLimit (h : Host) (e : String × Model) : Limit :=
  let model := e.2
  let quotaInfo : QuotaInfo := nullish model.quotaInfo ⟨.undefined, .undefined⟩
  let remainingFraction := nullish quotaInfo.remainingFraction 1
  let resetTime := strOrNull quotaInfo.resetTime
  let usedFraction := fsub 1 remainingFraction
  let percentage := mathRound (fmul usedFraction 100)
  let statusText := "剩余 " ++ numberToString h (mathRound (fmul remainingFraction 100)) ++ "%"
  let statusText :=
    match formatResetTime h quotaInfo.resetTime with
    | some resetLabel => if resetLabel ≠ "" then statusText ++ " | " ++ resetLabel else statusText
    | none => statusText
  { limitType := e.1
    label := strOr model.displayName ""
    unit := "%"
    usage := 100
    remaining := mathRound (fmul remainingFraction 100)
    currentValue := mathRound (fmul usedFraction 100)
    percentage := percentage
    nextResetTime := resetTime
    statusText := statusText
    resetToday := false
    isPayPerUse := false }

/-- The message of the error thrown for a response that is not ok, before the 401/403 test. -/
def httpErrorMsg (h : Host) (response : Response Payload) : String :=
  let errorMsg := "HTTP " ++ numberToString h response.status
  match response.json with
  | .value errorData =>
    match errorData.error with
    | .val err => if truthyStr err.message then strOr err.message "" else errorMsg
    | _ => errorMsg
  | _ => if jsLength response.text < 200 then errorMsg ++ ": " ++ response.text else errorMsg

/-- The part of `fetchData` after the body has been parsed. -/
def fromModels (h : Host) (models : List (String × Model)) : Except JsError BalanceResult :=
  if models.length = 0 then .error (.error "未找到模型数据")
  else
    let kept := validModels models
    if kept.length = 0 then .error (.error "未找到有效的模型套餐")
    else
      let kept := sortModels kept
      let limits := kept.map (toLimit h)
      let avgRemaining :=
        fdiv (kept.foldl (fun sum m => fadd sum (remainingOf m.2)) 0) kept.length
      .ok
        { dataType := "balance"
          balance := mathRound (fmul avgRemaining 100)
          currency := "%"
          limits := limits
          showTotal := false
          lastUpdated := h.now }

/-- The part of `fetchData` after the response has arrived. -/
def fromResponse (h : Host) (response : Response Payload) : Except JsError BalanceResult :=
  if !response.ok then
    if response.status = 403 then .error (.error "认证失败 (403): Token 可能已过期")
    else if response.status = 401 then .error (.error "未授权 (401): 请检查认证信息")
    else .error (.error (httpErrorMsg h response))
  else
    match response.json with
    | .syntaxError => .error (.error ("响应解析失败: " ++ h.substring response.text 0 100))
    | .null => .error .typeError
    | .value result => fromModels h (nullish result.models [])

/-- The request `fetchData` sends. -/
def requestFor (h : Host) (config : Config) : Request where
  url := API_URL
  method := "POST"
  headers :=
    [("Authorization", h.trim (strOr config.authorization "")),
     ("Content-Type", "application/json"),
     ("User-Agent", h.trim (strOr config.userAgent "")),
     ("client_secret", h.trim (strOr config.clientSecret "")),
     ("client_id", h.trim (strOr config.clientId ""))]
  body := some "\x7b\x7d"

def fetchData (h : Host) (fetch : Request → Except JsError (Response Payload))
    (config : Config) : Except JsError BalanceResult :=
  if !truthyStr config.authorization then .error (.error "请配置 Authorization")
  else if !truthyStr config.userAgent then .error (.error "请配置 User-Agent")
  else if !truthyStr config.clientSecret then .error (.error "请配置 Client Secret")
  else if !truthyStr config.clientId then .error (.error "请配置 Client ID")
  else
    match fetch (requestFor h config) with
    | .error e => .error e
    | .ok response => fromResponse h response

/-- The upstream answers the request made for `config` with a 2xx response whose body parses
to an object with the entries `models`. -/
def Delivers (h : Host) (fetch : Request → Except JsError (Response Payload))
    (config : Config) (models : List (String × Model)) : Prop :=
  truthyStr config.authorization = true ∧ truthyStr config.userAgent = true ∧
    truthyStr config.clientSecret = true ∧ truthyStr config.clientId = true ∧
      ∃ response result,
        fetch (requestFor h config) = .ok response ∧ response.ok = true ∧
          response.json = .value result ∧ nullish result.models [] = models

/-- A model record for the worked examples. -/
def demoModel (displayName : JsOpt String) (remainingFraction : ℚ) : Model :=
  ⟨displayName, .val ⟨.val remainingFraction, .undefined⟩⟩

/-- The models of the worked example: B with `remainingFraction` 0.8, an entry without display
name, and A with `remainingFraction` 0.2, each fraction being the double that `JSON.parse` reads
from the decimal. -/
def demoModels : List (String × Model) :=
  [("model-b", demoModel (.val "Model B") (roundDouble (4 / 5))),
   ("internal", demoModel .undefined (1 / 2)),
   ("model-a", demoModel (.val "Model A") (roundDouble (1 / 5)))]

/-- An upstream that answers every request with status 200 and the given models. -/
def demoFetch (models : List (String × Model)) (_ : Request) :
    Except JsError (Response Payload) :=
  .ok ⟨true, 200, "OK", "", .value ⟨.val models, .undefined⟩⟩

def demoConfig : Config := ⟨.val "Bearer demo", .val "demo-agent", .val "secret", .val "client"⟩

def validateConfig (config : Config) : Validation :=
  if !truthyStr config.authorization then ⟨false, some "Authorization 不能为空"⟩
  else if !truthyStr config.userAgent then ⟨false, some "User-Agent 不能为空"⟩
  else if !truthyStr config.clientSecret then ⟨false, some "Client Secret 不能为空"⟩
  else if !truthyStr config.clientId then ⟨false, some "Client ID 不能为空"⟩
  else ⟨true, none⟩

end Antigravity

/-! ## right-code -/

namespace RightCode

def API_URL : String := "https://www.right.codes/subscriptions/list"

structure Subscription where
  id : JsOpt ℚ
  name : JsOpt String
  total_quota : JsOpt ℚ
  remaining_quota : JsOpt ℚ
  expired_at : JsOpt String
  reset_today : JsOpt Bool
  last_reset_at : JsOpt String
  deriving DecidableEq, Repr

structure Payload where
  subscriptions : JsOpt (List Subscription)
  deriving DecidableEq, Repr

structure Config where
  apiKey : JsOpt String
  deriving DecidableEq, Repr

/-- A limit entry; `none` in a number field is NaN. The field `type` of the source is
`type_`. -/
structure Limit where
  type_ : String
  label : JsOpt String
  unit : String
  usage : JsOpt ℚ
  currentValue : Option ℚ
  remaining : JsOpt ℚ
  expiredAt : JsOpt String
  expiredAtFormatted : String
  daysRemaining : Option ℤ
  usagePercent : Option ℚ
  resetToday : JsOpt Bool
  lastResetAt : JsOpt String
  status : String
  statusText : String
  deriving DecidableEq, Repr

structure BalanceResult where
  dataType : String
  balance : ℕ
  currency : String
  limits : List Limit
  lastUpdated : ℤ
  deriving DecidableEq, Repr

def isExpired (h : Host) (expiredAt : JsOpt String) : Bool :=
  if !truthyStr expiredAt then true
  else
    match h.parseDate (strOr expiredAt "") with
    | some expireDate => decide (h.now > expireDate)
    | none => false

def getDaysRemaining (h : Host) (expiredAt : JsOpt String) : Option ℤ :=
  if !truthyStr expiredAt then some 0
  else
    match h.parseDate (strOr expiredAt "") with
    | some expireDate =>
      let diffMs := expireDate - h.now
      if diffMs ≤ 0 then some 0
      else some ⌈(diffMs : ℚ) / (1000 * 60 * 60 * 24)⌉
    | none => none

def formatDate (h : Host) (dateStr : JsOpt String) : String :=
  if !truthyStr dateStr then "未知"
  else
    match h.parseDate (strOr dateStr "") with
    | some date => h.toLocaleDateString date
    | none => "Invalid Date"

/-- The map callback of `fetchData`: one limit entry per subscription that is not expired. -/
def toLimit (h : Host) (sub : Subscription) : Limit :=
  let daysRemaining := getDaysRemaining h sub.expired_at
  let usedQuota : Option ℚ :=
    match toNumber sub.total_quota, toNumber sub.remaining_quota with
    | some t, some r => some (fsub t r)
    | _, _ => none
  let usagePercent : Option ℚ :=
    match sub.total_quota with
    | .val t =>
      if t > 0 then
        match usedQuota with
        | some u => some (roundDouble (toFixed1 (fmul (fdiv u t) 100)))
        | none => none
      else some 0
    | _ => some 0
  let warning : Bool :=
    match daysRemaining with
    | some d => decide (d ≤ 3)
    | none => false
  let daysText : String :=
    match daysRemaining with
    | some d => toString d
    | none => "NaN"
  { type_ := "subscription_" ++ interpNum h sub.id
    label := sub.name
    unit := "$"
    usage := sub.total_quota
    currentValue := usedQuota
    remaining := sub.remaining_quota
    expiredAt := sub.expired_at
    expiredAtFormatted := formatDate h sub.expired_at
    daysRemaining := daysRemaining
    usagePercent := usagePercent
    resetToday := sub.reset_today
    lastResetAt := sub.last_reset_at
    status := if warning then "warning" else "active"
    statusText := "剩余 " ++ daysText ++ " 天" }

/-- The part of `fetchData` after the response has arrived. -/
def fromResponse (h : Host) (response : Response Payload) : Except JsError BalanceResult :=
  if !response.ok then
    .error (.error ("HTTP " ++ numberToString h response.status ++ ": " ++ response.statusText))
  else
    match response.json with
    | .syntaxError => .error .syntaxError
    | .null => .error .typeError
    | .value result =>
      let allSubscriptions := nullish result.subscriptions []
      let subscriptions := allSubscriptions.filter (fun sub => !isExpired h sub.expired_at)
      if subscriptions.length = 0 then .error (.error "没有有效订阅")
      else
        let limits := subscriptions.map (toLimit h)
        .ok
          { dataType := "balance"
            balance := subscriptions.length
            currency := "个有效订阅"
            limits := limits
            lastUpdated := h.now }

/-- The request `fetchData` sends. -/
def requestFor (config : Config) : Request where
  url := API_URL
  method := "GET"
  headers := [("Authorization", strOr config.apiKey ""), ("Content-Type", "application/json")]
  body := none

def fetchData (h : Host) (fetch : Request → Except JsError (Response Payload))
    (config : Config) : Except JsError BalanceResult :=
  if !truthyStr config.apiKey then .error (.error "请配置 Authorization Token")
  else
    match fetch (requestFor config) with
    | .error e => .error e
    | .ok response => fromResponse h response

/-- The upstream answers the request made for `config` with a 2xx response whose body parses
to an object with the subscription list `subs`. -/
def Delivers (fetch : Request → Except JsError (Response Payload)) (config : Config)
    (subs : List Subscription) : Prop :=
  truthyStr config.apiKey = true ∧
    ∃ response result,
      fetch (requestFor config) = .ok response ∧ response.ok = true ∧
        response.json = .value result ∧ nullish result.subscriptions [] = subs

/-- A subscription record for the worked examples. -/
def demoSub (id : ℚ) (total remaining : ℚ) (expired_at : JsOpt String) : Subscription where
  id := .val id
  name := .val "Plan"
  total_quota := .val total
  remaining_quota := .val remaining
  expired_at := expired_at
  reset_today := .val false
  last_reset_at := .null

/-- The subscriptions of the worked example: one that expires ten days after the clock value,
one that expired the day before, one without expiry date. -/
def demoSubs : List Subscription :=
  [demoSub 1 100 25 (.val "1970-01-11T00:00:00.000Z"),
   demoSub 2 100 50 (.val "1969-12-31T00:00:00.000Z"),
   demoSub 3 100 75 .undefined]

/-- An upstream that answers every request with status 200 and the given list. -/
def demoFetch (subs : List Subscription) (_ : Request) : Except JsError (Response Payload) :=
  .ok ⟨true, 200, "OK", "", .value ⟨.val subs⟩⟩

def demoConfig : Config := ⟨.val "sk-demo-token"⟩

def validateConfig (config : Config) : Validation :=
  if !truthyStr config.apiKey then ⟨false, some "Authorization Token 不能为空"⟩
  else if jsLength (strOr config.apiKey "") < 10 then ⟨false, some "Token 格式不正确"⟩
  else ⟨true, none⟩

end RightCode

/-! ## zhipu-balance -/

namespace Zhipu

def API_URL : String := "https://bigmodel.cn/api/monitor/usage/quota/limit"

/-- What a property lookup on the object literal `LIMIT_TYPE_MAP` yields: one of its two own
entries, or a member inherited from `Object.prototype` (a function or object, which has neither
a `label` nor a `unit` property). -/
inductive TypeConfig where
  | entry (label unit : String)
  | inherited
  deriving DecidableEq, Repr

/-- The property names every plain object inherits from `Object.prototype`. -/
def objectPrototypeKeys : List String :=
  ["constructor", "hasOwnProperty", "isPrototypeOf", "propertyIsEnumerable", "toLocaleString",
   "toString", "valueOf", "__proto__", "__defineGetter__", "__defineSetter__",
   "__lookupGetter__", "__lookupSetter__"]

/-- The lookup `LIMIT_TYPE_MAP[key]`; `none` is `undefined`. -/
def LIMIT_TYPE_MAP (key : String) : Option TypeConfig :=
  if key = "TIME_LIMIT" then some (.entry "MCP 用量" "次")
  else if key = "TOKENS_LIMIT" then some (.entry "模型用量" "tokens")
  else if key ∈ objectPrototypeKeys then some .inherited
  else none

/-- The property key a `type` value is converted to. -/
def propertyKey : JsOpt String → String
  | .undefined => "undefined"
  | .null => "null"
  | .val s => s

structure RawLimit where
  type : JsOpt String
  usage : JsOpt ℚ
  currentValue : JsOpt ℚ
  remaining : JsOpt ℚ
  nextResetTime : JsOpt ℚ
  deriving DecidableEq, Repr

structure Data where
  limits : JsOpt (List RawLimit)
  deriving DecidableEq, Repr

structure Envelope where
  code : JsOpt ℚ
  success : JsOpt Bool
  msg : JsOpt String
  data : JsOpt Data
  deriving DecidableEq, Repr

structure Config where
  apiKey : JsOpt String
  deriving DecidableEq, Repr

structure Limit where
  limitType : JsOpt String
  label : JsOpt String
  unit : JsOpt String
  usage : ℚ
  currentValue : ℚ
  remaining : ℚ
  percentage : ℤ
  nextResetTime : Option ℚ
  deriving DecidableEq, Repr

structure BalanceResult where
  dataType : String
  balance : ℚ
  currency : String
  limits : List Limit
  showTotal : Bool
  lastUpdated : ℤ
  deriving DecidableEq, Repr

/-- The map callback of `fetchData`: one limit entry per raw entry. -/
def toLimit (item : RawLimit) : Limit :=
  let labelUnit : JsOpt String × JsOpt String :=
    match LIMIT_TYPE_MAP (propertyKey item.type) with
    | some (.entry label unit) => (.val label, .val unit)
    | some .inherited => (.undefined, .undefined)
    | none => (item.type, .val "tokens")
  let usage := numOr item.usage 0
  let currentValue := numOr item.currentValue 0
  let percentage : ℤ := if usage > 0 then mathRound (fmul (fdiv currentValue usage) 100) else 0
  { limitType := item.type
    label := labelUnit.1
    unit := labelUnit.2
    usage := usage
    currentValue := currentValue
    remaining := numOr item.remaining 0
    percentage := percentage
    nextResetTime :=
      match item.nextResetTime with
      | .val t => if t != 0 then some t else none
      | _ => none }

/-- The raw entry list `result.data?.limits || []`. -/
def rawLimitsOf (result : Envelope) : List RawLimit :=
  match result.data with
  | .val d => nullish d.limits []
  | _ => []

/-- The part of `fetchData` after the response has arrived. -/
def fromResponse (h : Host) (response : Response Envelope) : Except JsError BalanceResult :=
  if !response.ok then
    .error (.error ("HTTP " ++ numberToString h response.status ++ ": " ++ response.statusText))
  else
    match response.json with
    | .syntaxError => .error .syntaxError
    | .null => .error .typeError
    | .value result =>
      if result.code ≠ .val 200 ∨ !truthyBool result.success then
        .error (.error
          (if truthyStr result.msg then strOr result.msg ""
           else "API 错误: " ++ interpNum h result.code))
      else
        let rawLimits := rawLimitsOf result
        if rawLimits.length = 0 then .error (.error "未找到限额数据")
        else
          .ok
            { dataType := "balance"
              balance := 0
              currency := "CNY"
              limits := rawLimits.map toLimit
              showTotal := false
              lastUpdated := h.now }

/-- The request `fetchData` sends. -/
def requestFor (config : Config) : Request where
  url := API_URL
  method := "GET"
  headers := [("Authorization", strOr config.apiKey ""), ("Content-Type", "application/json")]
  body := none

def fetchData (h : Host) (fetch : Request → Except JsError (Response Envelope))
    (config : Config) : Except JsError BalanceResult :=
  if !truthyStr config.apiKey then .error (.error "请配置 API Key")
  else
    match fetch (requestFor config) with
    | .error e => .error e
    | .ok response => fromResponse h response

/-- The upstream answers the request made for `config` with a success envelope whose raw limit
list is `raw`. -/
def Delivers (fetch : Request → Except JsError (Response Envelope)) (config : Config)
    (raw : List RawLimit) : Prop :=
  truthyStr config.apiKey = true ∧
    ∃ response result,
      fetch (requestFor config) = .ok response ∧ response.ok = true ∧
        response.json = .value result ∧ result.code = .val 200 ∧
          truthyBool result.success = true ∧ rawLimitsOf result = raw

/-- A raw limit entry for the worked examples. -/
def demoRaw (type : JsOpt String) (usage currentValue : ℚ) : RawLimit :=
  ⟨type, .val usage, .val currentValue, .val (usage - currentValue), .undefined⟩

/-- An upstream that answers every request with status 200 and the given raw limits. -/
def demoFetch (raw : List RawLimit) (_ : Request) : Except JsError (Response Envelope) :=
  .ok ⟨true, 200, "OK", "", .value ⟨.val 200, .val true, .undefined, .val ⟨.val raw⟩⟩⟩

def demoConfig : Config := ⟨.val "0123456789abcdef0123.demo"⟩

def validateConfig (config : Config) : Validation :=
  if !truthyStr config.apiKey then ⟨false, some "API Key 不能为空"⟩
  else if jsLength (strOr config.apiKey "") < 20 then ⟨false, some "API Key 格式不正确"⟩
  else ⟨true, none⟩

end Zhipu

/-! ## Upstream answers of any status -/

namespace Code88

/-- The upstream answers the request made for `config` with `response`. -/
def Answers (h : Host) (fetch : Request → Except JsError (Response Envelope))
    (config : Config) (response : Response Envelope) : Prop :=
  truthyStr config.authToken = true ∧
    fetch ⟨API_URL, "GET", [("Authorization", h.trim (strOr config.authToken ""))], none⟩ =
      .ok response

/-- A response of the given status that is not ok, with a JSON body carrying the field `msg`. -/
def demoErrorResponse (status : ℕ) (msg : JsOpt String) : Response Envelope :=
  ⟨false, status, "Error", "(json)", .value ⟨.undefined, .undefined, msg, .undefined⟩⟩

end Code88

namespace Antigravity

/-- The upstream answers the request made for `config` with `response`. -/
def Answers (h : Host) (fetch : Request → Except JsError (Response Payload))
    (config : Config) (response : Response Payload) : Prop :=
  truthyStr config.authorization = true ∧ truthyStr config.userAgent = true ∧
    truthyStr config.clientSecret = true ∧ truthyStr config.clientId = true ∧
      fetch (requestFor h config) = .ok response

/-- A response of the given status that is not ok, with a JSON body carrying the field
`error.message`. -/
def demoErrorResponse (status : ℕ) (message : JsOpt String) : Response Payload :=
  ⟨false, status, "Error", "(json)", .value ⟨.undefined, .val ⟨message⟩⟩⟩

end Antigravity

namespace RightCode

/-- The upstream answers the request made for `config` with `response`. -/
def Answers (fetch : Request → Except JsError (Response Payload)) (config : Config)
    (response : Response Payload) : Prop :=
  truthyStr config.apiKey = true ∧ fetch (requestFor config) = .ok response

end RightCode

namespace Zhipu

/-- The upstream answers the request made for `config` with `response`. -/
def Answers (fetch : Request → Except JsError (Response Envelope)) (config : Config)
    (response : Response Envelope) : Prop :=
  truthyStr config.apiKey = true ∧ fetch (requestFor config) = .ok response

end Zhipu

/-! ## Further inputs of the worked examples -/

/-- The example host with the clock set to `now`. -/
def demoHostAt (now : ℤ) : Host := { demoHost with now := now }

namespace Code88

/-- The example subscription with credits 40 of 100, no pending reset time and the given
`resetTimes`. -/
def demoSubResets (resetTimes : JsOpt ℚ) : Subscription :=
  { demoSub 100 40 .null with resetTimes := resetTimes }

end Code88

/-! # Theorems -/

/-! ## Rounding -/

theorem mathRound_nonneg {x : ℚ} (hx : 0 ≤ x) : 0 ≤ mathRound x := by
  unfold mathRound
  exact Int.floor_nonneg.mpr (by linarith)

theorem mathRound_mono {x y : ℚ} (hxy : x ≤ y) : mathRound x ≤ mathRound y := by
  unfold mathRound
  exact Int.floor_le_floor (by linarith)

theorem mathRound_eq_iff {x : ℚ} {n : ℤ} :
    mathRound x = n ↔ (n : ℚ) ≤ x + 1 / 2 ∧ x + 1 / 2 < n + 1 := by
  unfold mathRound
  exact Int.floor_eq_iff

theorem mathRound_intCast (n : ℤ) : mathRound (n : ℚ) = n := by
  rw [mathRound_eq_iff]
  constructor <;> linarith

/-! ## Rounding to the nearest double -/

theorem roundHalfEven_cases (y : ℚ) :
    (roundHalfEven y = ⌊y⌋ ∧ y - ⌊y⌋ ≤ 1 / 2) ∨ (roundHalfEven y = ⌊y⌋ + 1 ∧ 1 / 2 ≤ y - ⌊y⌋) := by
  unfold roundHalfEven
  split
  · exact Or.inl ⟨rfl, by linarith⟩
  · rename_i h1
    split
    · exact Or.inr ⟨rfl, by linarith⟩
    · rename_i h2
      have heq : y - ⌊y⌋ = 1 / 2 := le_antisymm (not_lt.mp h2) (not_lt.mp h1)
      split
      · exact Or.inl ⟨rfl, by linarith⟩
      · exact Or.inr ⟨rfl, by linarith⟩

theorem roundHalfEven_nearest (y : ℚ) (j : ℤ) :
    |y - roundHalfEven y| ≤ |y - j| := by
  have hfl : (⌊y⌋ : ℚ) ≤ y := Int.floor_le y
  have hlt : y < ⌊y⌋ + 1 := Int.lt_floor_add_one y
  have hj : j ≤ ⌊y⌋ ∨ ⌊y⌋ + 1 ≤ j := by omega
  rcases roundHalfEven_cases y with ⟨hr, hle⟩ | ⟨hr, hle⟩
  · rw [hr]
    rcases hj with hj | hj
    · have hjq : (j : ℚ) ≤ ⌊y⌋ := by exact_mod_cast hj
      rw [abs_of_nonneg (by linarith), abs_of_nonneg (by linarith)]
      linarith
    · have hjq : ((⌊y⌋ + 1 : ℤ) : ℚ) ≤ j := by exact_mod_cast hj
      push_cast at hjq
      rw [abs_of_nonneg (by linarith), abs_of_nonpos (by linarith)]
      linarith
  · rw [hr]
    push_cast
    rcases hj with hj | hj
    · have hjq : (j : ℚ) ≤ ⌊y⌋ := by exact_mod_cast hj
      rw [abs_of_nonpos (by linarith), abs_of_nonneg (by linarith)]
      linarith
    · have hjq : ((⌊y⌋ + 1 : ℤ) : ℚ) ≤ j := by exact_mod_cast hj
      push_cast at hjq
      rw [abs_of_nonpos (by linarith), abs_of_nonpos (by linarith)]
      linarith

theorem roundHalfEven_abs_sub_le (y : ℚ) : |y - roundHalfEven y| ≤ 1 / 2 := by
  have hfl : (⌊y⌋ : ℚ) ≤ y := Int.floor_le y
  have hlt : y < ⌊y⌋ + 1 := Int.lt_floor_add_one y
  rcases roundHalfEven_cases y with ⟨hr, hle⟩ | ⟨hr, hle⟩
  · rw [hr, abs_of_nonneg (by linarith)]
    exact hle
  · rw [hr]
    push_cast
    rw [abs_of_nonpos (by linarith)]
    linarith

theorem roundHalfEven_eq_of_abs_lt {y : ℚ} {n : ℤ} (h : |y - n| < 1 / 2) :
    roundHalfEven y = n := by
  have h1 := roundHalfEven_abs_sub_le y
  have h2 : |((roundHalfEven y : ℤ) : ℚ) - n| < 1 := by
    calc |((roundHalfEven y : ℤ) : ℚ) - n|
        = |(y - n) - (y - roundHalfEven y)| := by ring_nf
      _ ≤ |y - n| + |y - roundHalfEven y| := abs_sub _ _
      _ < 1 := by linarith
  have h3 : |roundHalfEven y - n| < 1 := by exact_mod_cast h2
  have h4 := abs_lt.mp h3
  omega

theorem roundHalfEven_intCast (n : ℤ) : roundHalfEven (n : ℚ) = n :=
  roundHalfEven_eq_of_abs_lt (by simp)

theorem two_zpow_pos (e : ℤ) : (0 : ℚ) < 2 ^ e := zpow_pos (by norm_num) e

theorem ulpExp_ge (x : ℚ) : -1074 ≤ ulpExp x := le_max_right _ _

theorem ulpExp_ge_log (x : ℚ) : Int.log 2 |x| - 52 ≤ ulpExp x := le_max_left _ _

theorem zpow_log_le_abs {x : ℚ} (hx : x ≠ 0) : (2 : ℚ) ^ Int.log 2 |x| ≤ |x| := by
  have h := @Int.zpow_log_le_self ℚ _ _ 2 |x| (by norm_num) (abs_pos.mpr hx)
  simpa using h

theorem abs_lt_zpow_log_succ (x : ℚ) : |x| < (2 : ℚ) ^ (Int.log 2 |x| + 1) := by
  have h := @Int.lt_zpow_succ_log_self ℚ _ _ 2 (by norm_num) |x|
  simpa using h

theorem log_eq_of_bounds {x : ℚ} {k : ℤ} (h1 : (2 : ℚ) ^ k ≤ |x|) (h2 : |x| < (2 : ℚ) ^ (k + 1)) :
    Int.log 2 |x| = k := by
  have hpos : (0 : ℚ) < |x| := lt_of_lt_of_le (two_zpow_pos k) h1
  have a1 : k ≤ Int.log 2 |x| := by
    apply (@Int.zpow_le_iff_le_log ℚ _ _ 2 (by norm_num) k |x| hpos).mp
    simpa using h1
  have a2 : Int.log 2 |x| < k + 1 := by
    apply (@Int.lt_zpow_iff_log_lt ℚ _ _ 2 (by norm_num) (k + 1) |x| hpos).mp
    simpa using h2
  omega

theorem roundDouble_zero : roundDouble 0 = 0 := by
  unfold roundDouble
  have h : roundHalfEven ((0 : ℚ) / 2 ^ ulpExp 0) = 0 := by
    rw [zero_div]
    exact_mod_cast roundHalfEven_intCast 0
  rw [h]
  simp

theorem sub_grid_eq (x : ℚ) (e j : ℤ) :
    |x - (j : ℚ) * 2 ^ e| = 2 ^ e * |x / 2 ^ e - j| := by
  have hp := two_zpow_pos e
  have h : x - (j : ℚ) * 2 ^ e = 2 ^ e * (x / 2 ^ e - j) := by
    field_simp
    ring
  rw [h, abs_mul, abs_of_pos hp]

theorem roundDouble_nearest_grid (x : ℚ) (j : ℤ) :
    |x - roundDouble x| ≤ |x - (j : ℚ) * 2 ^ ulpExp x| := by
  unfold roundDouble
  rw [sub_grid_eq, sub_grid_eq]
  exact mul_le_mul_of_nonneg_left (roundHalfEven_nearest _ j) (two_zpow_pos _).le

theorem roundDouble_abs_sub_le (x : ℚ) : |x - roundDouble x| ≤ 2 ^ ulpExp x / 2 := by
  unfold roundDouble
  rw [sub_grid_eq]
  have h := roundHalfEven_abs_sub_le (x / 2 ^ ulpExp x)
  have hp := two_zpow_pos (ulpExp x)
  calc 2 ^ ulpExp x * |x / 2 ^ ulpExp x - roundHalfEven (x / 2 ^ ulpExp x)|
      ≤ 2 ^ ulpExp x * (1 / 2) := mul_le_mul_of_nonneg_left h hp.le
    _ = 2 ^ ulpExp x / 2 := by ring

theorem zpow_eq_int_mul {e e' : ℤ} (h : e ≤ e') : ∃ c : ℤ, (2 : ℚ) ^ e' = c * 2 ^ e := by
  refine ⟨2 ^ (e' - e).toNat, ?_⟩
  have h1 : e' = (e' - e).toNat + e := by
    have := Int.toNat_of_nonneg (sub_nonneg.mpr h)
    omega
  have h2 : (2 : ℚ) ^ e' = 2 ^ (((e' - e).toNat : ℤ) + e) := by rw [← h1]
  rw [h2, zpow_add₀ (by norm_num), zpow_natCast]
  push_cast
  ring

theorem roundDouble_nearest_dyadic (x : ℚ) (m e' : ℤ) (hm : |m| ≤ 2 ^ 53) (he' : -1074 ≤ e') :
    |x - roundDouble x| ≤ |x - (m : ℚ) * 2 ^ e'| := by
  by_cases hx : x = 0
  · subst hx
    rw [roundDouble_zero]
    simp
  by_cases hle : ulpExp x ≤ e'
  · obtain ⟨c, hc⟩ := zpow_eq_int_mul hle
    have h := roundDouble_nearest_grid x (m * c)
    have h2 : ((m * c : ℤ) : ℚ) * 2 ^ ulpExp x = m * 2 ^ e' := by
      rw [hc]
      push_cast
      ring
    rw [h2] at h
    exact h
  · have hlt : e' < ulpExp x := not_le.mp hle
    have he : ulpExp x = Int.log 2 |x| - 52 := by
      unfold ulpExp at hlt ⊢
      rcases max_cases (Int.log 2 |x| - 52) (-1074) with ⟨h1, _⟩ | ⟨h1, _⟩
      · exact h1
      · rw [h1] at hlt
        omega
    have hlog := zpow_log_le_abs hx
    -- the double has magnitude at most the power of two below |x|
    have hdle : |(m : ℚ) * 2 ^ e'| ≤ 2 ^ Int.log 2 |x| := by
      rw [abs_mul, abs_of_pos (two_zpow_pos e')]
      have hm' : |(m : ℚ)| ≤ 2 ^ (53 : ℤ) := by
        have h53 : ((|m| : ℤ) : ℚ) ≤ ((2 ^ 53 : ℤ) : ℚ) := by exact_mod_cast hm
        rw [Int.cast_abs] at h53
        calc |(m : ℚ)| ≤ ((2 ^ 53 : ℤ) : ℚ) := h53
          _ = 2 ^ (53 : ℤ) := by norm_num
      have hpow : (2 : ℚ) ^ e' ≤ 2 ^ (Int.log 2 |x| - 53) := by
        apply zpow_le_zpow_right₀ (by norm_num)
        omega
      calc |(m : ℚ)| * 2 ^ e' ≤ 2 ^ (53 : ℤ) * 2 ^ (Int.log 2 |x| - 53) :=
            mul_le_mul hm' hpow (two_zpow_pos _).le (two_zpow_pos _).le
        _ = 2 ^ Int.log 2 |x| := by
            rw [← zpow_add₀ (by norm_num)]
            congr 1
            ring
    -- the grid point of the same sign as x and magnitude that power of two
    have hgrid : (2 : ℚ) ^ Int.log 2 |x| = ((2 ^ 52 : ℤ) : ℚ) * 2 ^ ulpExp x := by
      rw [he]
      have hsplit : (2 : ℚ) ^ Int.log 2 |x| = 2 ^ (52 : ℤ) * 2 ^ (Int.log 2 |x| - 52) := by
        rw [← zpow_add₀ (by norm_num)]
        congr 1
        ring
      rw [hsplit]
      norm_num
    rcases le_or_lt 0 x with hpos | hneg
    · have h := roundDouble_nearest_grid x (2 ^ 52)
      rw [← hgrid] at h
      rw [abs_of_nonneg hpos] at hlog hdle
      have h3 : |x - 2 ^ Int.log 2 x| = x - 2 ^ Int.log 2 x := abs_of_nonneg (by linarith)
      rw [abs_of_nonneg hpos] at h
      rw [h3] at h
      have h4 : (m : ℚ) * 2 ^ e' ≤ 2 ^ Int.log 2 x := le_trans (le_abs_self _) hdle
      calc |x - roundDouble x| ≤ x - 2 ^ Int.log 2 x := h
        _ ≤ x - m * 2 ^ e' := by linarith
        _ ≤ |x - m * 2 ^ e'| := le_abs_self _
    · have h := roundDouble_nearest_grid x (-(2 ^ 52))
      have hgrid' : ((-(2 ^ 52) : ℤ) : ℚ) * 2 ^ ulpExp x = -(2 : ℚ) ^ Int.log 2 |x| := by
        rw [hgrid]
        push_cast
        ring
      rw [hgrid'] at h
      rw [abs_of_neg hneg] at hlog hdle h
      have h3 : |x - -(2 : ℚ) ^ Int.log 2 (-x)| = -(x - -(2 : ℚ) ^ Int.log 2 (-x)) :=
        abs_of_nonpos (by linarith)
      rw [h3] at h
      have h4 : -((m : ℚ) * 2 ^ e') ≤ 2 ^ Int.log 2 (-x) := le_trans (neg_le_abs _) hdle
      calc |x - roundDouble x| ≤ -(x - -(2 : ℚ) ^ Int.log 2 (-x)) := h
        _ ≤ -(x - m * 2 ^ e') := by linarith
        _ ≤ |x - m * 2 ^ e'| := neg_le_abs _

theorem roundHalfEven_abs_le {y : ℚ} {N : ℤ} (h : |y| ≤ N) : |roundHalfEven y| ≤ N := by
  have h1 := roundHalfEven_abs_sub_le y
  have h2 : |((roundHalfEven y : ℤ) : ℚ)| ≤ N + 1 / 2 := by
    calc |((roundHalfEven y : ℤ) : ℚ)| = |y - (y - roundHalfEven y)| := by ring_nf
      _ ≤ |y| + |y - roundHalfEven y| := abs_sub _ _
      _ ≤ N + 1 / 2 := by linarith
  rw [← Int.cast_abs] at h2
  have h3 : ((|roundHalfEven y| : ℤ) : ℚ) < ((N + 1 : ℤ) : ℚ) := by
    rw [Int.cast_add, Int.cast_one]
    linarith
  have h4 : |roundHalfEven y| < N + 1 := by exact_mod_cast h3
  omega

theorem roundDouble_rep (x : ℚ) :
    ∃ m e : ℤ, |m| ≤ 2 ^ 53 ∧ -1074 ≤ e ∧ roundDouble x = (m : ℚ) * 2 ^ e := by
  refine ⟨roundHalfEven (x / 2 ^ ulpExp x), ulpExp x, ?_, ulpExp_ge x, rfl⟩
  have hp := two_zpow_pos (ulpExp x)
  have hlt := abs_lt_zpow_log_succ x
  have hpow : (2 : ℚ) ^ (Int.log 2 |x| + 1) ≤ 2 ^ (ulpExp x + 53) := by
    apply zpow_le_zpow_right₀ (by norm_num)
    have := ulpExp_ge_log x
    omega
  have hsplit : (2 : ℚ) ^ (ulpExp x + 53) = 2 ^ ulpExp x * 2 ^ (53 : ℤ) := by
    rw [← zpow_add₀ (by norm_num)]
  have hy : |x / 2 ^ ulpExp x| ≤ ((2 ^ 53 : ℤ) : ℚ) := by
    rw [abs_div, abs_of_pos hp, div_le_iff₀ hp]
    have : ((2 ^ 53 : ℤ) : ℚ) = 2 ^ (53 : ℤ) := by norm_num
    rw [this]
    calc |x| ≤ 2 ^ (ulpExp x + 53) := le_trans hlt.le hpow
      _ = 2 ^ (53 : ℤ) * 2 ^ ulpExp x := by rw [hsplit]; ring
  exact roundHalfEven_abs_le hy

theorem roundDouble_dyadic (m e : ℤ) (hm : |m| ≤ 2 ^ 53) (he : -1074 ≤ e) :
    roundDouble ((m : ℚ) * 2 ^ e) = (m : ℚ) * 2 ^ e := by
  have h := roundDouble_nearest_dyadic ((m : ℚ) * 2 ^ e) m e hm he
  rw [sub_self, abs_zero] at h
  have h2 := abs_nonneg ((m : ℚ) * 2 ^ e - roundDouble ((m : ℚ) * 2 ^ e))
  have h3 : (m : ℚ) * 2 ^ e - roundDouble ((m : ℚ) * 2 ^ e) = 0 :=
    abs_eq_zero.mp (le_antisymm h h2)
  linarith

theorem isDouble_iff (d : ℚ) :
    IsDouble d ↔ ∃ m e : ℤ, |m| ≤ 2 ^ 53 ∧ -1074 ≤ e ∧ d = (m : ℚ) * 2 ^ e := by
  constructor
  · intro hd
    obtain ⟨m, e, hm, he, h⟩ := roundDouble_rep d
    exact ⟨m, e, hm, he, by rw [← h]; exact hd.symm⟩
  · rintro ⟨m, e, hm, he, rfl⟩
    exact roundDouble_dyadic m e hm he

theorem roundDouble_isDouble (x : ℚ) : IsDouble (roundDouble x) := by
  obtain ⟨m, e, hm, he, h⟩ := roundDouble_rep x
  exact (isDouble_iff _).mpr ⟨m, e, hm, he, h⟩

theorem roundDouble_of_isDouble {d : ℚ} (hd : IsDouble d) : roundDouble d = d := hd

theorem roundDouble_nearest (x : ℚ) {d : ℚ} (hd : IsDouble d) :
    |x - roundDouble x| ≤ |x - d| := by
  obtain ⟨m, e, hm, he, rfl⟩ := (isDouble_iff d).mp hd
  exact roundDouble_nearest_dyadic x m e hm he

theorem roundDouble_mono {x y : ℚ} (h : x ≤ y) : roundDouble x ≤ roundDouble y := by
  by_contra hcon
  have hlt : roundDouble y < roundDouble x := not_le.mp hcon
  have hx := roundDouble_nearest x (roundDouble_isDouble y)
  have hy := roundDouble_nearest y (roundDouble_isDouble x)
  -- x is at least the midpoint of the two doubles, y at most
  have hxm : roundDouble x + roundDouble y ≤ 2 * x := by
    by_contra hc
    have hc' : 2 * x < roundDouble x + roundDouble y := not_le.mp hc
    rcases le_or_lt (roundDouble y) x with h1 | h1
    · rw [abs_of_nonpos (by linarith), abs_of_nonneg (by linarith)] at hx
      linarith
    · rw [abs_of_nonpos (by linarith), abs_of_nonpos (by linarith)] at hx
      linarith
  have hym : 2 * y ≤ roundDouble x + roundDouble y := by
    by_contra hc
    have hc' : roundDouble x + roundDouble y < 2 * y := not_le.mp hc
    rcases le_or_lt y (roundDouble x) with h1 | h1
    · rw [abs_of_nonneg (by linarith), abs_of_nonpos (by linarith)] at hy
      linarith
    · rw [abs_of_nonneg (by linarith), abs_of_nonneg (by linarith)] at hy
      linarith
  have hxy : x = y := by linarith
  rw [hxy] at hlt
  exact lt_irrefl _ hlt

theorem isDouble_zero : IsDouble 0 := roundDouble_zero

theorem isDouble_neg {d : ℚ} (hd : IsDouble d) : IsDouble (-d) := by
  obtain ⟨m, e, hm, he, rfl⟩ := (isDouble_iff d).mp hd
  exact (isDouble_iff _).mpr ⟨-m, e, by rwa [abs_neg], he, by push_cast; ring⟩

theorem roundDouble_nonneg {x : ℚ} (h : 0 ≤ x) : 0 ≤ roundDouble x := by
  have := roundDouble_mono h
  rwa [roundDouble_zero] at this

theorem roundDouble_nonpos {x : ℚ} (h : x ≤ 0) : roundDouble x ≤ 0 := by
  have := roundDouble_mono h
  rwa [roundDouble_zero] at this

theorem le_roundDouble {a x : ℚ} (ha : IsDouble a) (h : a ≤ x) : a ≤ roundDouble x := by
  have := roundDouble_mono h
  rwa [roundDouble_of_isDouble ha] at this

theorem roundDouble_le {b x : ℚ} (hb : IsDouble b) (h : x ≤ b) : roundDouble x ≤ b := by
  have := roundDouble_mono h
  rwa [roundDouble_of_isDouble hb] at this

theorem lt_of_roundDouble_lt {b x : ℚ} (hb : IsDouble b) (h : roundDouble x < b) : x < b := by
  by_contra hc
  exact absurd (le_roundDouble hb (not_lt.mp hc)) (not_le.mpr h)

theorem ulpExp_of_bounds {x : ℚ} {k : ℤ} (h1 : (2 : ℚ) ^ k ≤ |x|) (h2 : |x| < (2 : ℚ) ^ (k + 1))
    (hk : -1022 ≤ k) : ulpExp x = k - 52 := by
  unfold ulpExp
  rw [log_eq_of_bounds h1 h2]
  exact max_eq_left (by omega)

theorem roundDouble_eq_of_bounds {x : ℚ} {k n : ℤ} (h1 : (2 : ℚ) ^ k ≤ |x|)
    (h2 : |x| < (2 : ℚ) ^ (k + 1)) (hk : -1022 ≤ k) (hn : |x / 2 ^ (k - 52) - n| < 1 / 2) :
    roundDouble x = n * 2 ^ (k - 52) := by
  unfold roundDouble
  rw [ulpExp_of_bounds h1 h2 hk, roundHalfEven_eq_of_abs_lt hn]

theorem ulpExp_le_of_lt {x : ℚ} {k : ℤ} (hx : x ≠ 0) (h2 : |x| < (2 : ℚ) ^ (k + 1))
    (hk : -1022 ≤ k) : ulpExp x ≤ k - 52 := by
  unfold ulpExp
  apply max_le _ (by omega)
  have h1 := zpow_log_le_abs hx
  have h3 : (2 : ℚ) ^ Int.log 2 |x| < 2 ^ (k + 1) := lt_of_le_of_lt h1 h2
  have h4 : Int.log 2 |x| < k + 1 := (zpow_lt_zpow_iff_right₀ (by norm_num)).mp h3
  omega

theorem roundDouble_abs_sub_le_of_lt {x : ℚ} {k : ℤ} (h2 : |x| < (2 : ℚ) ^ (k + 1))
    (hk : -1022 ≤ k) : |x - roundDouble x| ≤ 2 ^ (k - 53) := by
  by_cases hx : x = 0
  · subst hx
    rw [roundDouble_zero, sub_zero, abs_zero]
    exact (two_zpow_pos _).le
  · have h := roundDouble_abs_sub_le x
    have hle : (2 : ℚ) ^ ulpExp x ≤ 2 ^ (k - 52) :=
      zpow_le_zpow_right₀ (by norm_num) (ulpExp_le_of_lt hx h2 hk)
    have hsplit : (2 : ℚ) ^ (k - 52) = 2 ^ (k - 53) * 2 := by
      rw [← zpow_add_one₀ (by norm_num)]
      congr 1
      ring
    linarith

theorem isDouble_of_eq {d : ℚ} (m e : ℤ) (hm : |m| ≤ 2 ^ 53) (he : -1074 ≤ e)
    (h : d = (m : ℚ) * 2 ^ e) : IsDouble d := (isDouble_iff d).mpr ⟨m, e, hm, he, h⟩

theorem isDouble_intCast {n : ℤ} (h : |n| ≤ 2 ^ 53) : IsDouble (n : ℚ) :=
  isDouble_of_eq n 0 h (by norm_num) (by simp)

theorem roundDouble_eval {x v : ℚ} (k n : ℤ) (h1 : (2 : ℚ) ^ k ≤ |x|)
    (h2 : |x| < (2 : ℚ) ^ (k + 1)) (hk : -1022 ≤ k) (hn : |x / 2 ^ (k - 52) - n| < 1 / 2)
    (hv : (n : ℚ) * 2 ^ (k - 52) = v) : roundDouble x = v := by
  rw [roundDouble_eq_of_bounds h1 h2 hk hn, hv]

theorem abs_roundDouble_le {b x : ℚ} (hb : IsDouble b) (h : |x| ≤ b) : |roundDouble x| ≤ b := by
  rw [abs_le] at h ⊢
  exact ⟨le_roundDouble (isDouble_neg hb) h.1, roundDouble_le hb h.2⟩

theorem roundDouble_eq_of_dyadic {x v : ℚ} (m e : ℤ) (hm : |m| ≤ 2 ^ 53) (he : -1074 ≤ e)
    (hx : x = v) (hv : v = (m : ℚ) * 2 ^ e) : roundDouble x = v := by
  rw [hx]
  exact isDouble_of_eq m e hm he hv

theorem roundHalfEven_tie_even {y : ℚ} {n : ℤ} (hy : y = n + 1 / 2) (hn : n % 2 = 0) :
    roundHalfEven y = n := by
  have hfl : ⌊y⌋ = n := by
    rw [Int.floor_eq_iff, hy]
    constructor <;> linarith
  unfold roundHalfEven
  rw [hfl, hy]
  have h1 : ¬ ((n : ℚ) + 1 / 2 - n < 1 / 2) := by
    rw [add_sub_cancel_left]
    exact lt_irrefl _
  have h2 : ¬ (1 / 2 < (n : ℚ) + 1 / 2 - n) := by
    rw [add_sub_cancel_left]
    exact lt_irrefl _
  rw [if_neg h1, if_neg h2, if_pos hn]

theorem roundHalfEven_tie_odd {y : ℚ} {n : ℤ} (hy : y = n + 1 / 2) (hn : n % 2 = 1) :
    roundHalfEven y = n + 1 := by
  have hfl : ⌊y⌋ = n := by
    rw [Int.floor_eq_iff, hy]
    constructor <;> linarith
  unfold roundHalfEven
  rw [hfl, hy]
  have h1 : ¬ ((n : ℚ) + 1 / 2 - n < 1 / 2) := by
    rw [add_sub_cancel_left]
    exact lt_irrefl _
  have h2 : ¬ (1 / 2 < (n : ℚ) + 1 / 2 - n) := by
    rw [add_sub_cancel_left]
    exact lt_irrefl _
  have h3 : ¬ (n % 2 = 0) := by omega
  rw [if_neg h1, if_neg h2, if_neg h3]

theorem roundDouble_eval_tie {x v : ℚ} (k n r : ℤ) (h1 : (2 : ℚ) ^ k ≤ |x|)
    (h2 : |x| < (2 : ℚ) ^ (k + 1)) (hk : -1022 ≤ k) (hn : x / 2 ^ (k - 52) = n + 1 / 2)
    (hr : n % 2 = 0 ∧ r = n ∨ n % 2 = 1 ∧ r = n + 1) (hv : (r : ℚ) * 2 ^ (k - 52) = v) :
    roundDouble x = v := by
  unfold roundDouble
  rw [ulpExp_of_bounds h1 h2 hk]
  rcases hr with ⟨hp, rfl⟩ | ⟨hp, rfl⟩
  · rw [roundHalfEven_tie_even hn hp, hv]
  · rw [roundHalfEven_tie_odd hn hp, hv]

theorem roundDouble_mem_Icc {a b x : ℚ} (ha : IsDouble a) (hb : IsDouble b) (h1 : a ≤ x)
    (h2 : x ≤ b) : a ≤ roundDouble x ∧ roundDouble x ≤ b :=
  ⟨le_roundDouble ha h1, roundDouble_le hb h2⟩

theorem fsub_nonneg {a b : ℚ} (h : b ≤ a) : 0 ≤ fsub a b :=
  roundDouble_nonneg (sub_nonneg.mpr h)

theorem fmul_nonneg {a b : ℚ} (ha : 0 ≤ a) (hb : 0 ≤ b) : 0 ≤ fmul a b :=
  roundDouble_nonneg (mul_nonneg ha hb)

theorem fdiv_nonneg {a b : ℚ} (ha : 0 ≤ a) (hb : 0 ≤ b) : 0 ≤ fdiv a b :=
  roundDouble_nonneg (div_nonneg ha hb)

theorem fadd_zero_left {a : ℚ} (ha : IsDouble a) : fadd 0 a = a := by
  unfold fadd
  rw [zero_add]
  exact ha

theorem foldl_fadd_eq_fsum {α : Type} (f : α → ℚ) (l : List α) :
    l.foldl (fun sum x => fadd sum (f x)) 0 = fsum (l.map f) := by
  unfold fsum
  rw [List.foldl_map]

theorem moderate_of_dyadic {d : ℚ} (m e : ℤ) (hm : |m| ≤ 2 ^ 53) (he : -1074 ≤ e)
    (hd : d = (m : ℚ) * 2 ^ e) (h1 : (2 : ℚ) ^ (-500 : ℤ) ≤ |d|) (h2 : |d| ≤ (2 : ℚ) ^ (500 : ℤ)) :
    Moderate d :=
  ⟨isDouble_of_eq m e hm he hd, Or.inr ⟨h1, h2⟩⟩

theorem moderate_roundDouble {x : ℚ} (h1 : (2 : ℚ) ^ (-500 : ℤ) ≤ |x|)
    (h2 : |x| ≤ (2 : ℚ) ^ (500 : ℤ)) : Moderate (roundDouble x) := by
  have hlo : IsDouble ((2 : ℚ) ^ (-500 : ℤ)) :=
    isDouble_of_eq 1 (-500) (by norm_num) (by norm_num) (by norm_num)
  have hhi : IsDouble ((2 : ℚ) ^ (500 : ℤ)) :=
    isDouble_of_eq 1 500 (by norm_num) (by norm_num) (by norm_num)
  refine ⟨roundDouble_isDouble x, Or.inr ⟨?_, abs_roundDouble_le hhi h2⟩⟩
  rcases le_or_lt 0 x with hx | hx
  · rw [abs_of_nonneg hx] at h1
    rw [abs_of_nonneg (roundDouble_nonneg hx)]
    exact le_roundDouble hlo h1
  · rw [abs_of_neg hx] at h1
    rw [abs_of_nonpos (roundDouble_nonpos hx.le)]
    have h3 : roundDouble x ≤ -(2 : ℚ) ^ (-500 : ℤ) :=
      roundDouble_le (isDouble_neg hlo) (by linarith)
    linarith


theorem isDouble_two_zpow {e : ℤ} (he : -1074 ≤ e) : IsDouble ((2 : ℚ) ^ e) :=
  isDouble_of_eq 1 e (by norm_num) he (by simp)

theorem moderate_abs_le {d : ℚ} (h : Moderate d) : |d| ≤ (2 : ℚ) ^ (500 : ℤ) := by
  rcases h.2 with h0 | ⟨_, h2⟩
  · rw [h0, abs_zero]
    exact (two_zpow_pos _).le
  · exact h2

theorem moderate_le_of_pos {d : ℚ} (h : Moderate d) (hpos : 0 < d) :
    (2 : ℚ) ^ (-500 : ℤ) ≤ d := by
  rcases h.2 with h0 | ⟨h1, _⟩
  · exact absurd h0 (ne_of_gt hpos)
  · rwa [abs_of_pos hpos] at h1

theorem two_zpow_succ (k : ℤ) : (2 : ℚ) ^ (k + 1) = 2 ^ k + 2 ^ k := by
  rw [zpow_add_one₀ (by norm_num)]
  ring

theorem abs_fadd_le {a b : ℚ} {k : ℤ} (hk : -1074 ≤ k + 1) (ha : |a| ≤ (2 : ℚ) ^ k)
    (hb : |b| ≤ (2 : ℚ) ^ k) : |fadd a b| ≤ (2 : ℚ) ^ (k + 1) := by
  apply abs_roundDouble_le (isDouble_two_zpow hk)
  rw [two_zpow_succ]
  exact le_trans (abs_add a b) (add_le_add ha hb)

theorem abs_fsub_le {a b : ℚ} {k : ℤ} (hk : -1074 ≤ k + 1) (ha : |a| ≤ (2 : ℚ) ^ k)
    (hb : |b| ≤ (2 : ℚ) ^ k) : |fsub a b| ≤ (2 : ℚ) ^ (k + 1) := by
  apply abs_roundDouble_le (isDouble_two_zpow hk)
  rw [two_zpow_succ]
  exact le_trans (abs_sub a b) (add_le_add ha hb)

theorem abs_fdiv_le {a b : ℚ} {k j : ℤ} (hkj : -1074 ≤ k - j) (ha : |a| ≤ (2 : ℚ) ^ k)
    (hb : (2 : ℚ) ^ j ≤ b) : |fdiv a b| ≤ (2 : ℚ) ^ (k - j) := by
  apply abs_roundDouble_le (isDouble_two_zpow hkj)
  have hj := two_zpow_pos j
  have hbpos : 0 < b := lt_of_lt_of_le hj hb
  rw [abs_div, abs_of_pos hbpos, zpow_sub₀ (by norm_num)]
  exact div_le_div₀ (two_zpow_pos k).le ha hj hb

theorem abs_fmul_100_le {a : ℚ} {k : ℤ} (hk : -1074 ≤ k + 7) (ha : |a| ≤ (2 : ℚ) ^ k) :
    |fmul a 100| ≤ (2 : ℚ) ^ (k + 7) := by
  apply abs_roundDouble_le (isDouble_two_zpow hk)
  rw [abs_mul, zpow_add₀ (by norm_num)]
  have h100 : |(100 : ℚ)| ≤ 2 ^ (7 : ℤ) := by norm_num [abs_of_pos]
  exact mul_le_mul ha h100 (abs_nonneg _) (two_zpow_pos k).le

theorem abs_foldl_fadd_le (l : List ℚ) (hl : ∀ x ∈ l, |x| ≤ (2 : ℚ) ^ (500 : ℤ)) :
    ∀ (a : ℚ) (k : ℕ), |a| ≤ (2 : ℚ) ^ ((500 : ℤ) + k) →
      |l.foldl fadd a| ≤ (2 : ℚ) ^ ((500 : ℤ) + k + l.length) := by
  induction l with
  | nil =>
    intro a k ha
    simpa using ha
  | cons x xs ih =>
    intro a k ha
    have hx : |x| ≤ (2 : ℚ) ^ ((500 : ℤ) + k) := by
      refine le_trans (hl x (List.mem_cons_self _ _)) ?_
      exact zpow_le_zpow_right₀ (by norm_num) (by omega)
    have hstep : |fadd a x| ≤ (2 : ℚ) ^ ((500 : ℤ) + (k + 1 : ℕ)) := by
      have h := abs_fadd_le (k := (500 : ℤ) + k) (by omega) ha hx
      have he : (500 : ℤ) + (k + 1 : ℕ) = (500 : ℤ) + k + 1 := by push_cast; ring
      rw [he]
      exact h
    have h := ih (fun y hy => hl y (List.mem_cons_of_mem _ hy)) (fadd a x) (k + 1) hstep
    have he : (500 : ℤ) + ((k + 1 : ℕ) : ℤ) + (xs.length : ℤ) =
        (500 : ℤ) + k + ((x :: xs).length : ℤ) := by
      simp only [List.length_cons]
      push_cast
      ring
    rw [← he]
    exact h

theorem abs_fsum_le (l : List ℚ) (hl : ∀ x ∈ l, |x| ≤ (2 : ℚ) ^ (500 : ℤ)) :
    |fsum l| ≤ (2 : ℚ) ^ ((500 : ℤ) + l.length) := by
  have h := abs_foldl_fadd_le l hl 0 0 (by
    rw [abs_zero]
    exact (two_zpow_pos _).le)
  simpa [fsum] using h

theorem percent_chain_le {a b d : ℚ} (ha : |a| ≤ (2 : ℚ) ^ (500 : ℤ))
    (hb : |b| ≤ (2 : ℚ) ^ (500 : ℤ)) (hd : (2 : ℚ) ^ (-500 : ℤ) ≤ d) :
    |fmul (fdiv (fsub a b) d) 100| ≤ (2 : ℚ) ^ (1008 : ℤ) := by
  have h1 := abs_fsub_le (k := 500) (by norm_num) ha hb
  have h2 := abs_fdiv_le (k := 500 + 1) (j := -500) (by norm_num) h1 hd
  have h3 := abs_fmul_100_le (k := 500 + 1 - -500) (by norm_num) h2
  exact h3.trans_eq (by norm_num)

theorem used_chain_le {r : ℚ} (hr : |r| ≤ (2 : ℚ) ^ (500 : ℤ)) :
    |fmul (fsub 1 r) 100| ≤ (2 : ℚ) ^ (508 : ℤ) := by
  have h1 : |(1 : ℚ)| ≤ (2 : ℚ) ^ (500 : ℤ) := by
    rw [abs_one]
    exact one_le_zpow₀ (by norm_num) (by norm_num)
  have h2 := abs_fsub_le (k := 500) (by norm_num) h1 hr
  have h3 := abs_fmul_100_le (k := 500 + 1) (by norm_num) h2
  exact h3.trans_eq (by norm_num)

theorem isDouble_multiple {x : ℚ} {j : ℤ} (hx : IsDouble x) (hj : (2 : ℚ) ^ j ≤ |x|) :
    ∃ M : ℤ, x = (M : ℚ) * 2 ^ (j - 52) := by
  have hpos : (0 : ℚ) < |x| := lt_of_lt_of_le (two_zpow_pos j) hj
  have hlog : j ≤ Int.log 2 |x| := by
    apply (@Int.zpow_le_iff_le_log ℚ _ _ 2 (by norm_num) j |x| hpos).mp
    simpa using hj
  have hle : j - 52 ≤ ulpExp x := by
    have := ulpExp_ge_log x
    omega
  obtain ⟨c, hc⟩ := zpow_eq_int_mul hle
  have hx' : roundDouble x = x := hx
  refine ⟨roundHalfEven (x / 2 ^ ulpExp x) * c, ?_⟩
  calc x = roundDouble x := hx'.symm
    _ = (roundHalfEven (x / 2 ^ ulpExp x) : ℚ) * 2 ^ ulpExp x := rfl
    _ = (roundHalfEven (x / 2 ^ ulpExp x) : ℚ) * ((c : ℚ) * 2 ^ (j - 52)) := by rw [hc]
    _ = ((roundHalfEven (x / 2 ^ ulpExp x) * c : ℤ) : ℚ) * 2 ^ (j - 52) := by
        push_cast
        ring

theorem double_lt_gap {a D : ℚ} {j : ℤ} (ha : IsDouble a) (hD : IsDouble D)
    (hj : (2 : ℚ) ^ j < D) (hlt : a < D) : a ≤ D - 2 ^ (j - 52) := by
  have hg := two_zpow_pos (j - 52)
  have hDpos : 0 < D := lt_trans (two_zpow_pos j) hj
  obtain ⟨N, hN⟩ := isDouble_multiple hD (by rw [abs_of_pos hDpos]; exact hj.le)
  have h2j : (2 : ℚ) ^ j = ((2 ^ 52 : ℤ) : ℚ) * 2 ^ (j - 52) := by
    have hsplit : (2 : ℚ) ^ j = 2 ^ (52 : ℤ) * 2 ^ (j - 52) := by
      rw [← zpow_add₀ (by norm_num)]
      congr 1
      ring
    rw [hsplit]
    norm_num
  rcases le_or_lt ((2 : ℚ) ^ j) a with hge | hlow
  · have hapos : 0 < a := lt_of_lt_of_le (two_zpow_pos j) hge
    obtain ⟨M, hM⟩ := isDouble_multiple ha (by rw [abs_of_pos hapos]; exact hge)
    rw [hM, hN] at hlt
    have hMN : (M : ℚ) < N := lt_of_mul_lt_mul_right hlt hg.le
    have hMN' : M < N := by exact_mod_cast hMN
    have hMN'' : ((M + 1 : ℤ) : ℚ) ≤ N := by exact_mod_cast (show M + 1 ≤ N by omega)
    rw [hM, hN]
    have := mul_le_mul_of_nonneg_right hMN'' hg.le
    push_cast at this
    linarith
  · rw [hN, h2j] at hj
    have hN1 : ((2 ^ 52 : ℤ) : ℚ) < N := lt_of_mul_lt_mul_right hj hg.le
    have hN2 : (2 ^ 52 : ℤ) < N := by exact_mod_cast hN1
    have hN3 : (((2 ^ 52 : ℤ) + 1 : ℤ) : ℚ) ≤ N := by
      exact_mod_cast (show (2 ^ 52 : ℤ) + 1 ≤ N by omega)
    have := mul_le_mul_of_nonneg_right hN3 hg.le
    push_cast at this
    rw [hN]
    rw [h2j] at hlow
    push_cast at hlow
    linarith

theorem deficit_ge {x D : ℚ} {j : ℤ} (hD : IsDouble D) (hj : (2 : ℚ) ^ j < D)
    (hlt : roundDouble x < D) : (2 : ℚ) ^ (j - 53) ≤ D - x := by
  have hgap := double_lt_gap (roundDouble_isDouble x) hD hj hlt
  have hx : x < D := lt_of_roundDouble_lt hD hlt
  have hnear := roundDouble_nearest x hD
  rw [abs_of_neg (show x - D < 0 by linarith)] at hnear
  have h1 : x - roundDouble x ≤ -(x - D) := le_trans (le_abs_self _) hnear
  have hsplit : (2 : ℚ) ^ (j - 52) = 2 ^ (j - 53) * 2 := by
    rw [← zpow_add_one₀ (by norm_num)]
    congr 1
    ring
  linarith

/-! ## Strings -/

theorem includes_append_right (a b : String) : includes (a ++ b) b = true := by
  simp only [includes, String.data_append, decide_eq_true_eq]
  exact (List.suffix_append a.data b.data).isInfix

theorem ne_empty_of_append_right (a b : String) (hb : b ≠ "") : a ++ b ≠ "" := by
  intro hab
  apply hb
  have hdata : a.data ++ b.data = [] := by
    have hd := congrArg String.data hab
    rwa [String.data_append] at hd
  exact String.ext (List.append_eq_nil.mp hdata).2

theorem ne_empty_of_append_left (a b : String) (ha : a ≠ "") : a ++ b ≠ "" := by
  intro hab
  apply ha
  have hdata : a.data ++ b.data = [] := by
    have hd := congrArg String.data hab
    rwa [String.data_append] at hd
  exact String.ext (List.append_eq_nil.mp hdata).1

/-! ## 88code-balance: the shape of a successful result -/

namespace Code88

theorem fetchData_of_subs {h : Host} {fetch : Request → Except JsError (Response Envelope)}
    {config : Config} {subs : List Subscription} (hd : Delivers h fetch config subs) :
    fetchData h fetch config = fromSubscriptions h subs := by
  obtain ⟨htok, response, result, hfetch, hok, hjson, hcode, hflag, hdata⟩ := hd
  simp [fetchData, htok, hfetch, fromResponse, hok, hjson, hcode, hflag, hdata]

theorem fromSubscriptions_of_active {h : Host} {subs : List Subscription}
    (hact : subs.filter (isActiveSub h) ≠ []) :
    ∃ r, fromSubscriptions h subs = .ok r ∧
      r.limits = (subs.filter (isActiveSub h)).map (toLimit h) := by
  cases subs with
  | nil => simp at hact
  | cons first rest =>
    have hlen : ((first :: rest).filter (isActiveSub h)).length ≠ 0 := by
      simpa [List.length_eq_zero] using hact
    simp only [fromSubscriptions, hlen, if_false]
    exact ⟨_, rfl, rfl⟩

theorem fromSubscriptions_of_none_active {h : Host} {first : Subscription}
    {rest : List Subscription} (hnone : (first :: rest).filter (isActiveSub h) = []) :
    fromSubscriptions h (first :: rest) =
      .error (.error ("没有活跃的订阅 (状态: " ++ strOr first.subscriptionStatus "未知" ++ ")")) := by
  simp only [fromSubscriptions, hnone, List.length_nil, if_true]

theorem fromSubscriptions_ok_limits {h : Host} {subs : List Subscription} {r : BalanceResult}
    (hr : fromSubscriptions h subs = .ok r) :
    subs.filter (isActiveSub h) ≠ [] ∧
      r.limits = (subs.filter (isActiveSub h)).map (toLimit h) := by
  cases subs with
  | nil => simp [fromSubscriptions] at hr
  | cons first rest =>
    by_cases hact : (first :: rest).filter (isActiveSub h) = []
    · rw [fromSubscriptions_of_none_active hact] at hr
      cases hr
    · obtain ⟨r', hr', hlim⟩ := fromSubscriptions_of_active hact
      rw [hr'] at hr
      cases hr
      exact ⟨hact, hlim⟩

theorem fetchData_ok_subs {h : Host} {fetch : Request → Except JsError (Response Envelope)}
    {config : Config} {r : BalanceResult} (hr : fetchData h fetch config = .ok r) :
    ∃ subs : List Subscription, r.limits = (subs.filter (isActiveSub h)).map (toLimit h) := by
  unfold fetchData at hr
  split at hr
  · cases hr
  · dsimp only at hr
    split at hr
    · cases hr
    · rename_i response _
      unfold fromResponse at hr
      split at hr
      · split at hr
        · cases hr
        · split at hr <;> cases hr
      · split at hr
        · cases hr
        · cases hr
        · rename_i result _
          split at hr
          · cases hr
          · exact ⟨_, (fromSubscriptions_ok_limits hr).2⟩

theorem toLimit_payPerUse {h : Host} {sub : Subscription} (hp : isPayPerUse h sub = true) :
    toLimit h sub =
      { limitType := strOr sub.subscriptionPlanName "PAY_PER_USE"
        label := strOr sub.subscriptionPlanName "按量付费"
        unit := "$"
        usage := none
        remaining := numOr sub.currentCredits 0
        currentValue := none
        percentage := none
        nextResetTime := none
        statusText := "剩余 " ++ interpNum h sub.remainingDays ++ " 天"
        resetToday := none
        isPayPerUse := true } := by
  simp [toLimit, hp]

theorem getResetStatusText_ne_empty (h : Host) (sub : Subscription) :
    getResetStatusText h sub ≠ "" := by
  unfold getResetStatusText
  split
  · exact ne_empty_of_append_right _ _ (by decide)
  · split
    · split
      · exact ne_empty_of_append_right _ _ (by decide)
      · decide
    · decide

theorem toLimit_subscription {h : Host} {sub : Subscription} (hp : isPayPerUse h sub = false) :
    toLimit h sub =
      { limitType := strOr sub.subscriptionPlanName "SUBSCRIPTION"
        label := strOr sub.subscriptionPlanName "订阅套餐"
        unit := "$"
        usage := some (numOr (planOf sub).creditLimit 0)
        remaining := numOr sub.currentCredits 0
        currentValue :=
          some (if fsub (numOr (planOf sub).creditLimit 0) (numOr sub.currentCredits 0) > 0
            then fsub (numOr (planOf sub).creditLimit 0) (numOr sub.currentCredits 0) else 0)
        percentage :=
          some (if numOr (planOf sub).creditLimit 0 > 0 then
            mathRound (fmul (fdiv (fsub (numOr (planOf sub).creditLimit 0)
              (numOr sub.currentCredits 0)) (numOr (planOf sub).creditLimit 0)) 100) else 0)
        nextResetTime := strOrNull sub.nextResetAvailableAt
        statusText :=
          "剩余 " ++ interpNum h sub.remainingDays ++ " 天" ++ " | " ++ getResetStatusText h sub
        resetToday := some (match sub.nextResetAvailableAt with
          | .val _ => true
          | _ => false)
        isPayPerUse := false } := by
  simp [toLimit, hp, getResetStatusText_ne_empty]

/-- C9: `isPayPerUse` answers true exactly when the upper-cased plan type is one of the three
pay-per-use codes, or the upper-cased plan name contains one of the three keywords, or the
credit limit is absent or 0 while `currentCredits` is a number at least 0 and the subscription
has no reset capability; in particular a positive credit limit without a matching plan type or
plan name is never pay-per-use. -/
theorem isPayPerUse_iff (h : Host) (sub : Subscription) :
    (isPayPerUse h sub = true ↔
      h.toUpperCase (strOr (planOf sub).planType "") ∈
          ["PAY_PER_USE", "PAYGO", "PAY_AS_YOU_GO"] ∨
        (∃ k ∈ ["PAYGO", "按量", "PAY_PER_USE"],
          includes (h.toUpperCase (strOr sub.subscriptionPlanName "")) k = true) ∨
        (((planOf sub).creditLimit = .undefined ∨ (planOf sub).creditLimit = .null ∨
              (planOf sub).creditLimit = .val 0) ∧
          (∃ c, sub.currentCredits = .val c ∧ 0 ≤ c) ∧
            truthyBool sub.canResetNow = false ∧ truthyStr sub.nextResetAvailableAt = false)) ∧
      ∀ L : ℚ, (planOf sub).creditLimit = .val L → 0 < L →
        h.toUpperCase (strOr (planOf sub).planType "") ∉
          ["PAY_PER_USE", "PAYGO", "PAY_AS_YOU_GO"] →
        (∀ k ∈ ["PAYGO", "按量", "PAY_PER_USE"],
          includes (h.toUpperCase (strOr sub.subscriptionPlanName "")) k = false) →
        isPayPerUse h sub = false := by
  have key : isPayPerUse h sub = true ↔
      h.toUpperCase (strOr (planOf sub).planType "") ∈
          ["PAY_PER_USE", "PAYGO", "PAY_AS_YOU_GO"] ∨
        (∃ k ∈ ["PAYGO", "按量", "PAY_PER_USE"],
          includes (h.toUpperCase (strOr sub.subscriptionPlanName "")) k = true) ∨
        (((planOf sub).creditLimit = .undefined ∨ (planOf sub).creditLimit = .null ∨
              (planOf sub).creditLimit = .val 0) ∧
          (∃ c, sub.currentCredits = .val c ∧ 0 ≤ c) ∧
            truthyBool sub.canResetNow = false ∧ truthyStr sub.nextResetAvailableAt = false) := by
    unfold isPayPerUse
    simp only [List.mem_cons, List.mem_singleton, List.not_mem_nil, or_false, exists_eq_or_imp,
      exists_eq_left]
    by_cases hA : h.toUpperCase (strOr (planOf sub).planType "") = "PAY_PER_USE" ∨
        h.toUpperCase (strOr (planOf sub).planType "") = "PAYGO" ∨
        h.toUpperCase (strOr (planOf sub).planType "") = "PAY_AS_YOU_GO"
    · simp [hA]
    · cases h1 : includes (h.toUpperCase (strOr sub.subscriptionPlanName "")) "PAYGO" <;>
        cases h2 : includes (h.toUpperCase (strOr sub.subscriptionPlanName "")) "按量" <;>
        cases h3 : includes (h.toUpperCase (strOr sub.subscriptionPlanName "")) "PAY_PER_USE" <;>
        cases hl : (planOf sub).creditLimit <;> cases hc : sub.currentCredits <;>
        simp [hA, hl, hc, and_assoc]
  refine ⟨key, ?_⟩
  intro L hL hpos hnA hnB
  cases hp : isPayPerUse h sub with
  | false => rfl
  | true =>
    rcases key.mp hp with hA | ⟨k, hk, hinc⟩ | ⟨hlim, _⟩
    · exact absurd hA hnA
    · rw [hnB k hk] at hinc
      cases hinc
    · rw [hL] at hlim
      rcases hlim with hlim | hlim | hlim
      · cases hlim
      · cases hlim
      · injection hlim with hzero
        exact absurd hzero (ne_of_gt hpos)

theorem demoFetch_delivers_subs (subs : List Subscription) :
    Delivers demoHost (demoFetch subs) demoConfig subs :=
  ⟨by decide, _, _, rfl, rfl, rfl, rfl, rfl, rfl⟩

theorem isActiveSub_iff (h : Host) (sub : Subscription) :
    isActiveSub h sub = true ↔
      (sub.subscriptionStatus = .val "活跃中" ∨ sub.isActive = .val true) ∧
        ∃ s t, sub.startDate = .val s ∧ s ≠ "" ∧ h.parseDate s = some t ∧ t ≤ h.now := by
  unfold isActiveSub hasStarted
  cases hs : sub.startDate with
  | undefined => simp
  | null => simp
  | val s =>
    by_cases he : s = ""
    · simp [he]
    · cases hparse : h.parseDate s <;> simp [he, hparse]

theorem mem_limits_of_active {h : Host} {fetch : Request → Except JsError (Response Envelope)}
    {config : Config} {subs : List Subscription} {sub : Subscription}
    (hd : Delivers h fetch config subs) (hmem : sub ∈ subs) (hact : isActiveSub h sub = true) :
    ∃ r, fetchData h fetch config = .ok r ∧ toLimit h sub ∈ r.limits := by
  have hin : sub ∈ subs.filter (isActiveSub h) := List.mem_filter.mpr ⟨hmem, hact⟩
  obtain ⟨r, hr, hlim⟩ := fromSubscriptions_of_active (List.ne_nil_of_mem hin)
  refine ⟨r, by rw [fetchData_of_subs hd, hr], ?_⟩
  rw [hlim]
  exact List.mem_map_of_mem _ hin

theorem percentage_nonneg_of_credits_le (h : Host) (sub : Subscription) (p : ℤ) (L : ℚ)
    (hp : (toLimit h sub).percentage = some p) (hL : (toLimit h sub).usage = some L)
    (hle : (toLimit h sub).remaining ≤ L) : 0 ≤ p := by
  cases hpay : isPayPerUse h sub with
  | true =>
    rw [toLimit_payPerUse hpay] at hp
    cases hp
  | false =>
    rw [toLimit_subscription hpay] at hp hL hle
    simp only [Option.some.injEq] at hp hL hle
    subst hL
    rw [← hp]
    split
    · rename_i hpos
      apply mathRound_nonneg
      exact fmul_nonneg (fdiv_nonneg (fsub_nonneg hle) (le_of_lt hpos)) (by norm_num)
    · exact le_refl 0

/-- C10: with a non-empty subscription list in a success envelope, a subscription passes the
filter exactly when (its status is 活跃中 or `isActive` is true) and its `startDate` is present
and at or before now; the limits are the entries of the passing subscriptions, one each, in
response order; when none passes, `fetchData` fails with the message that reports the status
of the first raw subscription, 未知 when that has none. -/
theorem active_started_limits (h : Host) (fetch : Request → Except JsError (Response Envelope))
    (config : Config) (first : Subscription) (rest : List Subscription)
    (hd : Delivers h fetch config (first :: rest)) :
    (∀ sub, isActiveSub h sub = true ↔
        (sub.subscriptionStatus = .val "活跃中" ∨ sub.isActive = .val true) ∧
          ∃ s t, sub.startDate = .val s ∧ s ≠ "" ∧ h.parseDate s = some t ∧ t ≤ h.now) ∧
      ((first :: rest).filter (isActiveSub h) ≠ [] →
        ∃ r, fetchData h fetch config = .ok r ∧
          r.limits = ((first :: rest).filter (isActiveSub h)).map (toLimit h)) ∧
      ((first :: rest).filter (isActiveSub h) = [] →
        ∃ st, fetchData h fetch config =
            .error (.error ("没有活跃的订阅 (状态: " ++ st ++ ")")) ∧
          (∀ s, first.subscriptionStatus = .val s → s ≠ "" → st = s) ∧
          (first.subscriptionStatus = .undefined ∨ first.subscriptionStatus = .null →
            st = "未知")) := by
  refine ⟨isActiveSub_iff h, ?_, ?_⟩
  · intro hact
    rw [fetchData_of_subs hd]
    exact fromSubscriptions_of_active hact
  · intro hnone
    refine ⟨strOr first.subscriptionStatus "未知", ?_, ?_, ?_⟩
    · rw [fetchData_of_subs hd, fromSubscriptions_of_none_active hnone]
    · intro s hs hne
      simp [strOr, hs, hne]
    · rintro (hs | hs) <;> simp [strOr, hs]

/-- C10, worked example: a list with one active, started subscription gives exactly its
entry. -/
theorem active_started_limits_witness :
    ∃ r, fetchData demoHost (demoFetch [demoSub 100 40 .null]) demoConfig = .ok r ∧
      r.limits = ([demoSub 100 40 .null].filter (isActiveSub demoHost)).map
        (toLimit demoHost) :=
  (active_started_limits demoHost (demoFetch [demoSub 100 40 .null]) demoConfig
    (demoSub 100 40 .null) [] (demoFetch_delivers_subs _)).2.1 (by decide)

/-- C9, worked example: the plan `Pro` of type `MONTHLY` with credit limit 100 is not
pay-per-use. -/
theorem isPayPerUse_iff_witness : isPayPerUse demoHost (demoSub 100 40 .null) = false :=
  (isPayPerUse_iff demoHost (demoSub 100 40 .null)).2 100 rfl (by norm_num) (by decide)
    (by decide)

theorem fsub_100_40 : fsub 100 40 = 60 :=
  roundDouble_eq_of_dyadic 60 0 (by norm_num) (by norm_num) (by norm_num) (by norm_num)

theorem percentage_100_40 : mathRound (fmul (fdiv (fsub 100 40) 100) 100) = 60 := by
  have h2 : fdiv 60 100 = 5404319552844595 / 2 ^ 53 :=
    roundDouble_eval (-1) 5404319552844595 (by norm_num [abs_of_pos]) (by norm_num [abs_of_pos])
      (by norm_num) (by norm_num [abs_lt]) (by norm_num)
  have h3 : fmul (5404319552844595 / 2 ^ 53) 100 = 60 :=
    roundDouble_eval 5 8444249301319680 (by norm_num [abs_of_pos]) (by norm_num [abs_of_pos])
      (by norm_num) (by norm_num [abs_lt]) (by norm_num)
  rw [fsub_100_40, h2, h3, mathRound_eq_iff]
  norm_num

theorem percentage_200_143 : mathRound (fmul (fdiv (fsub 200 143) 200) 100) = 28 := by
  have h1 : fsub 200 143 = 57 :=
    roundDouble_eq_of_dyadic 57 0 (by norm_num) (by norm_num) (by norm_num) (by norm_num)
  have h2 : fdiv 57 200 = 5134103575202365 / 2 ^ 54 :=
    roundDouble_eval (-2) 5134103575202365 (by norm_num [abs_of_pos]) (by norm_num [abs_of_pos])
      (by norm_num) (by norm_num [abs_lt]) (by norm_num)
  have h3 : fmul (5134103575202365 / 2 ^ 54) 100 = 8022036836253695 / 2 ^ 48 :=
    roundDouble_eval 4 8022036836253695 (by norm_num [abs_of_pos]) (by norm_num [abs_of_pos])
      (by norm_num) (by norm_num [abs_lt]) (by norm_num)
  rw [h1, h2, h3, mathRound_eq_iff]
  norm_num

theorem percentage_100_150 : mathRound (fmul (fdiv (fsub 100 150) 100) 100) = -50 := by
  have h1 : fsub 100 150 = -50 :=
    roundDouble_eq_of_dyadic (-50) 0 (by norm_num) (by norm_num) (by norm_num) (by norm_num)
  have h2 : fdiv (-50) 100 = -1 / 2 :=
    roundDouble_eq_of_dyadic (-1) (-1) (by norm_num) (by norm_num) (by norm_num) (by norm_num)
  have h3 : fmul (-1 / 2) 100 = -50 :=
    roundDouble_eq_of_dyadic (-50) 0 (by norm_num) (by norm_num) (by norm_num) (by norm_num)
  rw [h1, h2, h3, mathRound_eq_iff]
  norm_num

theorem percentage_100_neg50 : mathRound (fmul (fdiv (fsub 100 (-50)) 100) 100) = 150 := by
  have h1 : fsub 100 (-50) = 150 :=
    roundDouble_eq_of_dyadic 150 0 (by norm_num) (by norm_num) (by norm_num) (by norm_num)
  have h2 : fdiv 150 100 = 3 / 2 :=
    roundDouble_eq_of_dyadic 3 (-1) (by norm_num) (by norm_num) (by norm_num) (by norm_num)
  have h3 : fmul (3 / 2) 100 = 150 :=
    roundDouble_eq_of_dyadic 150 0 (by norm_num) (by norm_num) (by norm_num) (by norm_num)
  rw [h1, h2, h3, mathRound_eq_iff]
  norm_num

theorem demoSub_percentage (L C : ℚ) (next : JsOpt String) (hL : 0 < L)
    (hp : isPayPerUse demoHost (demoSub L C next) = false) :
    (toLimit demoHost (demoSub L C next)).percentage =
      some (mathRound (fmul (fdiv (fsub L C) L) 100)) := by
  have hLne : L ≠ 0 := ne_of_gt hL
  rw [toLimit_subscription hp]
  by_cases hC : C = 0 <;> simp [planOf, nullish, demoSub, numOr, hLne, hC, hL]

/-- C6 (amended): a subscription-mode entry of an active subscription with plan credit limit
`L` and current credits `C`, two doubles of moderate size, has usage `L`, remaining `C`,
currentValue the difference `L - C` floored at 0, and percentage `round ((L - C) / L * 100)`
when `L` is positive, 0 otherwise. Difference, quotient and product are those of double
arithmetic, each rounded to the nearest double; the difference is `L - C` itself whenever that
is a double, and no operation overflows: the product is at most `2 ^ 1008` in magnitude. -/
theorem subscription_entry_amounts (h : Host)
    (fetch : Request → Except JsError (Response Envelope)) (config : Config)
    (subs : List Subscription) (sub : Subscription) (L C : ℚ)
    (hd : Delivers h fetch config subs) (hmem : sub ∈ subs) (hact : isActiveSub h sub = true)
    (hp : isPayPerUse h sub = false) (hL : (planOf sub).creditLimit = .val L)
    (hC : sub.currentCredits = .val C) (hLm : Moderate L) (hCm : Moderate C) :
    ∃ r, fetchData h fetch config = .ok r ∧ toLimit h sub ∈ r.limits ∧
      (toLimit h sub).usage = some L ∧ (toLimit h sub).remaining = C ∧
      (toLimit h sub).currentValue = some (max (fsub L C) 0) ∧
      (toLimit h sub).percentage =
        some (if 0 < L then mathRound (fmul (fdiv (fsub L C) L) 100) else 0) ∧
      (IsDouble (L - C) → fsub L C = L - C) ∧
      (0 < L → |fmul (fdiv (fsub L C) L) 100| ≤ (2 : ℚ) ^ (1008 : ℤ)) := by
  obtain ⟨r, hr, hin⟩ := mem_limits_of_active hd hmem hact
  have hLv : numOr (planOf sub).creditLimit 0 = L := by
    rw [hL]
    by_cases hz : L = 0 <;> simp [numOr, hz]
  have hCv : numOr sub.currentCredits 0 = C := by
    rw [hC]
    by_cases hz : C = 0 <;> simp [numOr, hz]
  refine ⟨r, hr, hin, ?_, ?_, ?_, ?_, fun hdbl => hdbl, ?_⟩
  · rw [toLimit_subscription hp, hLv]
  · rw [toLimit_subscription hp, hCv]
  · rw [toLimit_subscription hp, hLv, hCv]
    by_cases hpos : fsub L C > 0
    · simp [hpos, max_eq_left (le_of_lt hpos)]
    · simp [hpos, max_eq_right (le_of_not_lt hpos)]
  · rw [toLimit_subscription hp, hLv, hCv]
  · intro hpos
    exact percent_chain_le (moderate_abs_le hLm) (moderate_abs_le hCm)
      (moderate_le_of_pos hLm hpos)

/-- C6, worked example: credits 40 of a limit of 100 give currentValue 60 and percentage
60. -/
theorem subscription_entry_amounts_witness :
    ∃ r, fetchData demoHost (demoFetch [demoSub 100 40 .null]) demoConfig = .ok r ∧
      toLimit demoHost (demoSub 100 40 .null) ∈ r.limits ∧
      (toLimit demoHost (demoSub 100 40 .null)).usage = some 100 ∧
      (toLimit demoHost (demoSub 100 40 .null)).remaining = 40 ∧
      (toLimit demoHost (demoSub 100 40 .null)).currentValue = some 60 ∧
      (toLimit demoHost (demoSub 100 40 .null)).percentage = some 60 := by
  obtain ⟨r, hr, hin, husage, hrem, hcur, hpct, _, _⟩ :=
    subscription_entry_amounts demoHost (demoFetch [demoSub 100 40 .null]) demoConfig
      [demoSub 100 40 .null] (demoSub 100 40 .null) 100 40 (demoFetch_delivers_subs _)
      (List.mem_singleton.mpr rfl) (by decide) (by decide) rfl rfl
      (moderate_of_dyadic 100 0 (by norm_num) (by norm_num) (by norm_num)
        (by norm_num [abs_of_pos]) (by norm_num [abs_of_pos]))
      (moderate_of_dyadic 40 0 (by norm_num) (by norm_num) (by norm_num)
        (by norm_num [abs_of_pos]) (by norm_num [abs_of_pos]))
  rw [if_pos (by norm_num), percentage_100_40] at hpct
  rw [fsub_100_40] at hcur
  have hmax : max (60 : ℚ) 0 = 60 := by norm_num
  rw [hmax] at hcur
  exact ⟨r, hr, hin, husage, hrem, hcur, hpct⟩

/-- C6, counterexample: with credits 150 above the limit 100 the entry reports currentValue 0,
not the difference `100 - 150`; and with credits 143 of a limit of 200 the entry reports the
percentage 28, the quotient 57 / 200 being the double just below 0.285, while
`round ((L - C) / L * 100)` computed exactly is 29. -/
theorem subscription_entry_amounts_counterexample :
    (∃ r, fetchData demoHost (demoFetch [demoSub 100 150 .null]) demoConfig = .ok r ∧
      r.limits = [toLimit demoHost (demoSub 100 150 .null)] ∧
      isPayPerUse demoHost (demoSub 100 150 .null) = false ∧
      (toLimit demoHost (demoSub 100 150 .null)).currentValue = some 0 ∧
      (toLimit demoHost (demoSub 100 150 .null)).currentValue ≠ some ((100 : ℚ) - 150)) ∧
    (∃ r, fetchData demoHost (demoFetch [demoSub 200 143 .null]) demoConfig = .ok r ∧
      r.limits = [toLimit demoHost (demoSub 200 143 .null)] ∧
      isPayPerUse demoHost (demoSub 200 143 .null) = false ∧
      (toLimit demoHost (demoSub 200 143 .null)).percentage = some 28 ∧
      mathRound (((200 : ℚ) - 143) / 200 * 100) = 29) := by
  constructor
  · have hp : isPayPerUse demoHost (demoSub 100 150 .null) = false := by decide
    have hact : [demoSub 100 150 .null].filter (isActiveSub demoHost) =
        [demoSub 100 150 .null] := by decide
    have hsub : fsub 100 150 = -50 :=
      roundDouble_eq_of_dyadic (-50) 0 (by norm_num) (by norm_num) (by norm_num) (by norm_num)
    have hcv : (toLimit demoHost (demoSub 100 150 .null)).currentValue = some 0 := by
      rw [toLimit_subscription hp]
      norm_num [planOf, nullish, demoSub, numOr, hsub]
    obtain ⟨r, hr, hlim⟩ := @fromSubscriptions_of_active demoHost
      [demoSub 100 150 .null] (by rw [hact]; simp)
    refine ⟨r, ?_, ?_, hp, hcv, ?_⟩
    · rw [fetchData_of_subs (demoFetch_delivers_subs _), hr]
    · rw [hlim, hact]
      rfl
    · rw [hcv]
      norm_num
  · have hp : isPayPerUse demoHost (demoSub 200 143 .null) = false := by decide
    have hact : [demoSub 200 143 .null].filter (isActiveSub demoHost) =
        [demoSub 200 143 .null] := by decide
    obtain ⟨r, hr, hlim⟩ := @fromSubscriptions_of_active demoHost
      [demoSub 200 143 .null] (by rw [hact]; simp)
    refine ⟨r, ?_, ?_, hp, ?_, ?_⟩
    · rw [fetchData_of_subs (demoFetch_delivers_subs _), hr]
    · rw [hlim, hact]
      rfl
    · rw [demoSub_percentage 200 143 .null (by norm_num) hp, percentage_200_143]
    · rw [mathRound_eq_iff]
      norm_num

/-- C2 (amended): an active subscription has an entry; when it is subscription-mode, a null or
absent `nextResetAvailableAt` gives `resetToday = false` and a status text that ends in a 可重置
phrase standing right after the days part, and a non-null, non-empty `nextResetAvailableAt`
gives `resetToday = true` and a status text that ends in the formatted time followed by 可重置;
when it is pay-per-use, the entry has `resetToday` null, no next reset time, and a status text
that is the days part alone, without any reset phrase. -/
theorem reset_polarity (h : Host) (fetch : Request → Except JsError (Response Envelope))
    (config : Config) (subs : List Subscription) (sub : Subscription)
    (hd : Delivers h fetch config subs) (hmem : sub ∈ subs) (hact : isActiveSub h sub = true) :
    ∃ r, fetchData h fetch config = .ok r ∧ toLimit h sub ∈ r.limits ∧
      (isPayPerUse h sub = false →
        (toLimit h sub).isPayPerUse = false ∧
        (sub.nextResetAvailableAt = .null ∨ sub.nextResetAvailableAt = .undefined →
          (toLimit h sub).resetToday = some false ∧
            ∃ phrase,
              (toLimit h sub).statusText =
                  "剩余 " ++ interpNum h sub.remainingDays ++ " 天 | " ++ phrase ∧
                (phrase = "可重置" ∨ ∃ k, phrase = "可重置 (" ++ k ++ "/2)")) ∧
        ∀ s, sub.nextResetAvailableAt = .val s → s ≠ "" →
          (toLimit h sub).resetToday = some true ∧
            (toLimit h sub).statusText =
                "剩余 " ++ interpNum h sub.remainingDays ++ " 天 | " ++
                  (formatDateTime h (.val s) ++ " 可重置") ∧
              includes (toLimit h sub).statusText (formatDateTime h (.val s) ++ " 可重置") =
                true) ∧
      (isPayPerUse h sub = true →
        (toLimit h sub).isPayPerUse = true ∧
        (toLimit h sub).resetToday = none ∧
        (toLimit h sub).nextResetTime = none ∧
        (toLimit h sub).statusText = "剩余 " ++ interpNum h sub.remainingDays ++ " 天") := by
  obtain ⟨r, hr, hin⟩ := mem_limits_of_active hd hmem hact
  have hglue : ∀ a b : String, a ++ " 天" ++ " | " ++ b = a ++ " 天 | " ++ b := by
    intro a b
    rw [String.append_assoc a " 天" " | "]
    rfl
  refine ⟨r, hr, hin, ?_, ?_⟩
  · intro hp
    refine ⟨by rw [toLimit_subscription hp], ?_, ?_⟩
    · intro hnull
      have hfalsy : truthyStr sub.nextResetAvailableAt = false := by
        rcases hnull with hn | hn <;> rw [hn] <;> rfl
      refine ⟨?_, getResetStatusText h sub, ?_, ?_⟩
      · rw [toLimit_subscription hp]
        rcases hnull with hn | hn <;> simp [hn]
      · rw [toLimit_subscription hp]
        exact hglue _ _
      · unfold getResetStatusText
        rw [hfalsy]
        simp only [Bool.false_eq_true, if_false]
        split
        · split
          · exact Or.inr ⟨_, rfl⟩
          · exact Or.inl rfl
        · exact Or.inl rfl
    · intro s hs hne
      have htruthy : truthyStr sub.nextResetAvailableAt = true := by
        rw [hs]
        simp [truthyStr, hne]
      have htext : getResetStatusText h sub = formatDateTime h (.val s) ++ " 可重置" := by
        unfold getResetStatusText
        rw [htruthy, hs]
        simp
      have hstatus : (toLimit h sub).statusText =
          "剩余 " ++ interpNum h sub.remainingDays ++ " 天 | " ++
            (formatDateTime h (.val s) ++ " 可重置") := by
        rw [toLimit_subscription hp]
        simp only
        rw [htext]
        exact hglue _ _
      refine ⟨?_, hstatus, ?_⟩
      · rw [toLimit_subscription hp]
        simp [hs]
      · rw [hstatus]
        exact includes_append_right _ _
  · intro hp
    rw [toLimit_payPerUse hp]
    exact ⟨rfl, rfl, rfl, rfl⟩

theorem demoSub_resetStatus (L C : ℚ) (next : JsOpt String) (hnext : truthyStr next = false) :
    getResetStatusText demoHost (demoSub L C next) = "可重置 (1/2)" := by
  have hr : (demoSub L C next).resetTimes = .val 1 := rfl
  have hn : (demoSub L C next).nextResetAvailableAt = next := rfl
  unfold getResetStatusText
  rw [hn, hnext, hr]
  have hone : (2 : ℚ) - 1 = 1 := by norm_num
  simp only [Bool.false_eq_true, if_false, hone]
  rw [if_pos (by norm_num)]
  decide

theorem demoSub_statusText (L C : ℚ) (next : JsOpt String) (hnext : truthyStr next = false)
    (hp : isPayPerUse demoHost (demoSub L C next) = false) :
    (toLimit demoHost (demoSub L C next)).statusText = "剩余 12 天 | 可重置 (1/2)" := by
  rw [toLimit_subscription hp]
  simp only
  rw [demoSub_resetStatus L C next hnext]
  have hd : (demoSub L C next).remainingDays = .val 12 := rfl
  rw [hd]
  decide

/-- C2, worked example: with `nextResetAvailableAt` null the entry of the example subscription
has `resetToday = false` and the status text `剩余 12 天 | 可重置 (1/2)`; the entry of the
pay-per-use example has `resetToday` null and the status text `剩余 12 天`. -/
theorem reset_polarity_witness :
    (∃ r, fetchData demoHost (demoFetch [demoSub 100 40 .null]) demoConfig = .ok r ∧
      toLimit demoHost (demoSub 100 40 .null) ∈ r.limits ∧
      (toLimit demoHost (demoSub 100 40 .null)).resetToday = some false ∧
      (toLimit demoHost (demoSub 100 40 .null)).statusText = "剩余 12 天 | 可重置 (1/2)") ∧
    (∃ r, fetchData demoHost (demoFetch [demoPaygo]) demoConfig = .ok r ∧
      toLimit demoHost demoPaygo ∈ r.limits ∧
      (toLimit demoHost demoPaygo).resetToday = none ∧
      (toLimit demoHost demoPaygo).statusText = "剩余 12 天") := by
  constructor
  · obtain ⟨r, hr, hin, hsub, _⟩ := reset_polarity demoHost (demoFetch [demoSub 100 40 .null])
      demoConfig [demoSub 100 40 .null] (demoSub 100 40 .null) (demoFetch_delivers_subs _)
      (List.mem_singleton.mpr rfl) (by decide)
    exact ⟨r, hr, hin, ((hsub (by decide)).2.1 (Or.inl rfl)).1,
      demoSub_statusText 100 40 .null rfl (by decide)⟩
  · obtain ⟨r, hr, hin, _, hpay⟩ := reset_polarity demoHost (demoFetch [demoPaygo])
      demoConfig [demoPaygo] demoPaygo (demoFetch_delivers_subs _)
      (List.mem_singleton.mpr rfl) (by decide)
    obtain ⟨_, hreset, _, htext⟩ := hpay (by decide)
    refine ⟨r, hr, hin, hreset, ?_⟩
    rw [htext]
    decide

/-- C2, counterexample: a pay-per-use subscription with `nextResetAvailableAt` null gets an
entry whose `resetToday` is null and whose status text has no 可重置 phrase; and a
subscription-mode entry with the empty string as `nextResetAvailableAt` has `resetToday = true`
while its status text carries no formatted time. -/
theorem reset_polarity_counterexample :
    (∃ r, fetchData demoHost (demoFetch [demoPaygo]) demoConfig = .ok r ∧
      r.limits = [toLimit demoHost demoPaygo] ∧
      demoPaygo.nextResetAvailableAt = .null ∧
      (toLimit demoHost demoPaygo).resetToday ≠ some false ∧
      (toLimit demoHost demoPaygo).statusText = "剩余 12 天" ∧
      includes (toLimit demoHost demoPaygo).statusText "可重置" = false) ∧
    (∃ r, fetchData demoHost (demoFetch [demoSub 100 40 (.val "")]) demoConfig = .ok r ∧
      r.limits = [toLimit demoHost (demoSub 100 40 (.val ""))] ∧
      (toLimit demoHost (demoSub 100 40 (.val ""))).resetToday = some true ∧
      (toLimit demoHost (demoSub 100 40 (.val ""))).statusText = "剩余 12 天 | 可重置 (1/2)" ∧
      includes (toLimit demoHost (demoSub 100 40 (.val ""))).statusText
        (formatDateTime demoHost (.val "") ++ " 可重置") = false) := by
  constructor
  · have hact : [demoPaygo].filter (isActiveSub demoHost) = [demoPaygo] := by decide
    obtain ⟨r, hr, hlim⟩ := @fromSubscriptions_of_active demoHost
      [demoPaygo] (by rw [hact]; simp)
    have hst : (toLimit demoHost demoPaygo).statusText = "剩余 12 天" := by
      rw [toLimit_payPerUse (by decide)]
      decide
    refine ⟨r, ?_, ?_, rfl, ?_, hst, ?_⟩
    · rw [fetchData_of_subs (demoFetch_delivers_subs _), hr]
    · rw [hlim, hact]
      rfl
    · rw [toLimit_payPerUse (by decide)]
      simp
    · rw [hst]
      decide
  · have hact : [demoSub 100 40 (.val "")].filter (isActiveSub demoHost) =
        [demoSub 100 40 (.val "")] := by decide
    obtain ⟨r, hr, hlim⟩ := @fromSubscriptions_of_active demoHost
      [demoSub 100 40 (.val "")] (by rw [hact]; simp)
    have hst : (toLimit demoHost (demoSub 100 40 (.val ""))).statusText =
        "剩余 12 天 | 可重置 (1/2)" := demoSub_statusText 100 40 (.val "") rfl (by decide)
    refine ⟨r, ?_, ?_, ?_, hst, ?_⟩
    · rw [fetchData_of_subs (demoFetch_delivers_subs _), hr]
    · rw [hlim, hact]
      rfl
    · rw [toLimit_subscription (by decide)]
      rfl
    · rw [hst]
      decide

end Code88

/-! ## antigravity -/

namespace Antigravity

theorem fetchData_of_models {h : Host} {fetch : Request → Except JsError (Response Payload)}
    {config : Config} {models : List (String × Model)} (hd : Delivers h fetch config models) :
    fetchData h fetch config = fromModels h models := by
  obtain ⟨h1, h2, h3, h4, response, result, hfetch, hok, hjson, hmodels⟩ := hd
  simp [fetchData, h1, h2, h3, h4, hfetch, fromResponse, hok, hjson, hmodels]

theorem demoFetch_delivers_models (models : List (String × Model)) :
    Delivers demoHost (demoFetch models) demoConfig models :=
  ⟨by decide, by decide, by decide, by decide, _, _, rfl, rfl, rfl, rfl⟩

theorem fromModels_of_kept {h : Host} {models : List (String × Model)}
    (hkept : validModels models ≠ []) :
    ∃ r, fromModels h models = .ok r ∧
      r.limits = (sortModels (validModels models)).map (toLimit h) := by
  have hne : models ≠ [] := by
    rintro rfl
    exact hkept rfl
  have h1 : models.length ≠ 0 := by simpa [List.length_eq_zero] using hne
  have h2 : (validModels models).length ≠ 0 := by simpa [List.length_eq_zero] using hkept
  simp only [fromModels, h1, h2, if_false]
  exact ⟨_, rfl, rfl⟩

theorem fromModels_ok_limits {h : Host} {models : List (String × Model)} {r : BalanceResult}
    (hr : fromModels h models = .ok r) :
    r.limits = (sortModels (validModels models)).map (toLimit h) := by
  unfold fromModels at hr
  split at hr
  · cases hr
  · dsimp only at hr
    split at hr
    · cases hr
    · cases hr
      rfl

theorem fetchData_ok_models {h : Host} {fetch : Request → Except JsError (Response Payload)}
    {config : Config} {r : BalanceResult} (hr : fetchData h fetch config = .ok r) :
    ∃ ms : List (String × Model), r.limits = ms.map (toLimit h) := by
  unfold fetchData at hr
  split at hr
  · cases hr
  · split at hr
    · cases hr
    · split at hr
      · cases hr
      · split at hr
        · cases hr
        · split at hr
          · cases hr
          · unfold fromResponse at hr
            split at hr
            · split at hr
              · cases hr
              · split at hr <;> cases hr
            · split at hr
              · cases hr
              · cases hr
              · exact ⟨_, fromModels_ok_limits hr⟩

theorem remainingOf_eq (m : Model) :
    nullish (nullish m.quotaInfo (⟨.undefined, .undefined⟩ : QuotaInfo)).remainingFraction 1 =
      remainingOf m := by
  unfold remainingOf
  cases m.quotaInfo <;> rfl

theorem toLimit_remaining (h : Host) (e : String × Model) :
    (toLimit h e).remaining = mathRound (fmul (remainingOf e.2) 100) := by
  simp only [toLimit, remainingOf_eq]

theorem toLimit_percentage (h : Host) (e : String × Model) :
    (toLimit h e).percentage = mathRound (fmul (fsub 1 (remainingOf e.2)) 100) := by
  simp only [toLimit, remainingOf_eq]

theorem toLimit_currentValue (h : Host) (e : String × Model) :
    (toLimit h e).currentValue = mathRound (fmul (fsub 1 (remainingOf e.2)) 100) := by
  simp only [toLimit, remainingOf_eq]

theorem sortModels_perm (ms : List (String × Model)) : (sortModels ms).Perm ms :=
  List.perm_insertionSort _ ms

theorem sortModels_sorted (ms : List (String × Model)) :
    (sortModels ms).Sorted (fun a b => remainingOf a.2 ≤ remainingOf b.2) := by
  haveI : IsTotal (String × Model) (fun a b => remainingOf a.2 ≤ remainingOf b.2) :=
    ⟨fun a b => le_total (remainingOf a.2) (remainingOf b.2)⟩
  haveI : IsTrans (String × Model) (fun a b => remainingOf a.2 ≤ remainingOf b.2) :=
    ⟨fun _ _ _ hab hbc => le_trans hab hbc⟩
  exact List.sorted_insertionSort _ ms

theorem roundDouble_one_fifth : roundDouble (1 / 5) = 3602879701896397 / 2 ^ 54 :=
  roundDouble_eval (-3) 7205759403792794 (by norm_num [abs_of_pos]) (by norm_num [abs_of_pos])
    (by norm_num) (by norm_num [abs_lt]) (by norm_num)

theorem roundDouble_four_fifths : roundDouble (4 / 5) = 3602879701896397 / 2 ^ 52 :=
  roundDouble_eval (-1) 7205759403792794 (by norm_num [abs_of_pos]) (by norm_num [abs_of_pos])
    (by norm_num) (by norm_num [abs_lt]) (by norm_num)

theorem roundDouble_neg_one_200 : roundDouble (-1 / 200) = -5764607523034235 / 2 ^ 60 :=
  roundDouble_eval (-8) (-5764607523034235) (by norm_num [abs_of_neg])
    (by norm_num [abs_of_neg]) (by norm_num) (by norm_num [abs_lt]) (by norm_num)

theorem fmul_neg_one_200 : fmul (-5764607523034235 / 2 ^ 60) 100 = -1 / 2 :=
  roundDouble_eval (-1) (-4503599627370496) (by norm_num [abs_of_neg])
    (by norm_num [abs_of_neg]) (by norm_num) (by norm_num [abs_lt]) (by norm_num)

theorem remaining_le_of_fraction_le_one (h : Host) (e : String × Model)
    (hle : remainingOf e.2 ≤ 1) : (toLimit h e).remaining ≤ 100 := by
  rw [toLimit_remaining]
  have h1 : fmul (remainingOf e.2) 100 ≤ 100 :=
    roundDouble_le (isDouble_of_eq 100 0 (by norm_num) (by norm_num) (by norm_num))
      (by linarith)
  have h2 : mathRound (fmul (remainingOf e.2) 100) ≤ mathRound 100 := mathRound_mono h1
  have h3 : mathRound 100 = 100 := by
    rw [mathRound_eq_iff]
    norm_num
  rw [h3] at h2
  exact h2

theorem percentage_nonneg_of_remaining_le_usage (h : Host) (e : String × Model)
    (hle : (toLimit h e).remaining ≤ 100) : 0 ≤ (toLimit h e).percentage := by
  rw [toLimit_remaining] at hle
  rw [toLimit_percentage]
  have hlt : fmul (remainingOf e.2) 100 + 1 / 2 <
      (mathRound (fmul (remainingOf e.2) 100) : ℚ) + 1 := Int.lt_floor_add_one _
  have hcast : (mathRound (fmul (remainingOf e.2) 100) : ℚ) ≤ 100 := by exact_mod_cast hle
  -- the product is below the double 100.5, so the fraction is below 1.005
  have h1 : fmul (remainingOf e.2) 100 < 201 / 2 := by linarith
  have h2 : remainingOf e.2 * 100 < 201 / 2 :=
    lt_of_roundDouble_lt (isDouble_of_eq 201 (-1) (by norm_num) (by norm_num) (by norm_num)) h1
  have h3 : (-1 / 200 : ℚ) ≤ 1 - remainingOf e.2 := by linarith
  -- the used fraction is at least the double nearest to -0.005, and 100 times that double
  -- rounds to -0.5
  have h4 : -5764607523034235 / 2 ^ 60 ≤ fsub 1 (remainingOf e.2) := by
    have hm := roundDouble_mono h3
    rwa [roundDouble_neg_one_200] at hm
  have h5 : (-5764607523034235 / 2 ^ 60 : ℚ) * 100 ≤ fsub 1 (remainingOf e.2) * 100 := by
    linarith
  have h6 : -1 / 2 ≤ fmul (fsub 1 (remainingOf e.2)) 100 := by
    have hm : fmul (-5764607523034235 / 2 ^ 60) 100 ≤ fmul (fsub 1 (remainingOf e.2)) 100 :=
      roundDouble_mono h5
    rwa [fmul_neg_one_200] at hm
  unfold mathRound
  exact Int.floor_nonneg.mpr (by linarith)

theorem demoModels_sorted :
    sortModels (validModels demoModels) =
      [("model-a", demoModel (.val "Model A") (roundDouble (1 / 5))),
       ("model-b", demoModel (.val "Model B") (roundDouble (4 / 5)))] := by
  have hkept : validModels demoModels =
      [("model-b", demoModel (.val "Model B") (roundDouble (4 / 5))),
       ("model-a", demoModel (.val "Model A") (roundDouble (1 / 5)))] := rfl
  rw [hkept]
  have hlt : ¬ (roundDouble (4 / 5) ≤ roundDouble (1 / 5)) := by
    rw [roundDouble_one_fifth, roundDouble_four_fifths]
    norm_num
  simp only [sortModels, List.insertionSort, List.orderedInsert, remainingOf, demoModel, nullish,
    hlt, if_false]

/-- C3: with at least two kept models, `fetchData` succeeds and its limits are the entries of a
permutation of the kept models along which the remaining fraction (1 when absent) never
decreases; the `remaining` fields of the limits are non-decreasing as well. -/
theorem limits_sorted_by_remaining (h : Host)
    (fetch : Request → Except JsError (Response Payload)) (config : Config)
    (models : List (String × Model)) (hd : Delivers h fetch config models)
    (h2 : 2 ≤ (validModels models).length) :
    ∃ r, fetchData h fetch config = .ok r ∧
      ∃ ms : List (String × Model),
        ms.Perm (validModels models) ∧
          ms.Sorted (fun a b => remainingOf a.2 ≤ remainingOf b.2) ∧
            r.limits = ms.map (toLimit h) ∧
              (r.limits.map (fun l => l.remaining)).Sorted (fun x y => x ≤ y) := by
  have hkept : validModels models ≠ [] := by
    intro hnil
    rw [hnil] at h2
    simp at h2
  obtain ⟨r, hr, hlim⟩ := fromModels_of_kept (h := h) hkept
  refine ⟨r, by rw [fetchData_of_models hd, hr], sortModels (validModels models),
    sortModels_perm _, sortModels_sorted _, hlim, ?_⟩
  rw [hlim, List.map_map]
  unfold List.Sorted
  rw [List.pairwise_map]
  refine List.Pairwise.imp ?_ (sortModels_sorted (validModels models))
  intro a b hab
  simp only [Function.comp, toLimit_remaining]
  exact mathRound_mono (roundDouble_mono (mul_le_mul_of_nonneg_right hab (by norm_num)))

/-- C3, worked example: B (four fifths left) is listed before A (one fifth left) upstream; the
limits list A first. -/
theorem limits_sorted_by_remaining_witness :
    ∃ r, fetchData demoHost (demoFetch demoModels) demoConfig = .ok r ∧
      r.limits.map (fun l => l.limitType) = ["model-a", "model-b"] ∧
      (r.limits.map (fun l => l.remaining)).Sorted (fun x y => x ≤ y) := by
  obtain ⟨r, hr, ms, _, _, _, hsorted⟩ := limits_sorted_by_remaining demoHost
    (demoFetch demoModels) demoConfig demoModels (demoFetch_delivers_models _) (by decide)
  refine ⟨r, hr, ?_, hsorted⟩
  rw [fetchData_of_models (demoFetch_delivers_models _)] at hr
  rw [fromModels_ok_limits hr, demoModels_sorted]
  rfl

theorem percentage_one_fifth :
    mathRound (fmul (fsub 1 (roundDouble (1 / 5))) 100) = 80 := by
  have h1 : fsub 1 (3602879701896397 / 2 ^ 54) = 3602879701896397 / 2 ^ 52 :=
    roundDouble_eval_tie (-1) 7205759403792793 7205759403792794 (by norm_num [abs_of_pos])
      (by norm_num [abs_of_pos]) (by norm_num) (by norm_num)
      (Or.inr ⟨by norm_num, by norm_num⟩) (by norm_num)
  have h2 : fmul (3602879701896397 / 2 ^ 52) 100 = 80 :=
    roundDouble_eval 6 5629499534213120 (by norm_num [abs_of_pos]) (by norm_num [abs_of_pos])
      (by norm_num) (by norm_num [abs_lt]) (by norm_num)
  rw [roundDouble_one_fifth, h1, h2, mathRound_eq_iff]
  norm_num

theorem remaining_one_fifth : mathRound (fmul (roundDouble (1 / 5)) 100) = 20 := by
  have h2 : fmul (3602879701896397 / 2 ^ 54) 100 = 20 :=
    roundDouble_eval 4 5629499534213120 (by norm_num [abs_of_pos]) (by norm_num [abs_of_pos])
      (by norm_num) (by norm_num [abs_lt]) (by norm_num)
  rw [roundDouble_one_fifth, h2, mathRound_eq_iff]
  norm_num

theorem roundDouble_17_40 : roundDouble (17 / 40) = 7656119366529843 / 2 ^ 54 :=
  roundDouble_eval (-2) 7656119366529843 (by norm_num [abs_of_pos]) (by norm_num [abs_of_pos])
    (by norm_num) (by norm_num [abs_lt]) (by norm_num)

theorem percentage_17_40 : mathRound (fmul (fsub 1 (roundDouble (17 / 40))) 100) = 57 := by
  have h1 : fsub 1 (7656119366529843 / 2 ^ 54) = 2589569785738035 / 2 ^ 52 :=
    roundDouble_eval_tie (-1) 5179139571476070 5179139571476070 (by norm_num [abs_of_pos])
      (by norm_num [abs_of_pos]) (by norm_num) (by norm_num) (Or.inl ⟨by norm_num, rfl⟩)
      (by norm_num)
  have h2 : fmul (2589569785738035 / 2 ^ 52) 100 = 8092405580431359 / 2 ^ 47 :=
    roundDouble_eval 5 8092405580431359 (by norm_num [abs_of_pos]) (by norm_num [abs_of_pos])
      (by norm_num) (by norm_num [abs_lt]) (by norm_num)
  rw [roundDouble_17_40, h1, h2, mathRound_eq_iff]
  norm_num

theorem mem_limits_of_kept {h : Host} {fetch : Request → Except JsError (Response Payload)}
    {config : Config} {models : List (String × Model)} {e : String × Model}
    (hd : Delivers h fetch config models) (hmem : e ∈ models)
    (hname : truthyStr e.2.displayName = true) :
    ∃ r, fetchData h fetch config = .ok r ∧ toLimit h e ∈ r.limits := by
  have hin : e ∈ validModels models := List.mem_filter.mpr ⟨hmem, hname⟩
  obtain ⟨r, hr, hlim⟩ := fromModels_of_kept (h := h) (List.ne_nil_of_mem hin)
  refine ⟨r, by rw [fetchData_of_models hd, hr], ?_⟩
  rw [hlim]
  exact List.mem_map_of_mem _ ((sortModels_perm _).mem_iff.mpr hin)

/-- C8 (amended): the entry of a kept model carries the model's display name as label, usage
100, and percentage and currentValue both equal to `round ((1 - r) * 100)`, where `r` is the
model's remaining fraction, 1 when `quotaInfo` or `remainingFraction` is absent, a double of
moderate size; the difference and the product are those of double arithmetic, each rounded to
the nearest double, and neither overflows (the product is at most `2 ^ 508` in magnitude). -/
theorem model_entry_fields (h : Host) (fetch : Request → Except JsError (Response Payload))
    (config : Config) (models : List (String × Model)) (e : String × Model)
    (hd : Delivers h fetch config models) (hmem : e ∈ models)
    (hname : truthyStr e.2.displayName = true) (hm : Moderate (remainingOf e.2)) :
    ∃ r, fetchData h fetch config = .ok r ∧ toLimit h e ∈ r.limits ∧
      (∀ name, e.2.displayName = .val name → (toLimit h e).label = name) ∧
      (toLimit h e).usage = 100 ∧
      (toLimit h e).percentage = mathRound (fmul (fsub 1 (remainingOf e.2)) 100) ∧
      (toLimit h e).currentValue = (toLimit h e).percentage ∧
      (∀ q x, e.2.quotaInfo = .val q → q.remainingFraction = .val x → remainingOf e.2 = x) ∧
      ((∀ q, e.2.quotaInfo ≠ .val q) → remainingOf e.2 = 1) ∧
      (∀ q, e.2.quotaInfo = .val q → (∀ x, q.remainingFraction ≠ .val x) →
        remainingOf e.2 = 1) ∧
      |fmul (fsub 1 (remainingOf e.2)) 100| ≤ (2 : ℚ) ^ (508 : ℤ) := by
  obtain ⟨r, hr, hin⟩ := mem_limits_of_kept hd hmem hname
  refine ⟨r, hr, hin, ?_, rfl, toLimit_percentage h e, ?_, ?_, ?_, ?_,
    used_chain_le (moderate_abs_le hm)⟩
  · intro name hn
    have hne : name ≠ "" := by
      rw [hn] at hname
      simpa [truthyStr] using hname
    simp [toLimit, strOr, hn, hne]
  · rw [toLimit_currentValue, toLimit_percentage]
  · intro q x hq hx
    simp [remainingOf, hq, hx, nullish]
  · intro hq
    unfold remainingOf
    cases hqi : e.2.quotaInfo with
    | val q => exact absurd hqi (hq q)
    | undefined => rfl
    | null => rfl
  · intro q hq hx
    unfold remainingOf
    rw [hq]
    cases hrf : q.remainingFraction with
    | val x => exact absurd hrf (hx x)
    | undefined => simp [hrf, nullish]
    | null => simp [hrf, nullish]

/-- C8, worked example: A with `remainingFraction` 0.2 and B with 0.8 give a first limit with
A's display name and percentage 80. -/
theorem model_entry_fields_witness :
    ∃ r, fetchData demoHost (demoFetch demoModels) demoConfig = .ok r ∧
      r.limits.head? =
        some (toLimit demoHost ("model-a", demoModel (.val "Model A") (roundDouble (1 / 5)))) ∧
      (toLimit demoHost ("model-a", demoModel (.val "Model A") (roundDouble (1 / 5)))).label =
        "Model A" ∧
      (toLimit demoHost
        ("model-a", demoModel (.val "Model A") (roundDouble (1 / 5)))).percentage = 80 ∧
      (toLimit demoHost
        ("model-a", demoModel (.val "Model A") (roundDouble (1 / 5)))).currentValue = 80 := by
  obtain ⟨r, hr, _, hlabel, _, hpct, hcur, hrem, _, _, _⟩ := model_entry_fields demoHost
    (demoFetch demoModels) demoConfig demoModels
    ("model-a", demoModel (.val "Model A") (roundDouble (1 / 5))) (demoFetch_delivers_models _)
    (by simp [demoModels]) (by decide)
    (moderate_roundDouble (by norm_num [abs_of_pos]) (by norm_num [abs_of_pos]))
  have hr' := hr
  rw [fetchData_of_models (demoFetch_delivers_models _)] at hr'
  have hrf : remainingOf (demoModel (.val "Model A") (roundDouble (1 / 5))) =
      roundDouble (1 / 5) := hrem _ _ rfl rfl
  have h80 : (toLimit demoHost
      ("model-a", demoModel (.val "Model A") (roundDouble (1 / 5)))).percentage = 80 := by
    rw [hpct]
    simp only [hrf]
    exact percentage_one_fifth
  refine ⟨r, hr, ?_, hlabel _ rfl, h80, by rw [hcur, h80]⟩
  rw [fromModels_ok_limits hr', demoModels_sorted]
  rfl

/-- C8, counterexample: for a model with `remainingFraction` 0.425 the entry has percentage
and currentValue 57, the difference `1 - r` being the double just below 0.575, while
`round ((1 - r) * 100)` computed exactly from that `r` is 58. -/
theorem model_entry_fields_counterexample :
    ∃ r, fetchData demoHost
        (demoFetch [("model-d", demoModel (.val "Model D") (roundDouble (17 / 40)))])
        demoConfig = .ok r ∧
      toLimit demoHost ("model-d", demoModel (.val "Model D") (roundDouble (17 / 40))) ∈
        r.limits ∧
      (toLimit demoHost
        ("model-d", demoModel (.val "Model D") (roundDouble (17 / 40)))).percentage = 57 ∧
      (toLimit demoHost
        ("model-d", demoModel (.val "Model D") (roundDouble (17 / 40)))).currentValue = 57 ∧
      mathRound ((1 - roundDouble (17 / 40)) * 100) = 58 := by
  obtain ⟨r, hr, hin⟩ := mem_limits_of_kept
    (demoFetch_delivers_models [("model-d", demoModel (.val "Model D") (roundDouble (17 / 40)))])
    (List.mem_singleton.mpr rfl) (by decide)
  have hrf : remainingOf (demoModel (.val "Model D") (roundDouble (17 / 40))) =
      roundDouble (17 / 40) := rfl
  refine ⟨r, hr, hin, ?_, ?_, ?_⟩
  · rw [toLimit_percentage]
    simp only [hrf]
    exact percentage_17_40
  · rw [toLimit_currentValue]
    simp only [hrf]
    exact percentage_17_40
  · rw [roundDouble_17_40, mathRound_eq_iff]
    norm_num

end Antigravity

/-! ## right-code -/

namespace RightCode

theorem demoFetch_delivers_list (subs : List Subscription) :
    Delivers (demoFetch subs) demoConfig subs :=
  ⟨by decide, _, _, rfl, rfl, rfl, rfl⟩

theorem fetchData_of_kept {h : Host} {fetch : Request → Except JsError (Response Payload)}
    {config : Config} {subs : List Subscription} (hd : Delivers fetch config subs)
    (hkept : subs.filter (fun sub => !isExpired h sub.expired_at) ≠ []) :
    ∃ r, fetchData h fetch config = .ok r ∧
      r.limits = (subs.filter (fun sub => !isExpired h sub.expired_at)).map (toLimit h) := by
  obtain ⟨hkey, response, result, hfetch, hok, hjson, hsubs⟩ := hd
  have hlen : (subs.filter (fun sub => !isExpired h sub.expired_at)).length ≠ 0 := by
    simpa [List.length_eq_zero] using hkept
  simp only [fetchData, hkey, hfetch, fromResponse, hok, hjson, hsubs, Bool.not_true,
    Bool.false_eq_true, if_false, hlen]
  exact ⟨_, rfl, rfl⟩

theorem fetchData_of_none_kept {h : Host} {fetch : Request → Except JsError (Response Payload)}
    {config : Config} {subs : List Subscription} (hd : Delivers fetch config subs)
    (hnone : subs.filter (fun sub => !isExpired h sub.expired_at) = []) :
    fetchData h fetch config = .error (.error "没有有效订阅") := by
  obtain ⟨hkey, response, result, hfetch, hok, hjson, hsubs⟩ := hd
  simp only [fetchData, hkey, hfetch, fromResponse, hok, hjson, hsubs, Bool.not_true,
    Bool.false_eq_true, if_false, hnone, List.length_nil, if_true]

theorem isExpired_eq_false_iff (h : Host) (expiredAt : JsOpt String) :
    isExpired h expiredAt = false ↔
      ∃ s, expiredAt = .val s ∧ s ≠ "" ∧ ∀ e, h.parseDate s = some e → h.now ≤ e := by
  unfold isExpired
  cases expiredAt with
  | undefined => simp [truthyStr]
  | null => simp [truthyStr]
  | val s =>
    by_cases he : s = ""
    · simp [truthyStr, he]
    · cases hparse : h.parseDate s <;> simp [truthyStr, strOr, he, hparse]

theorem toFixed1_close (x : ℚ) : |toFixed1 x - x| ≤ 1 / 20 ∧ ∃ n : ℤ, toFixed1 x = (n : ℚ) / 10 := by
  unfold toFixed1
  split
  · have h1 := Int.floor_le (-x * 10 + 1 / 2)
    have h2 := Int.lt_floor_add_one (-x * 10 + 1 / 2)
    refine ⟨abs_le.mpr ⟨by linarith, by linarith⟩, -⌊-x * 10 + 1 / 2⌋, ?_⟩
    push_cast
    ring
  · have h1 := Int.floor_le (x * 10 + 1 / 2)
    have h2 := Int.lt_floor_add_one (x * 10 + 1 / 2)
    exact ⟨abs_le.mpr ⟨by linarith, by linarith⟩, ⌊x * 10 + 1 / 2⌋, rfl⟩

theorem getDaysRemaining_of_valid {h : Host} {s : String} {E : ℤ} (hne : s ≠ "")
    (hE : h.parseDate s = some E) (hnow : h.now ≤ E) :
    getDaysRemaining h (.val s) = some ⌈((E - h.now : ℤ) : ℚ) / 86400000⌉ := by
  have htr : truthyStr (.val s) = true := by simp [truthyStr, hne]
  have hso : strOr (.val s) "" = s := by simp [strOr, hne]
  unfold getDaysRemaining
  simp only [htr, hso, Bool.not_true, Bool.false_eq_true, if_false, hE]
  split
  · rename_i hle
    have hzero : E - h.now = 0 := le_antisymm hle (by linarith)
    rw [hzero]
    simp
  · norm_num

/-- C4: a subscription passes the expiry filter exactly when its `expired_at` is present and
not in the past; the limits are the entries of the subscriptions that pass, so a subscription
whose `expired_at` is missing or in the past has no entry; `fetchData` fails with the
empty-result error exactly when no subscription passes, and succeeds otherwise. -/
theorem expiry_filter (h : Host) (fetch : Request → Except JsError (Response Payload))
    (config : Config) (subs : List Subscription) (hd : Delivers fetch config subs) :
    (∀ sub : Subscription, (!isExpired h sub.expired_at) = true ↔
        ∃ s, sub.expired_at = .val s ∧ s ≠ "" ∧ ∀ e, h.parseDate s = some e → h.now ≤ e) ∧
      (∀ r, fetchData h fetch config = .ok r →
        r.limits = (subs.filter (fun sub => !isExpired h sub.expired_at)).map (toLimit h)) ∧
      (fetchData h fetch config = .error (.error "没有有效订阅") ↔
        subs.filter (fun sub => !isExpired h sub.expired_at) = []) ∧
      (subs.filter (fun sub => !isExpired h sub.expired_at) ≠ [] →
        ∃ r, fetchData h fetch config = .ok r) := by
  refine ⟨?_, ?_, ?_, ?_⟩
  · intro sub
    rw [← isExpired_eq_false_iff]
    cases isExpired h sub.expired_at <;> simp
  · intro r hr
    by_cases hkept : subs.filter (fun sub => !isExpired h sub.expired_at) = []
    · rw [fetchData_of_none_kept hd hkept] at hr
      cases hr
    · obtain ⟨r', hr', hlim⟩ := fetchData_of_kept (h := h) hd hkept
      rw [hr'] at hr
      cases hr
      exact hlim
  · constructor
    · intro herr
      by_contra hkept
      obtain ⟨r', hr', _⟩ := fetchData_of_kept (h := h) hd hkept
      rw [hr'] at herr
      cases herr
    · exact fetchData_of_none_kept hd
  · intro hkept
    obtain ⟨r, hr, _⟩ := fetchData_of_kept (h := h) hd hkept
    exact ⟨r, hr⟩

/-- C4, worked example: of a subscription expiring in ten days, one expired yesterday and one
without expiry date, only the first has an entry. -/
theorem expiry_filter_witness :
    ∃ r, fetchData demoHost (demoFetch demoSubs) demoConfig = .ok r ∧
      r.limits = [toLimit demoHost (demoSub 1 100 25 (.val "1970-01-11T00:00:00.000Z"))] := by
  have hkept : demoSubs.filter (fun sub => !isExpired demoHost sub.expired_at) =
      [demoSub 1 100 25 (.val "1970-01-11T00:00:00.000Z")] := by decide
  have hw := expiry_filter demoHost (demoFetch demoSubs) demoConfig demoSubs
    (demoFetch_delivers_list _)
  obtain ⟨r, hr⟩ := hw.2.2.2 (by rw [hkept]; simp)
  refine ⟨r, hr, ?_⟩
  rw [hw.2.1 r hr, hkept]
  rfl

theorem mem_limits_of_valid {h : Host} {fetch : Request → Except JsError (Response Payload)}
    {config : Config} {subs : List Subscription} {sub : Subscription}
    (hd : Delivers fetch config subs) (hmem : sub ∈ subs)
    (hvalid : isExpired h sub.expired_at = false) :
    ∃ r, fetchData h fetch config = .ok r ∧ toLimit h sub ∈ r.limits := by
  have hin : sub ∈ subs.filter (fun sub => !isExpired h sub.expired_at) :=
    List.mem_filter.mpr ⟨hmem, by simp [hvalid]⟩
  obtain ⟨r, hr, hlim⟩ := fetchData_of_kept (h := h) hd (List.ne_nil_of_mem hin)
  refine ⟨r, hr, ?_⟩
  rw [hlim]
  exact List.mem_map_of_mem _ hin

theorem toFixed1_of_floor {x : ℚ} {n : ℤ} (hx : 0 ≤ x) (hn : ⌊x * 10 + 1 / 2⌋ = n) :
    toFixed1 x = (n : ℚ) / 10 := by
  unfold toFixed1
  rw [if_neg (not_lt.mpr hx), hn]

theorem usagePercent_100_25 :
    roundDouble (toFixed1 (fmul (fdiv (fsub 100 25) 100) 100)) = 75 := by
  have h1 : fsub 100 25 = 75 :=
    roundDouble_eq_of_dyadic 75 0 (by norm_num) (by norm_num) (by norm_num) (by norm_num)
  have h2 : fdiv 75 100 = 3 / 4 :=
    roundDouble_eq_of_dyadic 3 (-2) (by norm_num) (by norm_num) (by norm_num) (by norm_num)
  have h3 : fmul (3 / 4) 100 = 75 :=
    roundDouble_eq_of_dyadic 75 0 (by norm_num) (by norm_num) (by norm_num) (by norm_num)
  have h4 : toFixed1 75 = ((750 : ℤ) : ℚ) / 10 :=
    toFixed1_of_floor (by norm_num) (by rw [Int.floor_eq_iff]; norm_num)
  rw [h1, h2, h3, h4]
  exact roundDouble_eq_of_dyadic 75 0 (by norm_num) (by norm_num) (by norm_num) (by norm_num)

theorem usagePercent_neg100_0 :
    roundDouble (toFixed1 (fmul (fdiv (fsub (-100) 0) (-100)) 100)) = 100 := by
  have h1 : fsub (-100) 0 = -100 :=
    roundDouble_eq_of_dyadic (-100) 0 (by norm_num) (by norm_num) (by norm_num) (by norm_num)
  have h2 : fdiv (-100) (-100) = 1 :=
    roundDouble_eq_of_dyadic 1 0 (by norm_num) (by norm_num) (by norm_num) (by norm_num)
  have h3 : fmul 1 100 = 100 :=
    roundDouble_eq_of_dyadic 100 0 (by norm_num) (by norm_num) (by norm_num) (by norm_num)
  have h4 : toFixed1 100 = ((1000 : ℤ) : ℚ) / 10 :=
    toFixed1_of_floor (by norm_num) (by rw [Int.floor_eq_iff]; norm_num)
  rw [h1, h2, h3, h4]
  exact roundDouble_eq_of_dyadic 100 0 (by norm_num) (by norm_num) (by norm_num) (by norm_num)

theorem usagePercent_80_57 :
    toFixed1 (fmul (fdiv (fsub 80 57) 80) 100) = 287 / 10 := by
  have h1 : fsub 80 57 = 23 :=
    roundDouble_eq_of_dyadic 23 0 (by norm_num) (by norm_num) (by norm_num) (by norm_num)
  have h2 : fdiv 23 80 = 2589569785738035 / 2 ^ 53 :=
    roundDouble_eval (-2) 5179139571476070 (by norm_num [abs_of_pos]) (by norm_num [abs_of_pos])
      (by norm_num) (by norm_num [abs_lt]) (by norm_num)
  have h3 : fmul (2589569785738035 / 2 ^ 53) 100 = 8092405580431359 / 2 ^ 48 :=
    roundDouble_eval 4 8092405580431359 (by norm_num [abs_of_pos]) (by norm_num [abs_of_pos])
      (by norm_num) (by norm_num [abs_lt]) (by norm_num)
  have h4 : toFixed1 (8092405580431359 / 2 ^ 48) = ((287 : ℤ) : ℚ) / 10 :=
    toFixed1_of_floor (by norm_num) (by rw [Int.floor_eq_iff]; norm_num)
  rw [h1, h2, h3, h4]
  norm_num

theorem demoSub_usagePercent (id T R : ℚ) (expired_at : JsOpt String) (hT : 0 < T) :
    (toLimit demoHost (demoSub id T R expired_at)).usagePercent =
      some (roundDouble (toFixed1 (fmul (fdiv (fsub T R) T) 100))) := by
  simp [toLimit, demoSub, toNumber, hT]

/-- C7 (amended): the entry of a subscription that is not expired, with expiry time `E`,
total quota `T` and remaining quota `R`, two doubles of moderate size, has currentValue the
difference `T - R`, daysRemaining the ceiling of `(E - now) / 86400000` (which is 0 when `E` is
not after now), usagePercent `(T - R) / T * 100` rounded to one decimal place when `T` is
positive and 0 otherwise, and status warning exactly when daysRemaining is at most 3, active
otherwise. Difference, quotient and product are those of double arithmetic, each rounded to the
nearest double, and none of them overflows (the product is at most `2 ^ 1008` in magnitude);
the product is printed with one decimal (the multiple of one tenth nearest to it) and the
decimal is read back as the nearest double. -/
theorem entry_days_usage_status (h : Host)
    (fetch : Request → Except JsError (Response Payload)) (config : Config)
    (subs : List Subscription) (sub : Subscription) (s : String) (E : ℤ) (T R : ℚ)
    (hd : Delivers fetch config subs) (hmem : sub ∈ subs) (hs : sub.expired_at = .val s)
    (hne : s ≠ "") (hE : h.parseDate s = some E) (hnow : h.now ≤ E)
    (hT : sub.total_quota = .val T) (hR : sub.remaining_quota = .val R)
    (hTm : Moderate T) (hRm : Moderate R) :
    ∃ r, fetchData h fetch config = .ok r ∧ toLimit h sub ∈ r.limits ∧
      (toLimit h sub).currentValue = some (fsub T R) ∧
      (IsDouble (T - R) → fsub T R = T - R) ∧
      (toLimit h sub).daysRemaining = some ⌈((E - h.now : ℤ) : ℚ) / 86400000⌉ ∧
      (toLimit h sub).usagePercent =
        some (if 0 < T then roundDouble (toFixed1 (fmul (fdiv (fsub T R) T) 100)) else 0) ∧
      |toFixed1 (fmul (fdiv (fsub T R) T) 100) - fmul (fdiv (fsub T R) T) 100| ≤ 1 / 20 ∧
      (∃ n : ℤ, toFixed1 (fmul (fdiv (fsub T R) T) 100) = (n : ℚ) / 10) ∧
      ((toLimit h sub).status = "warning" ↔ ⌈((E - h.now : ℤ) : ℚ) / 86400000⌉ ≤ 3) ∧
      (¬ ⌈((E - h.now : ℤ) : ℚ) / 86400000⌉ ≤ 3 → (toLimit h sub).status = "active") ∧
      (0 < T → |fmul (fdiv (fsub T R) T) 100| ≤ (2 : ℚ) ^ (1008 : ℤ)) := by
  have hvalid : isExpired h sub.expired_at = false :=
    (isExpired_eq_false_iff h sub.expired_at).mpr
      ⟨s, hs, hne, fun e he => by rw [hE] at he; cases he; exact hnow⟩
  obtain ⟨r, hr, hin⟩ := mem_limits_of_valid hd hmem hvalid
  have hdays : getDaysRemaining h sub.expired_at =
      some ⌈((E - h.now : ℤ) : ℚ) / 86400000⌉ := by
    rw [hs]
    exact getDaysRemaining_of_valid hne hE hnow
  refine ⟨r, hr, hin, ?_, fun hdbl => hdbl, ?_, ?_, (toFixed1_close _).1, (toFixed1_close _).2,
    ?_, ?_, fun hpos => percent_chain_le (moderate_abs_le hTm) (moderate_abs_le hRm)
      (moderate_le_of_pos hTm hpos)⟩
  · simp [toLimit, hT, hR, toNumber]
  · simp only [toLimit, hdays]
  · by_cases hpos : 0 < T <;> simp [toLimit, hT, hR, toNumber, hpos]
  · simp only [toLimit, hdays]
    by_cases hle : ⌈((E - h.now : ℤ) : ℚ) / 86400000⌉ ≤ 3 <;> simp [hle]
  · intro hle
    simp only [toLimit, hdays, decide_eq_true_eq, hle, if_false]

/-- C7, worked example: total 100, remaining 25 and an expiry ten days out give currentValue
75, usagePercent 75, daysRemaining 10 and status active. -/
theorem entry_days_usage_status_witness :
    ∃ r, fetchData demoHost (demoFetch demoSubs) demoConfig = .ok r ∧
      toLimit demoHost (demoSub 1 100 25 (.val "1970-01-11T00:00:00.000Z")) ∈ r.limits ∧
      (toLimit demoHost (demoSub 1 100 25 (.val "1970-01-11T00:00:00.000Z"))).currentValue =
        some 75 ∧
      (toLimit demoHost (demoSub 1 100 25 (.val "1970-01-11T00:00:00.000Z"))).daysRemaining =
        some 10 ∧
      (toLimit demoHost (demoSub 1 100 25 (.val "1970-01-11T00:00:00.000Z"))).usagePercent =
        some 75 ∧
      (toLimit demoHost (demoSub 1 100 25 (.val "1970-01-11T00:00:00.000Z"))).status =
        "active" := by
  obtain ⟨r, hr, hin, hcur, hexact, hdays, hpct, _, _, _, hactive, _⟩ :=
    entry_days_usage_status demoHost
    (demoFetch demoSubs) demoConfig demoSubs
    (demoSub 1 100 25 (.val "1970-01-11T00:00:00.000Z")) "1970-01-11T00:00:00.000Z" 864000000
    100 25 (demoFetch_delivers_list _) (by simp [demoSubs]) rfl (by decide) (by decide) (by decide)
    rfl rfl
    (moderate_of_dyadic 100 0 (by norm_num) (by norm_num) (by norm_num)
      (by norm_num [abs_of_pos]) (by norm_num [abs_of_pos]))
    (moderate_of_dyadic 25 0 (by norm_num) (by norm_num) (by norm_num)
      (by norm_num [abs_of_pos]) (by norm_num [abs_of_pos]))
  have hceil : ⌈(((864000000 : ℤ) - demoHost.now : ℤ) : ℚ) / 86400000⌉ = 10 := by
    rw [Int.ceil_eq_iff]
    norm_num [demoHost]
  have h75 : fsub 100 25 = 75 := by
    rw [hexact (isDouble_of_eq 75 0 (by norm_num) (by norm_num) (by norm_num))]
    norm_num
  rw [hceil] at hdays hactive
  rw [if_pos (by norm_num), usagePercent_100_25] at hpct
  rw [h75] at hcur
  exact ⟨r, hr, hin, hcur, hdays, hpct, hactive (by norm_num)⟩

/-- C7, counterexample: with total quota -100 and remaining quota 0 the entry reports
usagePercent 0, while `(T - R) / T * 100` to one decimal place is 100 and `T` is not 0; and
with total quota 80 and remaining quota 57 the entry reports usagePercent 28.7, the double
product being just below 28.75, while `(T - R) / T * 100` computed exactly is 28.75, which to
one decimal place is 28.8. -/
theorem entry_days_usage_status_counterexample :
    (∃ r, fetchData demoHost
        (demoFetch [demoSub 4 (-100) 0 (.val "1970-01-11T00:00:00.000Z")]) demoConfig = .ok r ∧
      r.limits = [toLimit demoHost (demoSub 4 (-100) 0 (.val "1970-01-11T00:00:00.000Z"))] ∧
      (toLimit demoHost (demoSub 4 (-100) 0 (.val "1970-01-11T00:00:00.000Z"))).usagePercent =
        some 0 ∧
      roundDouble (toFixed1 (fmul (fdiv (fsub (-100) 0) (-100)) 100)) = 100 ∧
      (-100 : ℚ) ≠ 0) ∧
    (∃ r, fetchData demoHost
        (demoFetch [demoSub 5 80 57 (.val "1970-01-11T00:00:00.000Z")]) demoConfig = .ok r ∧
      r.limits = [toLimit demoHost (demoSub 5 80 57 (.val "1970-01-11T00:00:00.000Z"))] ∧
      (toLimit demoHost (demoSub 5 80 57 (.val "1970-01-11T00:00:00.000Z"))).usagePercent =
        some (roundDouble (287 / 10)) ∧
      toFixed1 (((80 : ℚ) - 57) / 80 * 100) = 288 / 10 ∧
      roundDouble (287 / 10) ≠ roundDouble (288 / 10)) := by
  constructor
  · have hkept : [demoSub 4 (-100) 0 (.val "1970-01-11T00:00:00.000Z")].filter
        (fun sub => !isExpired demoHost sub.expired_at) =
        [demoSub 4 (-100) 0 (.val "1970-01-11T00:00:00.000Z")] := by
      simp [isExpired, demoSub, truthyStr, strOr, demoHost]
    obtain ⟨r, hr, hlim⟩ := fetchData_of_kept (h := demoHost) (demoFetch_delivers_list _)
      (by rw [hkept]; simp)
    refine ⟨r, hr, ?_, ?_, usagePercent_neg100_0, by norm_num⟩
    · rw [hlim, hkept]
      rfl
    · have hneg : ¬ ((-100 : ℚ) > 0) := by norm_num
      simp [toLimit, demoSub, hneg]
  · have hkept : [demoSub 5 80 57 (.val "1970-01-11T00:00:00.000Z")].filter
        (fun sub => !isExpired demoHost sub.expired_at) =
        [demoSub 5 80 57 (.val "1970-01-11T00:00:00.000Z")] := by
      simp [isExpired, demoSub, truthyStr, strOr, demoHost]
    obtain ⟨r, hr, hlim⟩ := fetchData_of_kept (h := demoHost) (demoFetch_delivers_list _)
      (by rw [hkept]; simp)
    have h287 : roundDouble (287 / 10) = 8078331831595827 / 2 ^ 48 :=
      roundDouble_eval 4 8078331831595827 (by norm_num [abs_of_pos])
        (by norm_num [abs_of_pos]) (by norm_num) (by norm_num [abs_lt]) (by norm_num)
    have h288 : roundDouble (288 / 10) = 8106479329266893 / 2 ^ 48 :=
      roundDouble_eval 4 8106479329266893 (by norm_num [abs_of_pos])
        (by norm_num [abs_of_pos]) (by norm_num) (by norm_num [abs_lt]) (by norm_num)
    refine ⟨r, hr, ?_, ?_, ?_, ?_⟩
    · rw [hlim, hkept]
      rfl
    · rw [demoSub_usagePercent 5 80 57 _ (by norm_num), usagePercent_80_57]
    · have hx : toFixed1 (((80 : ℚ) - 57) / 80 * 100) = ((288 : ℤ) : ℚ) / 10 :=
        toFixed1_of_floor (by norm_num) (by rw [Int.floor_eq_iff]; norm_num)
      rw [hx]
      norm_num
    · rw [h287, h288]
      norm_num

end RightCode

/-! ## zhipu-balance -/

namespace Zhipu

theorem demoFetch_delivers_raw (raw : List RawLimit) : Delivers (demoFetch raw) demoConfig raw :=
  ⟨by decide, _, _, rfl, rfl, rfl, rfl, rfl, rfl⟩

theorem fetchData_of_raw {h : Host} {fetch : Request → Except JsError (Response Envelope)}
    {config : Config} {raw : List RawLimit} (hd : Delivers fetch config raw) (hne : raw ≠ []) :
    ∃ r, fetchData h fetch config = .ok r ∧ r.limits = raw.map toLimit := by
  obtain ⟨hkey, response, result, hfetch, hok, hjson, hcode, hflag, hraw⟩ := hd
  have hlen : raw.length ≠ 0 := by simpa [List.length_eq_zero] using hne
  simp only [fetchData, hkey, hfetch, fromResponse, hok, hjson, hcode, hflag, hraw,
    Bool.not_true, Bool.false_eq_true, if_false, hlen, ne_eq, not_true_eq_false, or_self]
  exact ⟨_, rfl, rfl⟩

theorem fetchData_ok_raw {h : Host} {fetch : Request → Except JsError (Response Envelope)}
    {config : Config} {r : BalanceResult} (hr : fetchData h fetch config = .ok r) :
    ∃ raw : List RawLimit, r.limits = raw.map toLimit := by
  unfold fetchData at hr
  split at hr
  · cases hr
  · split at hr
    · cases hr
    · unfold fromResponse at hr
      split at hr
      · cases hr
      · split at hr
        · cases hr
        · cases hr
        · split at hr
          · cases hr
          · dsimp only at hr
            split at hr
            · cases hr
            · cases hr
              exact ⟨_, rfl⟩

theorem percentage_nonneg_of_currentValue (item : RawLimit)
    (hcv : 0 ≤ (toLimit item).currentValue) : 0 ≤ (toLimit item).percentage := by
  simp only [toLimit] at hcv ⊢
  split
  · rename_i hpos
    apply mathRound_nonneg
    exact fmul_nonneg (fdiv_nonneg hcv (le_of_lt hpos)) (by norm_num)
  · exact le_refl 0

/-- The lookup table with its fallback: the two known codes give their table pair, any other
string that is not a property name of `Object.prototype` passes through as the label with the
unit tokens, and a property name of `Object.prototype` gives neither label nor unit. -/
theorem toLimit_label_unit (item : RawLimit) (s : String) (hs : item.type = .val s) :
    (s = "TIME_LIMIT" → (toLimit item).label = .val "MCP 用量" ∧ (toLimit item).unit = .val "次") ∧
      (s = "TOKENS_LIMIT" →
        (toLimit item).label = .val "模型用量" ∧ (toLimit item).unit = .val "tokens") ∧
      (s ≠ "TIME_LIMIT" → s ≠ "TOKENS_LIMIT" → s ∉ objectPrototypeKeys →
        (toLimit item).label = .val s ∧ (toLimit item).unit = .val "tokens") ∧
      (s ∈ objectPrototypeKeys →
        (toLimit item).label = .undefined ∧ (toLimit item).unit = .undefined) := by
  refine ⟨?_, ?_, ?_, ?_⟩
  · rintro rfl
    simp [toLimit, hs, propertyKey, LIMIT_TYPE_MAP]
  · rintro rfl
    simp [toLimit, hs, propertyKey, LIMIT_TYPE_MAP]
  · intro h1 h2 h3
    simp [toLimit, hs, propertyKey, LIMIT_TYPE_MAP, h1, h2, h3]
  · intro hmem
    have h1 : s ≠ "TIME_LIMIT" := by
      rintro rfl
      revert hmem
      decide
    have h2 : s ≠ "TOKENS_LIMIT" := by
      rintro rfl
      revert hmem
      decide
    simp [toLimit, hs, propertyKey, LIMIT_TYPE_MAP, h1, h2, hmem]

/-- C5, the failing input: a raw entry of type `toString` gets an entry whose label and unit
are both undefined, not the raw type string and the unit tokens. -/
theorem inherited_type_loses_fallback :
    ∃ r, fetchData demoHost (demoFetch [demoRaw (.val "toString") 100 50]) demoConfig = .ok r ∧
      r.limits = [toLimit (demoRaw (.val "toString") 100 50)] ∧
      (toLimit (demoRaw (.val "toString") 100 50)).label = .undefined ∧
      (toLimit (demoRaw (.val "toString") 100 50)).unit = .undefined ∧
      (toLimit (demoRaw (.val "toString") 100 50)).label ≠ .val "toString" ∧
      (toLimit (demoRaw (.val "toString") 100 50)).unit ≠ .val "tokens" := by
  obtain ⟨r, hr, hlim⟩ := fetchData_of_raw (h := demoHost)
    (demoFetch_delivers_raw [demoRaw (.val "toString") 100 50]) (by simp)
  have hlu := (toLimit_label_unit (demoRaw (.val "toString") 100 50) "toString" rfl).2.2.2
    (by decide)
  refine ⟨r, hr, ?_, hlu.1, hlu.2, ?_, ?_⟩
  · rw [hlim]
    rfl
  · rw [hlu.1]
    simp
  · rw [hlu.2]
    simp

end Zhipu

/-! ## Percentages across the adapters -/

theorem Zhipu.demoRaw_percentage (type : JsOpt String) (u c : ℚ) (hu : 0 < u) :
    (Zhipu.toLimit (Zhipu.demoRaw type u c)).percentage = mathRound (fmul (fdiv c u) 100) := by
  have hune : u ≠ 0 := ne_of_gt hu
  by_cases hc : c = 0
  · subst hc
    simp [Zhipu.toLimit, Zhipu.demoRaw, numOr, hune, hu]
  · simp [Zhipu.toLimit, Zhipu.demoRaw, numOr, hune, hu, hc]

theorem percentage_neg5_10 : mathRound (fmul (fdiv (-5) 10) 100) = -50 := by
  have h2 : fdiv (-5) 10 = -1 / 2 :=
    roundDouble_eq_of_dyadic (-1) (-1) (by norm_num) (by norm_num) (by norm_num) (by norm_num)
  have h3 : fmul (-1 / 2) 100 = -50 :=
    roundDouble_eq_of_dyadic (-50) 0 (by norm_num) (by norm_num) (by norm_num) (by norm_num)
  rw [h2, h3, mathRound_eq_iff]
  norm_num

theorem percentage_150_100 : mathRound (fmul (fdiv 150 100) 100) = 150 := by
  have h2 : fdiv 150 100 = 3 / 2 :=
    roundDouble_eq_of_dyadic 3 (-1) (by norm_num) (by norm_num) (by norm_num) (by norm_num)
  have h3 : fmul (3 / 2) 100 = 150 :=
    roundDouble_eq_of_dyadic 150 0 (by norm_num) (by norm_num) (by norm_num) (by norm_num)
  rw [h2, h3, mathRound_eq_iff]
  norm_num

theorem percentage_three_halves : mathRound (fmul (fsub 1 (3 / 2)) 100) = -50 := by
  have h1 : fsub 1 (3 / 2) = -1 / 2 :=
    roundDouble_eq_of_dyadic (-1) (-1) (by norm_num) (by norm_num) (by norm_num) (by norm_num)
  have h2 : fmul (-1 / 2) 100 = -50 :=
    roundDouble_eq_of_dyadic (-50) 0 (by norm_num) (by norm_num) (by norm_num) (by norm_num)
  rw [h1, h2, mathRound_eq_iff]
  norm_num

theorem percentage_neg_half : mathRound (fmul (fsub 1 (-1 / 2)) 100) = 150 := by
  have h1 : fsub 1 (-1 / 2) = 3 / 2 :=
    roundDouble_eq_of_dyadic 3 (-1) (by norm_num) (by norm_num) (by norm_num) (by norm_num)
  have h2 : fmul (3 / 2) 100 = 150 :=
    roundDouble_eq_of_dyadic 150 0 (by norm_num) (by norm_num) (by norm_num) (by norm_num)
  rw [h1, h2, mathRound_eq_iff]
  norm_num

theorem remaining_neg_half : mathRound (fmul (-1 / 2) 100) = -50 := by
  have h2 : fmul (-1 / 2) 100 = -50 :=
    roundDouble_eq_of_dyadic (-50) 0 (by norm_num) (by norm_num) (by norm_num) (by norm_num)
  rw [h2, mathRound_eq_iff]
  norm_num

theorem Antigravity.single_kept (name : String) (hne : name ≠ "") (id : String) (x : ℚ) :
    ∃ r, Antigravity.fetchData demoHost
        (Antigravity.demoFetch [(id, Antigravity.demoModel (.val name) x)])
        Antigravity.demoConfig = .ok r ∧
      r.limits = [Antigravity.toLimit demoHost (id, Antigravity.demoModel (.val name) x)] := by
  have hkept : Antigravity.validModels [(id, Antigravity.demoModel (.val name) x)] =
      [(id, Antigravity.demoModel (.val name) x)] := by
    simp [Antigravity.validModels, Antigravity.demoModel, truthyStr, hne]
  obtain ⟨r, hr, hlim⟩ := @Antigravity.fromModels_of_kept demoHost
    [(id, Antigravity.demoModel (.val name) x)] (by rw [hkept]; simp)
  refine ⟨r, by rw [Antigravity.fetchData_of_models (Antigravity.demoFetch_delivers_models _),
    hr], ?_⟩
  rw [hlim, hkept]
  rfl

/-- C1 (amended): on every successful `fetchData`, a returned entry has a percentage of at
least 0 whenever the upstream amounts are in range: in 88code when the entry is
subscription-mode and its remaining credits do not exceed its usage (the credit limit), in
antigravity when its remaining percentage does not exceed its usage of 100, which is so
whenever the remaining fraction is at most 1, in zhipu when its currentValue is not negative.
There is no upper clamp at 100: each adapter returns an entry in range with percentage 150. -/
theorem percentage_nonneg_in_range (h : Host) :
    (∀ (fetch : Request → Except JsError (Response Code88.Envelope)) (config : Code88.Config)
        (r : Code88.BalanceResult), Code88.fetchData h fetch config = .ok r →
        ∀ l ∈ r.limits, ∀ (p : ℤ) (L : ℚ),
          l.percentage = some p → l.usage = some L → l.remaining ≤ L → 0 ≤ p) ∧
      (∀ (fetch : Request → Except JsError (Response Antigravity.Payload))
        (config : Antigravity.Config) (r : Antigravity.BalanceResult),
        Antigravity.fetchData h fetch config = .ok r →
        ∀ l ∈ r.limits, (l.remaining : ℚ) ≤ l.usage → 0 ≤ l.percentage) ∧
      (∀ (fetch : Request → Except JsError (Response Zhipu.Envelope)) (config : Zhipu.Config)
        (r : Zhipu.BalanceResult), Zhipu.fetchData h fetch config = .ok r →
        ∀ l ∈ r.limits, 0 ≤ l.currentValue → 0 ≤ l.percentage) ∧
      (∀ e : String × Antigravity.Model, Antigravity.remainingOf e.2 ≤ 1 →
        ((Antigravity.toLimit h e).remaining : ℚ) ≤ (Antigravity.toLimit h e).usage) ∧
      (∃ r, Code88.fetchData demoHost (Code88.demoFetch [Code88.demoSub 100 (-50) .null])
          Code88.demoConfig = .ok r ∧
        ∃ l ∈ r.limits, l.usage = some 100 ∧ l.remaining ≤ 100 ∧ l.percentage = some 150) ∧
      (∃ r, Antigravity.fetchData demoHost
          (Antigravity.demoFetch [("model-y", Antigravity.demoModel (.val "Model Y") (-1 / 2))])
          Antigravity.demoConfig = .ok r ∧
        ∃ l ∈ r.limits, (l.remaining : ℚ) ≤ l.usage ∧ l.percentage = 150) ∧
      (∃ r, Zhipu.fetchData demoHost
          (Zhipu.demoFetch [Zhipu.demoRaw (.val "TOKENS_LIMIT") 100 150]) Zhipu.demoConfig =
            .ok r ∧
        ∃ l ∈ r.limits, 0 ≤ l.currentValue ∧ l.percentage = 150) := by
  refine ⟨?_, ?_, ?_, ?_, ?_, ?_, ?_⟩
  · intro fetch config r hr l hl p L hp hL hle
    obtain ⟨subs, hlim⟩ := Code88.fetchData_ok_subs hr
    rw [hlim] at hl
    obtain ⟨sub, _, rfl⟩ := List.mem_map.mp hl
    exact Code88.percentage_nonneg_of_credits_le h sub p L hp hL hle
  · intro fetch config r hr l hl hle
    obtain ⟨ms, hlim⟩ := Antigravity.fetchData_ok_models hr
    rw [hlim] at hl
    obtain ⟨e, _, rfl⟩ := List.mem_map.mp hl
    apply Antigravity.percentage_nonneg_of_remaining_le_usage
    have husage : (Antigravity.toLimit h e).usage = 100 := rfl
    rw [husage] at hle
    exact_mod_cast hle
  · intro fetch config r hr l hl hcv
    obtain ⟨raw, hlim⟩ := Zhipu.fetchData_ok_raw hr
    rw [hlim] at hl
    obtain ⟨item, _, rfl⟩ := List.mem_map.mp hl
    exact Zhipu.percentage_nonneg_of_currentValue item hcv
  · intro e hle
    have husage : (Antigravity.toLimit h e).usage = 100 := rfl
    rw [husage]
    exact_mod_cast Antigravity.remaining_le_of_fraction_le_one h e hle
  · obtain ⟨r, hr, hin⟩ := Code88.mem_limits_of_active
      (Code88.demoFetch_delivers_subs [Code88.demoSub 100 (-50) .null])
      (List.mem_singleton.mpr rfl) (by decide)
    have hp : Code88.isPayPerUse demoHost (Code88.demoSub 100 (-50) .null) = false := by decide
    refine ⟨r, hr, _, hin, ?_, ?_, ?_⟩
    · rw [Code88.toLimit_subscription hp]
      norm_num [Code88.planOf, nullish, Code88.demoSub, numOr]
    · rw [Code88.toLimit_subscription hp]
      norm_num [Code88.demoSub, numOr]
    · rw [Code88.demoSub_percentage 100 (-50) .null (by norm_num) hp,
        Code88.percentage_100_neg50]
  · obtain ⟨r, hr, hlim⟩ := Antigravity.single_kept "Model Y" (by decide) "model-y" (-1 / 2)
    have hrf : Antigravity.remainingOf (Antigravity.demoModel (.val "Model Y") (-1 / 2)) =
        -1 / 2 := rfl
    refine ⟨r, hr, _, by rw [hlim]; exact List.mem_singleton.mpr rfl, ?_, ?_⟩
    · have husage : (Antigravity.toLimit demoHost
          ("model-y", Antigravity.demoModel (.val "Model Y") (-1 / 2))).usage = 100 := rfl
      rw [Antigravity.toLimit_remaining, husage]
      simp only [hrf]
      rw [remaining_neg_half]
      norm_num
    · rw [Antigravity.toLimit_percentage]
      simp only [hrf]
      exact percentage_neg_half
  · obtain ⟨r, hr, hlim⟩ := Zhipu.fetchData_of_raw (h := demoHost)
      (Zhipu.demoFetch_delivers_raw [Zhipu.demoRaw (.val "TOKENS_LIMIT") 100 150]) (by simp)
    refine ⟨r, hr, Zhipu.toLimit (Zhipu.demoRaw (.val "TOKENS_LIMIT") 100 150), ?_, ?_, ?_⟩
    · rw [hlim]
      simp
    · norm_num [Zhipu.toLimit, Zhipu.demoRaw, numOr]
    · rw [Zhipu.demoRaw_percentage _ 100 150 (by norm_num), percentage_150_100]

/-- C1, worked example: the 88code entry for credits 40 of a limit of 100, the antigravity
entry for a model with `remainingFraction` 0.2, and the zhipu entry for a currentValue of 50
against a usage of 100 are in range and have a percentage of at least 0. -/
theorem percentage_nonneg_in_range_witness :
    (∃ r p, Code88.fetchData demoHost (Code88.demoFetch [Code88.demoSub 100 40 .null])
          Code88.demoConfig = .ok r ∧
        Code88.toLimit demoHost (Code88.demoSub 100 40 .null) ∈ r.limits ∧
        (Code88.toLimit demoHost (Code88.demoSub 100 40 .null)).percentage = some p ∧
        (Code88.toLimit demoHost (Code88.demoSub 100 40 .null)).usage = some 100 ∧
        (Code88.toLimit demoHost (Code88.demoSub 100 40 .null)).remaining ≤ 100 ∧ 0 ≤ p) ∧
      (∃ r, Antigravity.fetchData demoHost (Antigravity.demoFetch Antigravity.demoModels)
          Antigravity.demoConfig = .ok r ∧
        Antigravity.toLimit demoHost
          ("model-a", Antigravity.demoModel (.val "Model A") (roundDouble (1 / 5))) ∈
            r.limits ∧
        0 ≤ (Antigravity.toLimit demoHost
          ("model-a", Antigravity.demoModel (.val "Model A") (roundDouble (1 / 5)))).percentage) ∧
      (∃ r, Zhipu.fetchData demoHost
          (Zhipu.demoFetch [Zhipu.demoRaw (.val "TOKENS_LIMIT") 100 50]) Zhipu.demoConfig =
            .ok r ∧
        Zhipu.toLimit (Zhipu.demoRaw (.val "TOKENS_LIMIT") 100 50) ∈ r.limits ∧
        0 ≤ (Zhipu.toLimit (Zhipu.demoRaw (.val "TOKENS_LIMIT") 100 50)).currentValue ∧
        0 ≤ (Zhipu.toLimit (Zhipu.demoRaw (.val "TOKENS_LIMIT") 100 50)).percentage) := by
  refine ⟨?_, ?_, ?_⟩
  · obtain ⟨r, hr, hin⟩ := Code88.mem_limits_of_active
      (Code88.demoFetch_delivers_subs [Code88.demoSub 100 40 .null])
      (List.mem_singleton.mpr rfl) (by decide)
    have hp : Code88.isPayPerUse demoHost (Code88.demoSub 100 40 .null) = false := by decide
    obtain ⟨p, hpct⟩ : ∃ p,
        (Code88.toLimit demoHost (Code88.demoSub 100 40 .null)).percentage = some p := by
      rw [Code88.toLimit_subscription hp]
      exact ⟨_, rfl⟩
    have husage : (Code88.toLimit demoHost (Code88.demoSub 100 40 .null)).usage = some 100 := by
      rw [Code88.toLimit_subscription hp]
      norm_num [Code88.planOf, nullish, Code88.demoSub, numOr]
    have hrem : (Code88.toLimit demoHost (Code88.demoSub 100 40 .null)).remaining ≤ 100 := by
      rw [Code88.toLimit_subscription hp]
      norm_num [Code88.demoSub, numOr]
    exact ⟨r, p, hr, hin, hpct, husage, hrem,
      (percentage_nonneg_in_range demoHost).1 _ _ r hr _ hin p 100 hpct husage hrem⟩
  · obtain ⟨r, hr, hlim⟩ := @Antigravity.fromModels_of_kept demoHost Antigravity.demoModels
      (by decide)
    have hr' : Antigravity.fetchData demoHost (Antigravity.demoFetch Antigravity.demoModels)
        Antigravity.demoConfig = .ok r := by
      rw [Antigravity.fetchData_of_models (Antigravity.demoFetch_delivers_models _), hr]
    have hin : Antigravity.toLimit demoHost
        ("model-a", Antigravity.demoModel (.val "Model A") (roundDouble (1 / 5))) ∈
          r.limits := by
      rw [hlim, Antigravity.demoModels_sorted]
      simp
    have hle : ((Antigravity.toLimit demoHost
        ("model-a", Antigravity.demoModel (.val "Model A") (roundDouble (1 / 5)))).remaining :
          ℚ) ≤
        (Antigravity.toLimit demoHost
          ("model-a", Antigravity.demoModel (.val "Model A") (roundDouble (1 / 5)))).usage := by
      have hrf : Antigravity.remainingOf
          (Antigravity.demoModel (.val "Model A") (roundDouble (1 / 5))) =
            roundDouble (1 / 5) := rfl
      have husage : (Antigravity.toLimit demoHost
          ("model-a", Antigravity.demoModel (.val "Model A") (roundDouble (1 / 5)))).usage =
            100 := rfl
      rw [Antigravity.toLimit_remaining, husage]
      simp only [hrf]
      rw [Antigravity.remaining_one_fifth]
      norm_num
    exact ⟨r, hr', hin, (percentage_nonneg_in_range demoHost).2.1 _ _ r hr' _ hin hle⟩
  · obtain ⟨r, hr, hlim⟩ := Zhipu.fetchData_of_raw (h := demoHost)
      (Zhipu.demoFetch_delivers_raw [Zhipu.demoRaw (.val "TOKENS_LIMIT") 100 50]) (by simp)
    have hmem : Zhipu.toLimit (Zhipu.demoRaw (.val "TOKENS_LIMIT") 100 50) ∈ r.limits := by
      rw [hlim]
      simp
    have hcv :
        0 ≤ (Zhipu.toLimit (Zhipu.demoRaw (.val "TOKENS_LIMIT") 100 50)).currentValue := by
      norm_num [Zhipu.toLimit, Zhipu.demoRaw, numOr]
    exact ⟨r, hr, hmem, hcv, (percentage_nonneg_in_range demoHost).2.2.1 _ _ r hr _ hmem hcv⟩

/-- C1, counterexample: each of the three adapters returns an entry with percentage -50 on a
response it accepts: 88code for credits 150 above the limit 100, antigravity for a remaining
fraction of three halves, zhipu for a currentValue of -5 against a usage of 10. -/
theorem percentage_nonneg_counterexample :
    (∃ r, Code88.fetchData demoHost (Code88.demoFetch [Code88.demoSub 100 150 .null])
        Code88.demoConfig = .ok r ∧ ∃ l ∈ r.limits, l.percentage = some (-50)) ∧
      (∃ r, Antigravity.fetchData demoHost
          (Antigravity.demoFetch [("model-x", Antigravity.demoModel (.val "Model X") (3 / 2))])
          Antigravity.demoConfig = .ok r ∧ ∃ l ∈ r.limits, l.percentage = -50) ∧
      (∃ r, Zhipu.fetchData demoHost
          (Zhipu.demoFetch [Zhipu.demoRaw (.val "TOKENS_LIMIT") 10 (-5)]) Zhipu.demoConfig =
            .ok r ∧ ∃ l ∈ r.limits, l.percentage = -50) := by
  refine ⟨?_, ?_, ?_⟩
  · obtain ⟨r, hr, hin⟩ := Code88.mem_limits_of_active
      (Code88.demoFetch_delivers_subs [Code88.demoSub 100 150 .null]) (List.mem_singleton.mpr rfl)
      (by decide)
    refine ⟨r, hr, _, hin, ?_⟩
    rw [Code88.demoSub_percentage 100 150 .null (by norm_num) (by decide),
      Code88.percentage_100_150]
  · obtain ⟨r, hr, hlim⟩ := Antigravity.single_kept "Model X" (by decide) "model-x" (3 / 2)
    have hrf : Antigravity.remainingOf (Antigravity.demoModel (.val "Model X") (3 / 2)) =
        3 / 2 := rfl
    refine ⟨r, hr, _, by rw [hlim]; exact List.mem_singleton.mpr rfl, ?_⟩
    rw [Antigravity.toLimit_percentage]
    simp only [hrf]
    exact percentage_three_halves
  · obtain ⟨r, hr, hlim⟩ := Zhipu.fetchData_of_raw (h := demoHost)
      (Zhipu.demoFetch_delivers_raw [Zhipu.demoRaw (.val "TOKENS_LIMIT") 10 (-5)]) (by simp)
    refine ⟨r, hr, Zhipu.toLimit (Zhipu.demoRaw (.val "TOKENS_LIMIT") 10 (-5)), ?_, ?_⟩
    · rw [hlim]
      simp
    · rw [Zhipu.demoRaw_percentage _ 10 (-5) (by norm_num), percentage_neg5_10]

/-! ## Aggregate balances -/

namespace Code88

theorem toLimit_remaining_eq (h : Host) (sub : Subscription) :
    (toLimit h sub).remaining = numOr sub.currentCredits 0 := by
  cases hp : isPayPerUse h sub with
  | true => rw [toLimit_payPerUse hp]
  | false => rw [toLimit_subscription hp]

theorem fromSubscriptions_balance {h : Host} {subs : List Subscription}
    (hact : subs.filter (isActiveSub h) ≠ []) :
    ∃ r, fromSubscriptions h subs = .ok r ∧
      r.limits = (subs.filter (isActiveSub h)).map (toLimit h) ∧
      r.balance =
        fdiv (mathRound (fmul (fsum ((subs.filter (isActiveSub h)).map
          (fun sub => numOr sub.currentCredits 0))) 100)) 100 := by
  cases subs with
  | nil => simp at hact
  | cons first rest =>
    have hlen : ((first :: rest).filter (isActiveSub h)).length ≠ 0 := by
      simpa [List.length_eq_zero] using hact
    simp only [fromSubscriptions, hlen, if_false]
    refine ⟨_, rfl, rfl, ?_⟩
    simp only [foldl_fadd_eq_fsum]

theorem demoSub_active (L C : ℚ) (next : JsOpt String) :
    isActiveSub demoHost (demoSub L C next) = true := by
  simp [isActiveSub, hasStarted, demoSub, demoHost, truthyStr, strOr]

theorem demoSubs_balance (a b : ℚ) :
    ∃ r, fetchData demoHost (demoFetch [demoSub 100 a .null, demoSub 100 b .null])
        demoConfig = .ok r ∧
      r.balance = fdiv (mathRound (fmul (fadd (fadd 0 (numOr (.val a) 0)) (numOr (.val b) 0))
        100)) 100 := by
  have hfilter : [demoSub 100 a .null, demoSub 100 b .null].filter (isActiveSub demoHost) =
      [demoSub 100 a .null, demoSub 100 b .null] := by
    simp [List.filter, demoSub_active]
  obtain ⟨r, hr, _, hbal⟩ := @fromSubscriptions_balance demoHost
    [demoSub 100 a .null, demoSub 100 b .null] (by rw [hfilter]; simp)
  refine ⟨r, by rw [fetchData_of_subs (demoFetch_delivers_subs _), hr], ?_⟩
  rw [hbal, hfilter]
  rfl

theorem roundDouble_1_1000 : roundDouble (1 / 1000) = 1152921504606847 / 2 ^ 60 :=
  roundDouble_eval (-10) 4611686018427388 (by norm_num [abs_of_pos]) (by norm_num [abs_of_pos])
    (by norm_num) (by norm_num [abs_lt]) (by norm_num)

theorem roundDouble_251_250 : roundDouble (251 / 250) = 2260807012939989 / 2 ^ 51 :=
  roundDouble_eval 0 4521614025879978 (by norm_num [abs_of_pos]) (by norm_num [abs_of_pos])
    (by norm_num) (by norm_num [abs_lt]) (by norm_num)

theorem balance_40_25 : fdiv (mathRound (fmul (fadd (fadd 0 40) 25) 100)) 100 = 65 := by
  have h1 : fadd 0 40 = 40 :=
    roundDouble_eq_of_dyadic 40 0 (by norm_num) (by norm_num) (by norm_num) (by norm_num)
  have h2 : fadd 40 25 = 65 :=
    roundDouble_eq_of_dyadic 65 0 (by norm_num) (by norm_num) (by norm_num) (by norm_num)
  have h3 : fmul 65 100 = 6500 :=
    roundDouble_eq_of_dyadic 6500 0 (by norm_num) (by norm_num) (by norm_num) (by norm_num)
  have h4 : mathRound 6500 = 6500 := by
    rw [mathRound_eq_iff]
    norm_num
  have h5 : fdiv ((6500 : ℤ) : ℚ) 100 = 65 :=
    roundDouble_eq_of_dyadic 65 0 (by norm_num) (by norm_num) (by norm_num) (by norm_num)
  rw [h1, h2, h3, h4, h5]

theorem balance_small_credits :
    fdiv (mathRound (fmul (fadd (fadd 0 (roundDouble (1 / 1000))) (roundDouble (251 / 250)))
      100)) 100 = 1 := by
  have h1 : fadd 0 (1152921504606847 / 2 ^ 60) = 1152921504606847 / 2 ^ 60 :=
    roundDouble_eq_of_dyadic 1152921504606847 (-60) (by norm_num) (by norm_num) (by norm_num)
      (by norm_num)
  have h2 : fadd (1152921504606847 / 2 ^ 60) (2260807012939989 / 2 ^ 51) =
      1131529406376837 / 2 ^ 50 :=
    roundDouble_eval 0 4526117625507348 (by norm_num [abs_of_pos]) (by norm_num [abs_of_pos])
      (by norm_num) (by norm_num [abs_lt]) (by norm_num)
  have h3 : fmul (1131529406376837 / 2 ^ 50) 100 = 7072058789855231 / 2 ^ 46 :=
    roundDouble_eval 6 7072058789855231 (by norm_num [abs_of_pos]) (by norm_num [abs_of_pos])
      (by norm_num) (by norm_num [abs_lt]) (by norm_num)
  have h4 : mathRound (7072058789855231 / 2 ^ 46) = 100 := by
    rw [mathRound_eq_iff]
    norm_num
  have h5 : fdiv ((100 : ℤ) : ℚ) 100 = 1 :=
    roundDouble_eq_of_dyadic 1 0 (by norm_num) (by norm_num) (by norm_num) (by norm_num)
  rw [roundDouble_1_1000, roundDouble_251_250, h1, h2, h3, h4, h5]

/-- C11 (amended): the balance of a successful 88code result is the sum of `currentCredits`
over the active subscriptions, a missing value counted as 0, rounded to two decimal places as
`round (sum * 100) / 100`; it is also the rounded sum of the `remaining` fields of the returned
limits. The credits are doubles of moderate size; the sum is accumulated from the left, and
sum, product and quotient are those of double arithmetic, each rounded to the nearest
double; the sum of `n` credits is at most `2 ^ (500 + n)` in magnitude, so that no addition
overflows for fewer than 500 active subscriptions. -/
theorem balance_is_rounded_sum (h : Host)
    (fetch : Request → Except JsError (Response Envelope)) (config : Config)
    (subs : List Subscription) (hd : Delivers h fetch config subs)
    (hact : subs.filter (isActiveSub h) ≠ [])
    (hm : ∀ sub ∈ subs.filter (isActiveSub h), Moderate (numOr sub.currentCredits 0)) :
    ∃ r, fetchData h fetch config = .ok r ∧
      r.balance =
        fdiv (mathRound (fmul (fsum ((subs.filter (isActiveSub h)).map
          (fun sub => numOr sub.currentCredits 0))) 100)) 100 ∧
      r.balance = fdiv (mathRound (fmul (fsum (r.limits.map (fun l => l.remaining))) 100)) 100 ∧
      |fsum ((subs.filter (isActiveSub h)).map (fun sub => numOr sub.currentCredits 0))| ≤
        (2 : ℚ) ^ ((500 : ℤ) + (subs.filter (isActiveSub h)).length) ∧
      (∀ sub : Subscription, (sub.currentCredits = .undefined ∨ sub.currentCredits = .null) →
        numOr sub.currentCredits 0 = 0) ∧
      (∀ (sub : Subscription) (c : ℚ), sub.currentCredits = .val c →
        numOr sub.currentCredits 0 = c) := by
  obtain ⟨r, hr, hlim, hbal⟩ := fromSubscriptions_balance hact
  refine ⟨r, by rw [fetchData_of_subs hd, hr], hbal, ?_, ?_, ?_, ?_⟩
  · rw [hbal, hlim, List.map_map]
    have hfun : ((fun l : Limit => l.remaining) ∘ toLimit h) =
        fun sub => numOr sub.currentCredits 0 := by
      funext sub
      exact toLimit_remaining_eq h sub
    rw [hfun]
  · have hb := abs_fsum_le ((subs.filter (isActiveSub h)).map
      (fun sub => numOr sub.currentCredits 0)) (by
        intro x hx
        obtain ⟨sub, hsub, rfl⟩ := List.mem_map.mp hx
        exact moderate_abs_le (hm sub hsub))
    rwa [List.length_map] at hb
  · rintro sub (hc | hc) <;> simp [numOr, hc]
  · intro sub c hc
    by_cases hz : c = 0 <;> simp [numOr, hc, hz]

/-- C11, worked example: active subscriptions with credits 40 and 25 give the balance 65. -/
theorem balance_is_rounded_sum_witness :
    ∃ r, fetchData demoHost (demoFetch [demoSub 100 40 .null, demoPaygo]) demoConfig = .ok r ∧
      r.balance = 65 := by
  have hfilter : [demoSub 100 40 .null, demoPaygo].filter (isActiveSub demoHost) =
      [demoSub 100 40 .null, demoPaygo] := by decide
  have h40 : Moderate (40 : ℚ) :=
    moderate_of_dyadic 40 0 (by norm_num) (by norm_num) (by norm_num)
      (by norm_num [abs_of_pos]) (by norm_num [abs_of_pos])
  have h25 : Moderate (25 : ℚ) :=
    moderate_of_dyadic 25 0 (by norm_num) (by norm_num) (by norm_num)
      (by norm_num [abs_of_pos]) (by norm_num [abs_of_pos])
  obtain ⟨r, hr, hbal, _⟩ := balance_is_rounded_sum demoHost
    (demoFetch [demoSub 100 40 .null, demoPaygo]) demoConfig
    [demoSub 100 40 .null, demoPaygo] (demoFetch_delivers_subs _) (by rw [hfilter]; simp)
    (by
      rw [hfilter]
      intro sub hsub
      rcases List.mem_pair.mp hsub with rfl | rfl
      · have hc : numOr (demoSub 100 40 .null).currentCredits 0 = 40 := by
          norm_num [demoSub, numOr]
        rw [hc]
        exact h40
      · have hc : numOr demoPaygo.currentCredits 0 = 25 := by
          norm_num [demoPaygo, numOr]
        rw [hc]
        exact h25)
  refine ⟨r, hr, ?_⟩
  rw [hbal, hfilter]
  have hsum : fsum ([demoSub 100 40 .null, demoPaygo].map
      (fun sub => numOr sub.currentCredits 0)) = fadd (fadd 0 40) 25 := by
    norm_num [fsum, demoSub, demoPaygo, numOr]
  rw [hsum]
  exact balance_40_25

/-- C11, counterexample: active subscriptions with credits 0.001 and 1.004 give the balance
1, the double sum being just below 1.005, while the sum of the two credits rounded exactly,
`round (sum * 100) / 100`, is 1.01. -/
theorem balance_is_rounded_sum_counterexample :
    ∃ r, fetchData demoHost
        (demoFetch [demoSub 100 (roundDouble (1 / 1000)) .null,
          demoSub 100 (roundDouble (251 / 250)) .null]) demoConfig = .ok r ∧
      r.balance = 1 ∧
      (mathRound ((roundDouble (1 / 1000) + roundDouble (251 / 250)) * 100) : ℚ) / 100 =
        101 / 100 := by
  obtain ⟨r, hr, hbal⟩ := demoSubs_balance (roundDouble (1 / 1000)) (roundDouble (251 / 250))
  have ha : numOr (.val (roundDouble (1 / 1000))) 0 = roundDouble (1 / 1000) := by
    rw [roundDouble_1_1000]
    norm_num [numOr]
  have hb : numOr (.val (roundDouble (251 / 250))) 0 = roundDouble (251 / 250) := by
    rw [roundDouble_251_250]
    norm_num [numOr]
  refine ⟨r, hr, ?_, ?_⟩
  · rw [hbal, ha, hb]
    exact balance_small_credits
  · have h101 : mathRound ((roundDouble (1 / 1000) + roundDouble (251 / 250)) * 100) = 101 := by
      rw [roundDouble_1_1000, roundDouble_251_250, mathRound_eq_iff]
      norm_num
    rw [h101]
    norm_num

end Code88

namespace Antigravity

theorem fromModels_balance {h : Host} {models : List (String × Model)}
    (hkept : validModels models ≠ []) :
    ∃ r, fromModels h models = .ok r ∧
      r.balance =
        mathRound (fmul (fdiv (fsum ((sortModels (validModels models)).map
          (fun e => remainingOf e.2))) ((validModels models).length : ℚ)) 100) := by
  have hne : models ≠ [] := by
    rintro rfl
    exact hkept rfl
  have h1 : models.length ≠ 0 := by simpa [List.length_eq_zero] using hne
  have h2 : (validModels models).length ≠ 0 := by simpa [List.length_eq_zero] using hkept
  simp only [fromModels, h1, h2, if_false]
  refine ⟨_, rfl, ?_⟩
  have hperm := sortModels_perm (validModels models)
  simp only [foldl_fadd_eq_fsum, hperm.length_eq]

theorem roundDouble_1_25 : roundDouble (1 / 25) = 5764607523034235 / 2 ^ 57 :=
  roundDouble_eval (-5) 5764607523034235 (by norm_num [abs_of_pos]) (by norm_num [abs_of_pos])
    (by norm_num) (by norm_num [abs_lt]) (by norm_num)

theorem mean_one_fifth_four_fifths :
    mathRound (fmul (fdiv (fadd (fadd 0 (roundDouble (1 / 5))) (roundDouble (4 / 5))) 2) 100) =
      50 := by
  have h1 : fadd 0 (3602879701896397 / 2 ^ 54) = 3602879701896397 / 2 ^ 54 :=
    roundDouble_eq_of_dyadic 3602879701896397 (-54) (by norm_num) (by norm_num) (by norm_num)
      (by norm_num)
  have h2 : fadd (3602879701896397 / 2 ^ 54) (3602879701896397 / 2 ^ 52) = 1 :=
    roundDouble_eval 0 4503599627370496 (by norm_num [abs_of_pos]) (by norm_num [abs_of_pos])
      (by norm_num) (by norm_num [abs_lt]) (by norm_num)
  have h3 : fdiv 1 2 = 1 / 2 :=
    roundDouble_eq_of_dyadic 1 (-1) (by norm_num) (by norm_num) (by norm_num) (by norm_num)
  have h4 : fmul (1 / 2) 100 = 50 :=
    roundDouble_eq_of_dyadic 50 0 (by norm_num) (by norm_num) (by norm_num) (by norm_num)
  rw [roundDouble_one_fifth, roundDouble_four_fifths, h1, h2, h3, h4, mathRound_eq_iff]
  norm_num

theorem mean_small_fractions :
    mathRound (fmul (fdiv (fadd (fadd 0 (roundDouble (1 / 25))) (1 / 4)) 2) 100) = 14 := by
  have h1 : fadd 0 (5764607523034235 / 2 ^ 57) = 5764607523034235 / 2 ^ 57 :=
    roundDouble_eq_of_dyadic 5764607523034235 (-57) (by norm_num) (by norm_num) (by norm_num)
      (by norm_num)
  have h2 : fadd (5764607523034235 / 2 ^ 57) (1 / 4) = 5224175567749775 / 2 ^ 54 :=
    roundDouble_eval (-2) 5224175567749775 (by norm_num [abs_of_pos]) (by norm_num [abs_of_pos])
      (by norm_num) (by norm_num [abs_lt]) (by norm_num)
  have h3 : fdiv (5224175567749775 / 2 ^ 54) 2 = 5224175567749775 / 2 ^ 55 :=
    roundDouble_eq_of_dyadic 5224175567749775 (-55) (by norm_num) (by norm_num) (by norm_num)
      (by norm_num)
  have h4 : fmul (5224175567749775 / 2 ^ 55) 100 = 8162774324609023 / 2 ^ 49 :=
    roundDouble_eval 3 8162774324609023 (by norm_num [abs_of_pos]) (by norm_num [abs_of_pos])
      (by norm_num) (by norm_num [abs_lt]) (by norm_num)
  rw [roundDouble_1_25, h1, h2, h3, h4, mathRound_eq_iff]
  norm_num

/-- The models of the second worked example: E with `remainingFraction` 0.04 and F with
0.25. -/
theorem smallModels_sorted :
    sortModels (validModels
      [("model-e", demoModel (.val "Model E") (roundDouble (1 / 25))),
       ("model-f", demoModel (.val "Model F") (1 / 4))]) =
      [("model-e", demoModel (.val "Model E") (roundDouble (1 / 25))),
       ("model-f", demoModel (.val "Model F") (1 / 4))] := by
  have hkept : validModels
      [("model-e", demoModel (.val "Model E") (roundDouble (1 / 25))),
       ("model-f", demoModel (.val "Model F") (1 / 4))] =
      [("model-e", demoModel (.val "Model E") (roundDouble (1 / 25))),
       ("model-f", demoModel (.val "Model F") (1 / 4))] := rfl
  rw [hkept]
  have hle : roundDouble (1 / 25) ≤ 1 / 4 := by
    rw [roundDouble_1_25]
    norm_num
  simp only [sortModels, List.insertionSort, List.orderedInsert, remainingOf, demoModel, nullish,
    hle, if_true]

/-- C12 (amended): the balance of a successful antigravity result is
`round (sum / count * 100)`, the sum taken over the remaining fractions of the kept models (1
when absent) in the order of the sorted list and the count being the number of kept models;
the count is not 0 there, since `fetchData` fails when no model is kept. The fractions are
doubles of moderate size; sum, quotient and product are those of double arithmetic, each
rounded to the nearest double; the sum of `n` fractions is at most `2 ^ (500 + n)` in
magnitude, so that no addition overflows for fewer than 500 kept models. -/
theorem balance_is_rounded_mean (h : Host)
    (fetch : Request → Except JsError (Response Payload)) (config : Config)
    (models : List (String × Model)) (hd : Delivers h fetch config models)
    (hm : ∀ e ∈ validModels models, Moderate (remainingOf e.2)) :
    (validModels models ≠ [] →
        ∃ r, fetchData h fetch config = .ok r ∧
          r.balance =
            mathRound (fmul (fdiv (fsum ((sortModels (validModels models)).map
              (fun e => remainingOf e.2))) ((validModels models).length : ℚ)) 100) ∧
          (validModels models).length ≠ 0 ∧
          |fsum ((sortModels (validModels models)).map (fun e => remainingOf e.2))| ≤
            (2 : ℚ) ^ ((500 : ℤ) + (validModels models).length)) ∧
      (validModels models = [] →
        fetchData h fetch config = .error (.error "未找到模型数据") ∨
          fetchData h fetch config = .error (.error "未找到有效的模型套餐")) := by
  constructor
  · intro hkept
    obtain ⟨r, hr, hbal⟩ := fromModels_balance (h := h) hkept
    have hb := abs_fsum_le ((sortModels (validModels models)).map (fun e => remainingOf e.2))
      (by
        intro x hx
        obtain ⟨e, he, rfl⟩ := List.mem_map.mp hx
        exact moderate_abs_le (hm e ((sortModels_perm _).mem_iff.mp he)))
    rw [List.length_map, (sortModels_perm _).length_eq] at hb
    exact ⟨r, by rw [fetchData_of_models hd, hr], hbal,
      by simpa [List.length_eq_zero] using hkept, hb⟩
  · intro hnone
    rw [fetchData_of_models hd]
    unfold fromModels
    by_cases hlen : models.length = 0
    · exact Or.inl (by simp [hlen])
    · exact Or.inr (by simp [hlen, hnone])

/-- C12, worked example: kept models with `remainingFraction` 0.8 and 0.2 give the balance
50. -/
theorem balance_is_rounded_mean_witness :
    ∃ r, fetchData demoHost (demoFetch demoModels) demoConfig = .ok r ∧ r.balance = 50 := by
  have hkept : validModels demoModels =
      [("model-b", demoModel (.val "Model B") (roundDouble (4 / 5))),
       ("model-a", demoModel (.val "Model A") (roundDouble (1 / 5)))] := rfl
  obtain ⟨r, hr, hbal, _⟩ := (balance_is_rounded_mean demoHost (demoFetch demoModels)
    demoConfig demoModels (demoFetch_delivers_models _)
    (by
      rw [hkept]
      intro e he
      rcases List.mem_pair.mp he with rfl | rfl
      · exact moderate_roundDouble (by norm_num [abs_of_pos]) (by norm_num [abs_of_pos])
      · exact moderate_roundDouble (by norm_num [abs_of_pos]) (by norm_num [abs_of_pos]))).1
    (by rw [hkept]; simp)
  refine ⟨r, hr, ?_⟩
  rw [hbal, demoModels_sorted, hkept]
  have hsum : fsum ([("model-a", demoModel (.val "Model A") (roundDouble (1 / 5))),
      ("model-b", demoModel (.val "Model B") (roundDouble (4 / 5)))].map
        (fun e => remainingOf e.2)) =
      fadd (fadd 0 (roundDouble (1 / 5))) (roundDouble (4 / 5)) := rfl
  have hlen : (([("model-b", demoModel (.val "Model B") (roundDouble (4 / 5))),
      ("model-a", demoModel (.val "Model A") (roundDouble (1 / 5)))].length : ℕ) : ℚ) = 2 := by
    norm_num
  rw [hsum, hlen]
  exact mean_one_fifth_four_fifths

/-- C12, counterexample: kept models with `remainingFraction` 0.04 and 0.25 give the balance
14, the double mean being just below 0.145, while `round (100 * sum / count)` computed exactly
from the two fractions is 15. -/
theorem balance_is_rounded_mean_counterexample :
    ∃ r, fetchData demoHost
        (demoFetch [("model-e", demoModel (.val "Model E") (roundDouble (1 / 25))),
          ("model-f", demoModel (.val "Model F") (1 / 4))]) demoConfig = .ok r ∧
      r.balance = 14 ∧
      mathRound (100 * (roundDouble (1 / 25) + 1 / 4) / 2) = 15 := by
  have hkept : validModels
      [("model-e", demoModel (.val "Model E") (roundDouble (1 / 25))),
       ("model-f", demoModel (.val "Model F") (1 / 4))] =
      [("model-e", demoModel (.val "Model E") (roundDouble (1 / 25))),
       ("model-f", demoModel (.val "Model F") (1 / 4))] := rfl
  obtain ⟨r, hr, hbal⟩ := @fromModels_balance demoHost
    [("model-e", demoModel (.val "Model E") (roundDouble (1 / 25))),
     ("model-f", demoModel (.val "Model F") (1 / 4))] (by rw [hkept]; simp)
  refine ⟨r, by rw [fetchData_of_models (demoFetch_delivers_models _), hr], ?_, ?_⟩
  · rw [hbal, smallModels_sorted, hkept]
    have hsum : fsum ([("model-e", demoModel (.val "Model E") (roundDouble (1 / 25))),
        ("model-f", demoModel (.val "Model F") (1 / 4))].map (fun e => remainingOf e.2)) =
        fadd (fadd 0 (roundDouble (1 / 25))) (1 / 4) := rfl
    have hlen : (([("model-e", demoModel (.val "Model E") (roundDouble (1 / 25))),
        ("model-f", demoModel (.val "Model F") (1 / 4))].length : ℕ) : ℚ) = 2 := by
      norm_num
    rw [hsum, hlen]
    exact mean_small_fractions
  · rw [roundDouble_1_25, mathRound_eq_iff]
    norm_num

end Antigravity

/-! ## HTTP errors -/

theorem http_append_ne (x s : String) (hs : s.data.head? ≠ some 'H') : "HTTP " ++ x ≠ s := by
  intro heq
  apply hs
  rw [← heq, String.data_append]
  rfl

namespace Code88

theorem fetchData_of_answers {h : Host} {fetch : Request → Except JsError (Response Envelope)}
    {config : Config} {response : Response Envelope} (ha : Answers h fetch config response) :
    fetchData h fetch config = fromResponse h response := by
  obtain ⟨htok, hfetch⟩ := ha
  simp [fetchData, htok, hfetch]

theorem fromResponse_not_ok {h : Host} {response : Response Envelope}
    (hok : response.ok = false) :
    fromResponse h response =
      if response.status = 403 then
        .error (.error "认证失败 (403): Token 可能已过期或格式不正确")
      else if response.status = 401 then .error (.error "未授权 (401): 请检查 Token 是否正确")
      else .error (.error (httpErrorMsg h response)) := by
  simp [fromResponse, hok]

end Code88

namespace Antigravity

theorem fetchData_of_answers_models {h : Host} {fetch : Request → Except JsError (Response Payload)}
    {config : Config} {response : Response Payload} (ha : Answers h fetch config response) :
    fetchData h fetch config = fromResponse h response := by
  obtain ⟨h1, h2, h3, h4, hfetch⟩ := ha
  simp [fetchData, h1, h2, h3, h4, hfetch]

theorem fromResponse_not_ok_models {h : Host} {response : Response Payload}
    (hok : response.ok = false) :
    fromResponse h response =
      if response.status = 403 then .error (.error "认证失败 (403): Token 可能已过期")
      else if response.status = 401 then .error (.error "未授权 (401): 请检查认证信息")
      else .error (.error (httpErrorMsg h response)) := by
  simp [fromResponse, hok]

end Antigravity

theorem includes_append_four (a b c d : String) : includes (a ++ b ++ c ++ d) b = true := by
  simp only [includes, String.data_append, decide_eq_true_eq]
  exact ⟨a.data, c.data ++ d.data, by simp⟩

namespace Code88

theorem httpErrorMsg_of_msg {h : Host} {response : Response Envelope} {e : Envelope}
    {msg : String} (hj : response.json = .value e) (hm : e.msg = .val msg) (hne : msg ≠ "") :
    httpErrorMsg h response = msg := by
  simp [httpErrorMsg, hj, hm, hne]

theorem httpErrorMsg_of_no_msg {h : Host} {response : Response Envelope} {e : Envelope}
    (hj : response.json = .value e) (hm : truthyStr e.msg = false) :
    httpErrorMsg h response = "HTTP " ++ numberToString h response.status := by
  cases hmsg : e.msg with
  | val v =>
    have hv : v = "" := by simpa [truthyStr, hmsg] using hm
    simp [httpErrorMsg, hj, hmsg, hv]
  | undefined => simp [httpErrorMsg, hj, hmsg]
  | null => simp [httpErrorMsg, hj, hmsg]

theorem httpErrorMsg_of_unparsed {h : Host} {response : Response Envelope}
    (hj : response.json = .syntaxError ∨ response.json = .null) :
    httpErrorMsg h response =
      if jsLength response.text < 200 then
        "HTTP " ++ numberToString h response.status ++ ": " ++ response.text
      else "HTTP " ++ numberToString h response.status := by
  rcases hj with hj | hj <;> simp [httpErrorMsg, hj]

end Code88

namespace Antigravity

theorem httpErrorMsg_of_message {h : Host} {response : Response Payload} {e : Payload}
    {err : ErrorBody} {msg : String} (hj : response.json = .value e) (he : e.error = .val err)
    (hm : err.message = .val msg) (hne : msg ≠ "") : httpErrorMsg h response = msg := by
  simp [httpErrorMsg, hj, he, hm, truthyStr, strOr, hne]

theorem httpErrorMsg_of_no_message {h : Host} {response : Response Payload} {e : Payload}
    (hj : response.json = .value e)
    (hno : ∀ err, e.error = .val err → truthyStr err.message = false) :
    httpErrorMsg h response = "HTTP " ++ numberToString h response.status := by
  cases herr : e.error with
  | val err => simp [httpErrorMsg, hj, herr, hno err herr]
  | undefined => simp [httpErrorMsg, hj, herr]
  | null => simp [httpErrorMsg, hj, herr]

theorem httpErrorMsg_of_unparsed_body {h : Host} {response : Response Payload}
    (hj : response.json = .syntaxError ∨ response.json = .null) :
    httpErrorMsg h response =
      if jsLength response.text < 200 then
        "HTTP " ++ numberToString h response.status ++ ": " ++ response.text
      else "HTTP " ++ numberToString h response.status := by
  rcases hj with hj | hj <;> simp [httpErrorMsg, hj]

end Antigravity

/-- C13 (amended): for a response that is not ok and whose status is neither 401 nor 403, the
88code and antigravity adapters fail with the upstream message field alone (`msg`, resp.
`error.message`) when the body parses as JSON and carries a non-empty one; otherwise with
`HTTP <status>`, followed by the body text when the body does not parse to an object and is
shorter than 200 code units. Without an upstream message the text includes the status code. -/
theorem http_error_message (h : Host) :
    (∀ (fetch : Request → Except JsError (Response Code88.Envelope)) (config : Code88.Config)
        (response : Response Code88.Envelope), Code88.Answers h fetch config response →
        response.ok = false → response.status ≠ 401 → response.status ≠ 403 →
        ∃ m, Code88.fetchData h fetch config = .error (.error m) ∧
          (∀ e msg, response.json = .value e → e.msg = .val msg → msg ≠ "" → m = msg) ∧
          (∀ e, response.json = .value e → truthyStr e.msg = false →
            m = "HTTP " ++ numberToString h response.status) ∧
          (response.json = .syntaxError ∨ response.json = .null →
            jsLength response.text < 200 →
            m = "HTTP " ++ numberToString h response.status ++ ": " ++ response.text) ∧
          (response.json = .syntaxError ∨ response.json = .null →
            ¬ jsLength response.text < 200 →
            m = "HTTP " ++ numberToString h response.status) ∧
          ((∀ e, response.json = .value e → truthyStr e.msg = false) →
            includes m (numberToString h response.status) = true)) ∧
      (∀ (fetch : Request → Except JsError (Response Antigravity.Payload))
        (config : Antigravity.Config) (response : Response Antigravity.Payload),
        Antigravity.Answers h fetch config response →
        response.ok = false → response.status ≠ 401 → response.status ≠ 403 →
        ∃ m, Antigravity.fetchData h fetch config = .error (.error m) ∧
          (∀ e err msg, response.json = .value e → e.error = .val err →
            err.message = .val msg → msg ≠ "" → m = msg) ∧
          (∀ e, response.json = .value e →
            (∀ err, e.error = .val err → truthyStr err.message = false) →
            m = "HTTP " ++ numberToString h response.status) ∧
          (response.json = .syntaxError ∨ response.json = .null →
            jsLength response.text < 200 →
            m = "HTTP " ++ numberToString h response.status ++ ": " ++ response.text) ∧
          (response.json = .syntaxError ∨ response.json = .null →
            ¬ jsLength response.text < 200 →
            m = "HTTP " ++ numberToString h response.status) ∧
          ((∀ e, response.json = .value e →
              ∀ err, e.error = .val err → truthyStr err.message = false) →
            includes m (numberToString h response.status) = true)) := by
  constructor
  · intro fetch config response ha hok h401 h403
    refine ⟨Code88.httpErrorMsg h response, ?_, ?_, ?_, ?_, ?_, ?_⟩
    · rw [Code88.fetchData_of_answers ha, Code88.fromResponse_not_ok hok, if_neg h403,
        if_neg h401]
    · intro e msg hj hm hne
      exact Code88.httpErrorMsg_of_msg hj hm hne
    · intro e hj hm
      exact Code88.httpErrorMsg_of_no_msg hj hm
    · intro hj hlen
      rw [Code88.httpErrorMsg_of_unparsed hj, if_pos hlen]
    · intro hj hlen
      rw [Code88.httpErrorMsg_of_unparsed hj, if_neg hlen]
    · intro hno
      cases hj : response.json with
      | value e =>
        rw [Code88.httpErrorMsg_of_no_msg hj (hno e hj)]
        exact includes_append_right _ _
      | syntaxError =>
        rw [Code88.httpErrorMsg_of_unparsed (Or.inl hj)]
        split
        · exact includes_append_four _ _ _ _
        · exact includes_append_right _ _
      | null =>
        rw [Code88.httpErrorMsg_of_unparsed (Or.inr hj)]
        split
        · exact includes_append_four _ _ _ _
        · exact includes_append_right _ _
  · intro fetch config response ha hok h401 h403
    refine ⟨Antigravity.httpErrorMsg h response, ?_, ?_, ?_, ?_, ?_, ?_⟩
    · rw [Antigravity.fetchData_of_answers_models ha, Antigravity.fromResponse_not_ok_models hok,
        if_neg h403, if_neg h401]
    · intro e err msg hj he hm hne
      exact Antigravity.httpErrorMsg_of_message hj he hm hne
    · intro e hj hno
      exact Antigravity.httpErrorMsg_of_no_message hj hno
    · intro hj hlen
      rw [Antigravity.httpErrorMsg_of_unparsed_body hj, if_pos hlen]
    · intro hj hlen
      rw [Antigravity.httpErrorMsg_of_unparsed_body hj, if_neg hlen]
    · intro hno
      cases hj : response.json with
      | value e =>
        rw [Antigravity.httpErrorMsg_of_no_message hj (hno e hj)]
        exact includes_append_right _ _
      | syntaxError =>
        rw [Antigravity.httpErrorMsg_of_unparsed_body (Or.inl hj)]
        split
        · exact includes_append_four _ _ _ _
        · exact includes_append_right _ _
      | null =>
        rw [Antigravity.httpErrorMsg_of_unparsed_body (Or.inr hj)]
        split
        · exact includes_append_four _ _ _ _
        · exact includes_append_right _ _

/-- C13, worked example: status 500 with the body `oops`, which is not JSON, gives the 88code
message `HTTP 500: oops`. -/
theorem http_error_message_witness :
    Code88.fetchData demoHost (fun _ => .ok ⟨false, 500, "Error", "oops", .syntaxError⟩)
      Code88.demoConfig = .error (.error "HTTP 500: oops") := by
  obtain ⟨m, hm, _, _, hshort, _, _⟩ := (http_error_message demoHost).1
    (fun _ => .ok ⟨false, 500, "Error", "oops", .syntaxError⟩) Code88.demoConfig
    ⟨false, 500, "Error", "oops", .syntaxError⟩ ⟨by decide, rfl⟩ rfl (by decide) (by decide)
  have htext : "HTTP " ++ numberToString demoHost ((500 : ℕ) : ℚ) ++ ": " ++ "oops" =
      "HTTP 500: oops" := by decide
  rw [hm, hshort (Or.inl rfl) (by decide)]
  exact congrArg (fun t => Except.error (JsError.error t)) htext

/-- C13, counterexample: status 500 with a JSON body whose message field is
`quota exhausted` gives, in 88code and in antigravity, the message `quota exhausted`, which
does not include the status code 500. -/
theorem http_error_message_counterexample :
    (Code88.fetchData demoHost
        (fun _ => .ok (Code88.demoErrorResponse 500 (.val "quota exhausted")))
        Code88.demoConfig = .error (.error "quota exhausted") ∧
      (Code88.demoErrorResponse 500 (.val "quota exhausted")).ok = false ∧
      (Code88.demoErrorResponse 500 (.val "quota exhausted")).status = 500) ∧
      (Antigravity.fetchData demoHost
        (fun _ => .ok (Antigravity.demoErrorResponse 500 (.val "quota exhausted")))
        Antigravity.demoConfig = .error (.error "quota exhausted") ∧
      (Antigravity.demoErrorResponse 500 (.val "quota exhausted")).ok = false ∧
      (Antigravity.demoErrorResponse 500 (.val "quota exhausted")).status = 500) ∧
      numberToString demoHost 500 = "500" ∧ includes "quota exhausted" "500" = false := by
  refine ⟨⟨?_, rfl, rfl⟩, ⟨?_, rfl, rfl⟩, by decide, by decide⟩
  · have ha : Code88.Answers demoHost
        (fun _ => .ok (Code88.demoErrorResponse 500 (.val "quota exhausted")))
        Code88.demoConfig (Code88.demoErrorResponse 500 (.val "quota exhausted")) :=
      ⟨by decide, rfl⟩
    have hmsg : Code88.httpErrorMsg demoHost
        (Code88.demoErrorResponse 500 (.val "quota exhausted")) = "quota exhausted" :=
      Code88.httpErrorMsg_of_msg rfl rfl (by decide)
    rw [Code88.fetchData_of_answers ha, Code88.fromResponse_not_ok rfl, if_neg (by decide),
      if_neg (by decide), hmsg]
  · have ha : Antigravity.Answers demoHost
        (fun _ => .ok (Antigravity.demoErrorResponse 500 (.val "quota exhausted")))
        Antigravity.demoConfig (Antigravity.demoErrorResponse 500 (.val "quota exhausted")) :=
      ⟨by decide, by decide, by decide, by decide, rfl⟩
    have hmsg : Antigravity.httpErrorMsg demoHost
        (Antigravity.demoErrorResponse 500 (.val "quota exhausted")) = "quota exhausted" :=
      Antigravity.httpErrorMsg_of_message rfl rfl rfl (by decide)
    rw [Antigravity.fetchData_of_answers_models ha, Antigravity.fromResponse_not_ok_models rfl,
      if_neg (by decide), if_neg (by decide), hmsg]

theorem error_ne_of_ne {α : Type} {a b : String} (hab : a ≠ b) :
    (Except.error (JsError.error a) : Except JsError α) ≠ Except.error (JsError.error b) := by
  intro heq
  injection heq with hinner
  injection hinner with hmsg
  exact hab hmsg

namespace Code88

theorem httpErrorMsg_composed {h : Host} {response : Response Envelope}
    (hno : ∀ e, response.json = .value e → truthyStr e.msg = false) :
    ∃ x, httpErrorMsg h response = "HTTP " ++ x := by
  cases hj : response.json with
  | value e => exact ⟨_, httpErrorMsg_of_no_msg hj (hno e hj)⟩
  | syntaxError =>
    rw [httpErrorMsg_of_unparsed (Or.inl hj)]
    split
    · exact ⟨_, by rw [String.append_assoc, String.append_assoc]⟩
    · exact ⟨_, rfl⟩
  | null =>
    rw [httpErrorMsg_of_unparsed (Or.inr hj)]
    split
    · exact ⟨_, by rw [String.append_assoc, String.append_assoc]⟩
    · exact ⟨_, rfl⟩

end Code88

namespace Antigravity

theorem httpErrorMsg_composed_body {h : Host} {response : Response Payload}
    (hno : ∀ e, response.json = .value e →
      ∀ err, e.error = .val err → truthyStr err.message = false) :
    ∃ x, httpErrorMsg h response = "HTTP " ++ x := by
  cases hj : response.json with
  | value e => exact ⟨_, httpErrorMsg_of_no_message hj (hno e hj)⟩
  | syntaxError =>
    rw [httpErrorMsg_of_unparsed_body (Or.inl hj)]
    split
    · exact ⟨_, by rw [String.append_assoc, String.append_assoc]⟩
    · exact ⟨_, rfl⟩
  | null =>
    rw [httpErrorMsg_of_unparsed_body (Or.inr hj)]
    split
    · exact ⟨_, by rw [String.append_assoc, String.append_assoc]⟩
    · exact ⟨_, rfl⟩

end Antigravity

namespace RightCode

theorem fetchData_not_ok {h : Host} {fetch : Request → Except JsError (Response Payload)}
    {config : Config} {response : Response Payload} (ha : Answers fetch config response)
    (hok : response.ok = false) :
    fetchData h fetch config =
      .error (.error ("HTTP " ++ numberToString h response.status ++ ": " ++
        response.statusText)) := by
  obtain ⟨hkey, hfetch⟩ := ha
  simp [fetchData, hkey, hfetch, fromResponse, hok]

end RightCode

namespace Zhipu

theorem fetchData_not_ok_status {h : Host}
    {fetch : Request → Except JsError (Response Envelope)} {config : Config}
    {response : Response Envelope} (ha : Answers fetch config response)
    (hok : response.ok = false) :
    fetchData h fetch config =
      .error (.error ("HTTP " ++ numberToString h response.status ++ ": " ++
        response.statusText)) := by
  obtain ⟨hkey, hfetch⟩ := ha
  simp [fetchData, hkey, hfetch, fromResponse, hok]

end Zhipu

/-- C14 (amended): on a response of status 403 or 401 the 88code and antigravity adapters fail
with a fixed message for that status, whatever the body; the two messages differ from each
other and from every message these adapters compose themselves for another status that is not
ok (the `HTTP <status>` forms used when the body carries no upstream message). The right-code
and zhipu adapters fail with `HTTP <status>: <statusText>` on every response that is not ok,
401 and 403 included. -/
theorem auth_error_messages (h : Host) :
    (∀ (fetch : Request → Except JsError (Response Code88.Envelope)) (config : Code88.Config)
        (response : Response Code88.Envelope), Code88.Answers h fetch config response →
        response.ok = false →
        (response.status = 403 → Code88.fetchData h fetch config =
          .error (.error "认证失败 (403): Token 可能已过期或格式不正确")) ∧
        (response.status = 401 → Code88.fetchData h fetch config =
          .error (.error "未授权 (401): 请检查 Token 是否正确")) ∧
        (response.status ≠ 403 → response.status ≠ 401 →
          (∀ e, response.json = .value e → truthyStr e.msg = false) →
          Code88.fetchData h fetch config ≠
              .error (.error "认证失败 (403): Token 可能已过期或格式不正确") ∧
            Code88.fetchData h fetch config ≠
              .error (.error "未授权 (401): 请检查 Token 是否正确"))) ∧
      (∀ (fetch : Request → Except JsError (Response Antigravity.Payload))
        (config : Antigravity.Config) (response : Response Antigravity.Payload),
        Antigravity.Answers h fetch config response → response.ok = false →
        (response.status = 403 → Antigravity.fetchData h fetch config =
          .error (.error "认证失败 (403): Token 可能已过期")) ∧
        (response.status = 401 → Antigravity.fetchData h fetch config =
          .error (.error "未授权 (401): 请检查认证信息")) ∧
        (response.status ≠ 403 → response.status ≠ 401 →
          (∀ e, response.json = .value e →
            ∀ err, e.error = .val err → truthyStr err.message = false) →
          Antigravity.fetchData h fetch config ≠
              .error (.error "认证失败 (403): Token 可能已过期") ∧
            Antigravity.fetchData h fetch config ≠
              .error (.error "未授权 (401): 请检查认证信息"))) ∧
      (∀ (fetch : Request → Except JsError (Response RightCode.Payload))
        (config : RightCode.Config) (response : Response RightCode.Payload),
        RightCode.Answers fetch config response → response.ok = false →
        RightCode.fetchData h fetch config =
          .error (.error ("HTTP " ++ numberToString h response.status ++ ": " ++
            response.statusText))) ∧
      (∀ (fetch : Request → Except JsError (Response Zhipu.Envelope)) (config : Zhipu.Config)
        (response : Response Zhipu.Envelope),
        Zhipu.Answers fetch config response → response.ok = false →
        Zhipu.fetchData h fetch config =
          .error (.error ("HTTP " ++ numberToString h response.status ++ ": " ++
            response.statusText))) := by
  refine ⟨?_, ?_, ?_, ?_⟩
  · intro fetch config response ha hok
    rw [Code88.fetchData_of_answers ha, Code88.fromResponse_not_ok hok]
    refine ⟨?_, ?_, ?_⟩
    · intro h403
      rw [if_pos h403]
    · intro h401
      have h403 : response.status ≠ 403 := by
        rw [h401]
        decide
      rw [if_neg h403, if_pos h401]
    · intro h403 h401 hno
      rw [if_neg h403, if_neg h401]
      obtain ⟨x, hx⟩ := Code88.httpErrorMsg_composed (h := h) hno
      rw [hx]
      exact ⟨error_ne_of_ne (http_append_ne x _ (by decide)),
        error_ne_of_ne (http_append_ne x _ (by decide))⟩
  · intro fetch config response ha hok
    rw [Antigravity.fetchData_of_answers_models ha, Antigravity.fromResponse_not_ok_models hok]
    refine ⟨?_, ?_, ?_⟩
    · intro h403
      rw [if_pos h403]
    · intro h401
      have h403 : response.status ≠ 403 := by
        rw [h401]
        decide
      rw [if_neg h403, if_pos h401]
    · intro h403 h401 hno
      rw [if_neg h403, if_neg h401]
      obtain ⟨x, hx⟩ := Antigravity.httpErrorMsg_composed_body (h := h) hno
      rw [hx]
      exact ⟨error_ne_of_ne (http_append_ne x _ (by decide)),
        error_ne_of_ne (http_append_ne x _ (by decide))⟩
  · intro fetch config response ha hok
    exact RightCode.fetchData_not_ok ha hok
  · intro fetch config response ha hok
    exact Zhipu.fetchData_not_ok_status ha hok

/-- C14, worked example: on status 403 with a body that carries the upstream message
`upstream says no`, 88code fails with its fixed 403 message; on status 401 right-code fails
with `HTTP 401: Unauthorized`. -/
theorem auth_error_messages_witness :
    Code88.fetchData demoHost
        (fun _ => .ok (Code88.demoErrorResponse 403 (.val "upstream says no")))
        Code88.demoConfig = .error (.error "认证失败 (403): Token 可能已过期或格式不正确") ∧
      RightCode.fetchData demoHost
        (fun _ => .ok ⟨false, 401, "Unauthorized", "", .syntaxError⟩) RightCode.demoConfig =
        .error (.error "HTTP 401: Unauthorized") := by
  constructor
  · exact ((auth_error_messages demoHost).1
      (fun _ => .ok (Code88.demoErrorResponse 403 (.val "upstream says no"))) Code88.demoConfig
      (Code88.demoErrorResponse 403 (.val "upstream says no")) ⟨by decide, rfl⟩ rfl).1 rfl
  · have htext : "HTTP " ++ numberToString demoHost ((401 : ℕ) : ℚ) ++ ": " ++ "Unauthorized" =
        "HTTP 401: Unauthorized" := by decide
    rw [(auth_error_messages demoHost).2.2.1
      (fun _ => .ok ⟨false, 401, "Unauthorized", "", .syntaxError⟩) RightCode.demoConfig
      ⟨false, 401, "Unauthorized", "", .syntaxError⟩ ⟨by decide, rfl⟩ rfl]
    exact congrArg (fun t => Except.error (JsError.error t)) htext

/-- C14, counterexample: in 88code a response of status 500 whose body carries the 403 text as
its `msg` fails with the very message of a 403 response. -/
theorem auth_error_messages_counterexample :
    Code88.fetchData demoHost
        (fun _ => .ok (Code88.demoErrorResponse 500
          (.val "认证失败 (403): Token 可能已过期或格式不正确")))
        Code88.demoConfig =
      Code88.fetchData demoHost (fun _ => .ok (Code88.demoErrorResponse 403 .undefined))
        Code88.demoConfig ∧
      (Code88.demoErrorResponse 500
        (.val "认证失败 (403): Token 可能已过期或格式不正确")).status = 500 ∧
      (Code88.demoErrorResponse 403 .undefined).status = 403 := by
  refine ⟨?_, rfl, rfl⟩
  have ha500 : Code88.Answers demoHost
      (fun _ => .ok (Code88.demoErrorResponse 500
        (.val "认证失败 (403): Token 可能已过期或格式不正确")))
      Code88.demoConfig
      (Code88.demoErrorResponse 500 (.val "认证失败 (403): Token 可能已过期或格式不正确")) :=
    ⟨by decide, rfl⟩
  have ha403 : Code88.Answers demoHost
      (fun _ => .ok (Code88.demoErrorResponse 403 .undefined)) Code88.demoConfig
      (Code88.demoErrorResponse 403 .undefined) := ⟨by decide, rfl⟩
  have hmsg : Code88.httpErrorMsg demoHost
      (Code88.demoErrorResponse 500 (.val "认证失败 (403): Token 可能已过期或格式不正确")) =
      "认证失败 (403): Token 可能已过期或格式不正确" :=
    Code88.httpErrorMsg_of_msg rfl rfl (by decide)
  rw [Code88.fetchData_of_answers ha500, Code88.fetchData_of_answers ha403,
    Code88.fromResponse_not_ok rfl, Code88.fromResponse_not_ok rfl, if_neg (by decide),
    if_neg (by decide), hmsg]
  exact (if_pos rfl).symm

/-! ## Configuration checks -/

theorem truthyStr_iff (s : JsOpt String) :
    truthyStr s = true ↔ ∃ v, s = .val v ∧ v ≠ "" := by
  cases s with
  | undefined => simp [truthyStr]
  | null => simp [truthyStr]
  | val v => simp [truthyStr]

theorem strOr_of_val {v : String} (hv : v ≠ "") (d : String) : strOr (.val v) d = v := by
  simp [strOr, hv]

theorem credential_check (s : JsOpt String) (n : ℕ) (absent short : String) :
    (if (!truthyStr s) = true then (⟨false, some absent⟩ : Validation)
      else if jsLength (strOr s "") < n then ⟨false, some short⟩ else ⟨true, none⟩).valid =
        true ↔ ∃ v, s = .val v ∧ v ≠ "" ∧ n ≤ jsLength v := by
  constructor
  · intro hvalid
    by_cases ht : truthyStr s = true
    · obtain ⟨v, rfl, hv⟩ := (truthyStr_iff s).mp ht
      refine ⟨v, rfl, hv, ?_⟩
      by_contra hlt
      rw [strOr_of_val hv] at hvalid
      simp [ht, Nat.lt_of_not_le hlt] at hvalid
    · simp [ht] at hvalid
  · rintro ⟨v, rfl, hv, hn⟩
    have ht : truthyStr (.val v) = true := (truthyStr_iff _).mpr ⟨v, rfl, hv⟩
    rw [strOr_of_val hv]
    simp [ht, Nat.not_lt.mpr hn]

/-- C15 (amended): `validateConfig` checks the presence of every required field in all four
adapters, and three of them (88code and right-code with a minimum of 10 code units, zhipu with
a minimum of 20) also reject a present credential that is too short; only antigravity returns
valid for every configuration whose required fields are all non-empty. -/
theorem validateConfig_valid_iff :
    (∀ config : Code88.Config, (Code88.validateConfig config).valid = true ↔
        ∃ v, config.authToken = .val v ∧ v ≠ "" ∧ 10 ≤ jsLength v) ∧
      (∀ config : RightCode.Config, (RightCode.validateConfig config).valid = true ↔
        ∃ v, config.apiKey = .val v ∧ v ≠ "" ∧ 10 ≤ jsLength v) ∧
      (∀ config : Zhipu.Config, (Zhipu.validateConfig config).valid = true ↔
        ∃ v, config.apiKey = .val v ∧ v ≠ "" ∧ 20 ≤ jsLength v) ∧
      (∀ config : Antigravity.Config, (Antigravity.validateConfig config).valid = true ↔
        (∃ v, config.authorization = .val v ∧ v ≠ "") ∧
          (∃ v, config.userAgent = .val v ∧ v ≠ "") ∧
          (∃ v, config.clientSecret = .val v ∧ v ≠ "") ∧
          (∃ v, config.clientId = .val v ∧ v ≠ "")) := by
  refine ⟨?_, ?_, ?_, ?_⟩
  · intro config
    exact credential_check config.authToken 10 _ _
  · intro config
    exact credential_check config.apiKey 10 _ _
  · intro config
    exact credential_check config.apiKey 20 _ _
  · intro config
    simp only [← truthyStr_iff]
    unfold Antigravity.validateConfig
    cases truthyStr config.authorization <;> cases truthyStr config.userAgent <;>
      cases truthyStr config.clientSecret <;> cases truthyStr config.clientId <;> simp

/-- C15, worked example: the example configurations of 88code and antigravity are valid. -/
theorem validateConfig_valid_iff_witness :
    (Code88.validateConfig Code88.demoConfig).valid = true ∧
      (Antigravity.validateConfig Antigravity.demoConfig).valid = true :=
  ⟨(validateConfig_valid_iff.1 Code88.demoConfig).mpr ⟨_, rfl, by decide, by decide⟩,
    (validateConfig_valid_iff.2.2.2 Antigravity.demoConfig).mpr
      ⟨⟨_, rfl, by decide⟩, ⟨_, rfl, by decide⟩, ⟨_, rfl, by decide⟩, ⟨_, rfl, by decide⟩⟩⟩

/-- C15, counterexample: the present credential `short` is rejected for its length by three
adapters, 88code, right-code and zhipu. -/
theorem validateConfig_counterexample :
    Code88.validateConfig ⟨.val "short"⟩ = ⟨false, some "Token 格式不正确（太短）"⟩ ∧
      RightCode.validateConfig ⟨.val "short"⟩ = ⟨false, some "Token 格式不正确"⟩ ∧
      Zhipu.validateConfig ⟨.val "short"⟩ = ⟨false, some "API Key 格式不正确"⟩ ∧
      truthyStr (.val "short") = true := by
  refine ⟨by decide, by decide, by decide, by decide⟩

/-- C16: in zhipu `validateConfig` answers valid exactly when `apiKey` is non-empty and has at
least 20 code units, and answers with a message otherwise; `fetchData` tests presence only: with
any non-empty `apiKey` it sends the request carrying that key and its outcome is the one the
response determines, and without one it fails with the configuration error. -/
theorem apiKey_length_only_in_validateConfig (h : Host)
    (fetch : Request → Except JsError (Response Zhipu.Envelope)) (config : Zhipu.Config) :
    ((Zhipu.validateConfig config).valid = true ↔
        ∃ v, config.apiKey = .val v ∧ v ≠ "" ∧ 20 ≤ jsLength v) ∧
      ((Zhipu.validateConfig config).valid = false →
        (Zhipu.validateConfig config).message.isSome = true) ∧
      (∀ key, config.apiKey = .val key → key ≠ "" →
        Zhipu.fetchData h fetch config =
          match fetch ⟨Zhipu.API_URL, "GET",
              [("Authorization", key), ("Content-Type", "application/json")], none⟩ with
          | .error e => .error e
          | .ok response => Zhipu.fromResponse h response) ∧
      (truthyStr config.apiKey = false →
        Zhipu.fetchData h fetch config = .error (.error "请配置 API Key")) := by
  refine ⟨credential_check config.apiKey 20 _ _, ?_, ?_, ?_⟩
  · unfold Zhipu.validateConfig
    split
    · intro _
      rfl
    · split
      · intro _
        rfl
      · intro hv
        cases hv
  · intro key hk hne
    have ht : truthyStr config.apiKey = true := (truthyStr_iff _).mpr ⟨key, hk, hne⟩
    have hreq : Zhipu.requestFor config =
        ⟨Zhipu.API_URL, "GET", [("Authorization", key), ("Content-Type", "application/json")],
          none⟩ := by
      simp [Zhipu.requestFor, hk, strOr_of_val hne]
    simp only [Zhipu.fetchData, ht, Bool.not_true, Bool.false_eq_true, if_false, hreq]
  · intro hf
    simp [Zhipu.fetchData, hf]

/-- C16, worked example: the key `abc` fails `validateConfig`, yet `fetchData` sends the
request and returns what the response gives. -/
theorem apiKey_length_only_in_validateConfig_witness :
    (Zhipu.validateConfig ⟨.val "abc"⟩).valid = false ∧
      Zhipu.fetchData demoHost (Zhipu.demoFetch [Zhipu.demoRaw (.val "TOKENS_LIMIT") 100 50])
          ⟨.val "abc"⟩ =
        Zhipu.fromResponse demoHost
          ⟨true, 200, "OK", "", .value ⟨.val 200, .val true, .undefined,
            .val ⟨.val [Zhipu.demoRaw (.val "TOKENS_LIMIT") 100 50]⟩⟩⟩ :=
  ⟨by decide,
    (apiKey_length_only_in_validateConfig demoHost
      (Zhipu.demoFetch [Zhipu.demoRaw (.val "TOKENS_LIMIT") 100 50]) ⟨.val "abc"⟩).2.2.1
      "abc" rfl (by decide)⟩

/-! ## Status phrases -/

namespace Antigravity

theorem formatResetTime_of_valid {h : Host} {s : String} {t : ℤ} (hs : s ≠ "")
    (ht : h.parseDate s = some t) :
    formatResetTime h (.val s) =
      if t - h.now ≤ 0 then some "即将重置"
      else if (t - h.now) / (1000 * 60 * 60) > 24 then
        some (toString ((t - h.now) / (1000 * 60 * 60) / 24) ++ "天后重置")
      else if (t - h.now) / (1000 * 60 * 60) > 0 then
        some (toString ((t - h.now) / (1000 * 60 * 60)) ++ "小时" ++
          toString ((t - h.now) % (1000 * 60 * 60) / (1000 * 60)) ++ "分后重置")
      else some (toString ((t - h.now) % (1000 * 60 * 60) / (1000 * 60)) ++ "分钟后重置") := by
  have htr : truthyStr (.val s) = true := (truthyStr_iff _).mpr ⟨s, rfl, hs⟩
  unfold formatResetTime
  simp only [htr, strOr_of_val hs, Bool.not_true, Bool.false_eq_true, if_false, ht]

/-- C17 (amended): for a reset time that parses to `t`, with `d = t - now` in milliseconds,
`formatResetTime` gives 即将重置 when `d ≤ 0`; otherwise, with `hh = ⌊d / 3600000⌋` and
`m = ⌊(d mod 3600000) / 60000⌋`, it gives `<⌊hh / 24⌋>天后重置` when `hh > 24`,
`<hh>小时<m>分后重置` when `1 ≤ hh ≤ 24`, and `<m>分钟后重置` when `hh = 0`. Always
`0 ≤ m < 60`; the hours phrase is used exactly for deltas from one hour up to, but excluding,
25 hours; the days phrase is used from 25 hours on and reports at least 1 day. -/
theorem formatResetTime_buckets (h : Host) (s : String) (t d : ℤ) (hs : s ≠ "")
    (ht : h.parseDate s = some t) (hd : d = t - h.now) :
    (d ≤ 0 → formatResetTime h (.val s) = some "即将重置") ∧
      (0 < d →
        0 ≤ d % 3600000 / 60000 ∧ d % 3600000 / 60000 < 60 ∧
        (24 < d / 3600000 →
          formatResetTime h (.val s) = some (toString (d / 3600000 / 24) ++ "天后重置") ∧
            1 ≤ d / 3600000 / 24 ∧ 25 * 3600000 ≤ d) ∧
        (0 < d / 3600000 → d / 3600000 ≤ 24 →
          formatResetTime h (.val s) =
              some (toString (d / 3600000) ++ "小时" ++ toString (d % 3600000 / 60000) ++
                "分后重置") ∧
            3600000 ≤ d ∧ d < 25 * 3600000) ∧
        (d / 3600000 = 0 →
          formatResetTime h (.val s) = some (toString (d % 3600000 / 60000) ++ "分钟后重置") ∧
            d < 3600000)) := by
  have hform := formatResetTime_of_valid (h := h) hs ht
  rw [← hd] at hform
  norm_num at hform
  refine ⟨?_, ?_⟩
  · intro hle
    rw [hform, if_pos hle]
  · intro hpos
    have hnle : ¬ d ≤ 0 := not_le.mpr hpos
    refine ⟨by omega, by omega, ?_, ?_, ?_⟩
    · intro hdays
      refine ⟨?_, by omega, by omega⟩
      rw [hform, if_neg hnle, if_pos hdays]
    · intro hh1 hh24
      refine ⟨?_, by omega, by omega⟩
      rw [hform, if_neg hnle, if_neg (not_lt.mpr hh24), if_pos hh1]
    · intro hh0
      refine ⟨?_, by omega⟩
      rw [hform, if_neg hnle, if_neg (by omega), if_neg (by omega)]

/-- C17, worked example: a reset time five and a half hours ahead gives `5小时30分后重置`. -/
theorem formatResetTime_buckets_witness :
    formatResetTime demoHost (.val "1970-01-01T05:30:00.000Z") = some "5小时30分后重置" := by
  have hw := ((formatResetTime_buckets demoHost "1970-01-01T05:30:00.000Z" 19800000 19800000
    (by decide) (by decide) (by decide)).2 (by decide)).2.2.2.1 (by decide) (by decide)
  rw [hw.1]
  decide

/-- C17, counterexample: a reset time 24 hours and 30 minutes ahead, a delta of more than one
day, gets the hours phrase `24小时30分后重置`. -/
theorem formatResetTime_buckets_counterexample :
    formatResetTime (demoHostAt 775800000) (.val "1970-01-11T00:00:00.000Z") =
        some "24小时30分后重置" ∧
      (demoHostAt 775800000).parseDate "1970-01-11T00:00:00.000Z" = some 864000000 ∧
      (864000000 : ℤ) - (demoHostAt 775800000).now = 88200000 ∧
      (86400000 : ℤ) ≤ 88200000 := by
  refine ⟨by decide, by decide, by decide, by decide⟩

end Antigravity

theorem numberToString_one (h : Host) : numberToString h 1 = "1" := by
  unfold numberToString
  rw [if_pos (by decide)]
  decide

theorem numberToString_two (h : Host) : numberToString h 2 = "2" := by
  unfold numberToString
  rw [if_pos (by decide)]
  decide

namespace Code88

theorem getResetStatusText_of_falsy {h : Host} {sub : Subscription}
    (hnext : truthyStr sub.nextResetAvailableAt = false) :
    getResetStatusText h sub =
      match sub.resetTimes with
      | .val r => if r < 2 then "可重置 (" ++ numberToString h (2 - r) ++ "/2)" else "可重置"
      | _ => "可重置" := by
  unfold getResetStatusText
  rw [hnext]
  simp

/-- C18 (amended): with `nextResetAvailableAt` null, `getResetStatusText` returns `可重置 (k/2)`
with `k = 2 - resetTimes` when `resetTimes` is a number below 2, and plain 可重置 otherwise;
the counter shown is 2 for `resetTimes = 0` and 1 for `resetTimes = 1`, the two values for which
it is a remaining-reset count. -/
theorem resetStatus_counter (h : Host) (sub : Subscription)
    (hnull : sub.nextResetAvailableAt = .null ∨ sub.nextResetAvailableAt = .undefined) :
    (∀ r, sub.resetTimes = .val r → r < 2 →
        getResetStatusText h sub = "可重置 (" ++ numberToString h (2 - r) ++ "/2)") ∧
      (∀ r, sub.resetTimes = .val r → ¬ r < 2 → getResetStatusText h sub = "可重置") ∧
      (sub.resetTimes = .undefined ∨ sub.resetTimes = .null →
        getResetStatusText h sub = "可重置") ∧
      (sub.resetTimes = .val 0 → getResetStatusText h sub = "可重置 (2/2)") ∧
      (sub.resetTimes = .val 1 → getResetStatusText h sub = "可重置 (1/2)") := by
  have hnext : truthyStr sub.nextResetAvailableAt = false := by
    rcases hnull with hn | hn <;> rw [hn] <;> rfl
  have hform := getResetStatusText_of_falsy (h := h) hnext
  refine ⟨?_, ?_, ?_, ?_, ?_⟩
  · intro r hr hlt
    rw [hform, hr]
    simp only [if_pos hlt]
  · intro r hr hge
    rw [hform, hr]
    simp only [if_neg hge]
  · rintro (hr | hr) <;> rw [hform, hr]
  · intro hr
    rw [hform, hr]
    have h20 : (2 : ℚ) - 0 = 2 := by norm_num
    simp only [if_pos (show (0 : ℚ) < 2 by norm_num), h20, numberToString_two]
    decide
  · intro hr
    rw [hform, hr]
    have h21 : (2 : ℚ) - 1 = 1 := by norm_num
    simp only [if_pos (show (1 : ℚ) < 2 by norm_num), h21, numberToString_one]
    decide

/-- C18, worked example: `resetTimes = 1` gives `可重置 (1/2)`. -/
theorem resetStatus_counter_witness :
    getResetStatusText demoHost (demoSubResets (.val 1)) = "可重置 (1/2)" :=
  (resetStatus_counter demoHost (demoSubResets (.val 1)) (Or.inl rfl)).2.2.2.2 rfl

/-- C18, counterexample: `resetTimes = -1` is a number below 2 and gives the counter 3, which
is neither 1 nor 2. -/
theorem resetStatus_counter_counterexample :
    getResetStatusText demoHost (demoSubResets (.val (-1))) = "可重置 (3/2)" ∧
      (demoSubResets (.val (-1))).nextResetAvailableAt = .null ∧
      (demoSubResets (.val (-1))).resetTimes = .val (-1) ∧ ((-1 : ℚ) < 2) := by
  refine ⟨?_, rfl, rfl, by norm_num⟩
  rw [@getResetStatusText_of_falsy demoHost (demoSubResets (.val (-1))) rfl]
  have hr : (demoSubResets (.val (-1))).resetTimes = .val (-1) := rfl
  rw [hr]
  have h3 : (2 : ℚ) - (-1) = 3 := by norm_num
  simp only [if_pos (show (-1 : ℚ) < 2 by norm_num), h3]
  decide

end Code88

/-! ## Rounding both parts of a percentage -/

theorem rounded_parts_near_100 {r : ℚ} (h0 : 0 ≤ r) (h1 : r ≤ 1) :
    99 ≤ mathRound (fmul r 100) + mathRound (fmul (fsub 1 r) 100) ∧
      mathRound (fmul r 100) + mathRound (fmul (fsub 1 r) 100) ≤ 101 := by
  -- each of the three operations is within a thousandth of the exact result
  have ha : |r * 100 - fmul r 100| ≤ 1 / 1000 := by
    have hlt : |r * 100| < (2 : ℚ) ^ ((6 : ℤ) + 1) := by
      rw [abs_of_nonneg (by linarith)]
      norm_num
      linarith
    exact le_trans (roundDouble_abs_sub_le_of_lt hlt (by norm_num)) (by norm_num)
  have hu : |(1 - r) - fsub 1 r| ≤ 1 / 100000 := by
    have hlt : |1 - r| < (2 : ℚ) ^ ((0 : ℤ) + 1) := by
      rw [abs_of_nonneg (by linarith)]
      norm_num
      linarith
    exact le_trans (roundDouble_abs_sub_le_of_lt hlt (by norm_num)) (by norm_num)
  have hu' := abs_le.mp hu
  have hb : |fsub 1 r * 100 - fmul (fsub 1 r) 100| ≤ 1 / 1000 := by
    have hlt : |fsub 1 r * 100| < (2 : ℚ) ^ ((6 : ℤ) + 1) := by
      rw [abs_lt]
      norm_num
      constructor <;> linarith [hu'.1, hu'.2]
    exact le_trans (roundDouble_abs_sub_le_of_lt hlt (by norm_num)) (by norm_num)
  have ha' := abs_le.mp ha
  have hb' := abs_le.mp hb
  have hA1 : ((mathRound (fmul r 100) : ℤ) : ℚ) ≤ fmul r 100 + 1 / 2 := Int.floor_le _
  have hA2 : fmul r 100 + 1 / 2 < ((mathRound (fmul r 100) : ℤ) : ℚ) + 1 :=
    Int.lt_floor_add_one _
  have hB1 : ((mathRound (fmul (fsub 1 r) 100) : ℤ) : ℚ) ≤ fmul (fsub 1 r) 100 + 1 / 2 :=
    Int.floor_le _
  have hB2 : fmul (fsub 1 r) 100 + 1 / 2 <
      ((mathRound (fmul (fsub 1 r) 100) : ℤ) : ℚ) + 1 := Int.lt_floor_add_one _
  have hlo : ((98 : ℤ) : ℚ) <
      ((mathRound (fmul r 100) + mathRound (fmul (fsub 1 r) 100) : ℤ) : ℚ) := by
    push_cast
    linarith [ha'.1, ha'.2, hb'.1, hb'.2, hu'.1, hu'.2]
  have hhi : ((mathRound (fmul r 100) + mathRound (fmul (fsub 1 r) 100) : ℤ) : ℚ) <
      ((102 : ℤ) : ℚ) := by
    push_cast
    linarith [ha'.1, ha'.2, hb'.1, hb'.2, hu'.1, hu'.2]
  have hlo' : (98 : ℤ) < mathRound (fmul r 100) + mathRound (fmul (fsub 1 r) 100) := by
    exact_mod_cast hlo
  have hhi' : mathRound (fmul r 100) + mathRound (fmul (fsub 1 r) 100) < (102 : ℤ) := by
    exact_mod_cast hhi
  constructor <;> omega

theorem rounded_parts_ge_100 {r : ℚ} (h0 : 0 ≤ r) (h1 : r ≤ 1)
    (h99 : 99 ≤ mathRound (fmul r 100) + mathRound (fmul (fsub 1 r) 100)) :
    100 ≤ mathRound (fmul r 100) + mathRound (fmul (fsub 1 r) 100) := by
  by_contra hcon
  have hsum : mathRound (fmul r 100) + mathRound (fmul (fsub 1 r) 100) = 99 := by omega
  -- the rounding error of the difference
  have hu : |(1 - r) - fsub 1 r| ≤ (2 : ℚ) ^ (-54 : ℤ) := by
    rcases eq_or_lt_of_le h0 with hr0 | hrpos
    · rw [← hr0]
      have hone : fsub 1 0 = 1 :=
        roundDouble_eq_of_dyadic 1 0 (by norm_num) (by norm_num) (by norm_num) (by norm_num)
      rw [hone]
      norm_num
    · have hlt : |1 - r| < (2 : ℚ) ^ ((-1 : ℤ) + 1) := by
        rw [abs_of_nonneg (by linarith)]
        norm_num
        linarith
      exact le_trans (roundDouble_abs_sub_le_of_lt hlt (by norm_num)) (by norm_num)
  have hu' := (abs_le.mp hu).2
  have hunn : 0 ≤ fsub 1 r := fsub_nonneg h1
  have hA0 : 0 ≤ mathRound (fmul r 100) := mathRound_nonneg (fmul_nonneg h0 (by norm_num))
  have hB0 : 0 ≤ mathRound (fmul (fsub 1 r) 100) :=
    mathRound_nonneg (fmul_nonneg hunn (by norm_num))
  -- both products are below the half-integers that would round up
  have hA2 : fmul r 100 + 1 / 2 < ((mathRound (fmul r 100) : ℤ) : ℚ) + 1 :=
    Int.lt_floor_add_one _
  have hB2 : fmul (fsub 1 r) 100 + 1 / 2 <
      ((mathRound (fmul (fsub 1 r) 100) : ℤ) : ℚ) + 1 := Int.lt_floor_add_one _
  generalize hA : mathRound (fmul r 100) = A at *
  generalize hB : mathRound (fmul (fsub 1 r) 100) = B at *
  have hBA : B = 99 - A := by omega
  have hBq : (B : ℚ) = 99 - A := by
    rw [hBA]
    push_cast
    ring
  have hDA : IsDouble ((A : ℚ) + 1 / 2) :=
    isDouble_of_eq (2 * A + 1) (-1) (by rw [abs_le]; constructor <;> omega) (by norm_num)
      (by push_cast; rw [zpow_neg_one]; ring)
  have hDB : IsDouble ((B : ℚ) + 1 / 2) :=
    isDouble_of_eq (2 * B + 1) (-1) (by rw [abs_le]; constructor <;> omega) (by norm_num)
      (by push_cast; rw [zpow_neg_one]; ring)
  have hltA : roundDouble (r * 100) < (A : ℚ) + 1 / 2 := by
    have : fmul r 100 < (A : ℚ) + 1 / 2 := by linarith
    exact this
  have hltB : roundDouble (fsub 1 r * 100) < (B : ℚ) + 1 / 2 := by
    have : fmul (fsub 1 r) 100 < (B : ℚ) + 1 / 2 := by linarith
    exact this
  have hxA : r * 100 < (A : ℚ) + 1 / 2 := lt_of_roundDouble_lt hDA hltA
  have hxB : fsub 1 r * 100 < (B : ℚ) + 1 / 2 := lt_of_roundDouble_lt hDB hltB
  have hA99 : A ≤ 99 := by omega
  rcases le_or_lt 68 A with hbig | hsmall
  · have hAq : (68 : ℚ) ≤ A := by exact_mod_cast hbig
    have hd := deficit_ge (j := 6) hDA (by norm_num; linarith) hltA
    have hval : (2 : ℚ) ^ ((6 : ℤ) - 53) = 1 / 2 ^ 47 := by norm_num
    have hval2 : (2 : ℚ) ^ (-54 : ℤ) = 1 / 2 ^ 54 := by norm_num
    rw [hval] at hd
    rw [hval2] at hu'
    have : (100 : ℚ) * (1 / 2 ^ 54) < 1 / 2 ^ 47 := by norm_num
    linarith
  · rcases le_or_lt A 31 with hlow | hmid
    · have hAq : (A : ℚ) ≤ 31 := by exact_mod_cast hlow
      have hd := deficit_ge (j := 6) hDB (by norm_num; linarith) hltB
      have hval : (2 : ℚ) ^ ((6 : ℤ) - 53) = 1 / 2 ^ 47 := by norm_num
      have hval2 : (2 : ℚ) ^ (-54 : ℤ) = 1 / 2 ^ 54 := by norm_num
      rw [hval] at hd
      rw [hval2] at hu'
      have : (100 : ℚ) * (1 / 2 ^ 54) < 1 / 2 ^ 47 := by norm_num
      linarith
    · have hAq1 : (32 : ℚ) ≤ A := by exact_mod_cast (show (32 : ℤ) ≤ A by omega)
      have hAq2 : (A : ℚ) ≤ 67 := by exact_mod_cast (show A ≤ (67 : ℤ) by omega)
      have hd1 := deficit_ge (j := 5) hDA (by norm_num; linarith) hltA
      have hd2 := deficit_ge (j := 5) hDB (by norm_num; linarith) hltB
      have hval : (2 : ℚ) ^ ((5 : ℤ) - 53) = 1 / 2 ^ 48 := by norm_num
      have hval2 : (2 : ℚ) ^ (-54 : ℤ) = 1 / 2 ^ 54 := by norm_num
      rw [hval] at hd1 hd2
      rw [hval2] at hu'
      have : (100 : ℚ) * (1 / 2 ^ 54) < 1 / 2 ^ 48 + 1 / 2 ^ 48 := by norm_num
      linarith

namespace Antigravity

theorem parts_one_eighth :
    mathRound (fmul (1 / 8) 100) = 13 ∧ mathRound (fmul (fsub 1 (1 / 8)) 100) = 88 := by
  have h1 : fmul (1 / 8) 100 = 25 / 2 :=
    roundDouble_eq_of_dyadic 25 (-1) (by norm_num) (by norm_num) (by norm_num) (by norm_num)
  have h2 : fsub 1 (1 / 8) = 7 / 8 :=
    roundDouble_eq_of_dyadic 7 (-3) (by norm_num) (by norm_num) (by norm_num) (by norm_num)
  have h3 : fmul (7 / 8) 100 = 175 / 2 :=
    roundDouble_eq_of_dyadic 175 (-1) (by norm_num) (by norm_num) (by norm_num) (by norm_num)
  rw [h1, h2, h3, mathRound_eq_iff, mathRound_eq_iff]
  norm_num

theorem roundDouble_one_200 : roundDouble (1 / 200) = 5764607523034235 / 2 ^ 60 :=
  roundDouble_eval (-8) 5764607523034235 (by norm_num [abs_of_pos]) (by norm_num [abs_of_pos])
    (by norm_num) (by norm_num [abs_lt]) (by norm_num)

theorem parts_one_200 :
    mathRound (fmul (roundDouble (1 / 200)) 100) = 1 ∧
      mathRound (fmul (fsub 1 (roundDouble (1 / 200))) 100) = 100 := by
  have h1 : fmul (5764607523034235 / 2 ^ 60) 100 = 1 / 2 :=
    roundDouble_eval (-1) 4503599627370496 (by norm_num [abs_of_pos]) (by norm_num [abs_of_pos])
      (by norm_num) (by norm_num [abs_lt]) (by norm_num)
  have h2 : fsub 1 (5764607523034235 / 2 ^ 60) = 8962163258467287 / 2 ^ 53 :=
    roundDouble_eval (-1) 8962163258467287 (by norm_num [abs_of_pos]) (by norm_num [abs_of_pos])
      (by norm_num) (by norm_num [abs_lt]) (by norm_num)
  have h3 : fmul (8962163258467287 / 2 ^ 53) 100 = 199 / 2 :=
    roundDouble_eval 6 7001690045677568 (by norm_num [abs_of_pos]) (by norm_num [abs_of_pos])
      (by norm_num) (by norm_num [abs_lt]) (by norm_num)
  rw [roundDouble_one_200, h1, h2, h3, mathRound_eq_iff, mathRound_eq_iff]
  norm_num

/-- C19 (amended): the entry of a kept model with remaining fraction `r` between 0 and 1 has
usage 100, and `remaining + currentValue`, the sum of `round (r * 100)` and
`round ((1 - r) * 100)` in double arithmetic, is 100 or 101. -/
theorem remaining_plus_used (h : Host) (fetch : Request → Except JsError (Response Payload))
    (config : Config) (models : List (String × Model)) (e : String × Model)
    (hd : Delivers h fetch config models) (hmem : e ∈ models)
    (hname : truthyStr e.2.displayName = true) (h0 : 0 ≤ remainingOf e.2)
    (h1 : remainingOf e.2 ≤ 1) :
    ∃ r, fetchData h fetch config = .ok r ∧ toLimit h e ∈ r.limits ∧
      (toLimit h e).usage = 100 ∧
      (toLimit h e).remaining = mathRound (fmul (remainingOf e.2) 100) ∧
      (toLimit h e).currentValue = mathRound (fmul (fsub 1 (remainingOf e.2)) 100) ∧
      ((toLimit h e).remaining + (toLimit h e).currentValue = 100 ∨
        (toLimit h e).remaining + (toLimit h e).currentValue = 101) := by
  obtain ⟨r, hr, hin⟩ := mem_limits_of_kept hd hmem hname
  refine ⟨r, hr, hin, rfl, toLimit_remaining h e, toLimit_currentValue h e, ?_⟩
  rw [toLimit_remaining, toLimit_currentValue]
  have hnear := rounded_parts_near_100 h0 h1
  have hge := rounded_parts_ge_100 h0 h1 hnear.1
  have hle := hnear.2
  omega

/-- C19, worked example: the model with `remainingFraction` 0.2 has remaining 20 and
currentValue 80, which add up to 100. -/
theorem remaining_plus_used_witness :
    ∃ r, fetchData demoHost (demoFetch demoModels) demoConfig = .ok r ∧
      toLimit demoHost ("model-a", demoModel (.val "Model A") (roundDouble (1 / 5))) ∈
        r.limits ∧
      (toLimit demoHost
        ("model-a", demoModel (.val "Model A") (roundDouble (1 / 5)))).remaining = 20 ∧
      (toLimit demoHost
        ("model-a", demoModel (.val "Model A") (roundDouble (1 / 5)))).currentValue = 80 := by
  have hrf : remainingOf (demoModel (.val "Model A") (roundDouble (1 / 5))) =
      roundDouble (1 / 5) := rfl
  obtain ⟨r, hr, hin, _, hrem, hcur, _⟩ := remaining_plus_used demoHost (demoFetch demoModels)
    demoConfig demoModels ("model-a", demoModel (.val "Model A") (roundDouble (1 / 5)))
    (demoFetch_delivers_models _) (by simp [demoModels]) (by decide)
    (by
      simp only [hrf]
      rw [roundDouble_one_fifth]
      norm_num)
    (by
      simp only [hrf]
      rw [roundDouble_one_fifth]
      norm_num)
  simp only [hrf] at hrem hcur
  rw [remaining_one_fifth] at hrem
  rw [percentage_one_fifth] at hcur
  exact ⟨r, hr, hin, hrem, hcur⟩

/-- C19, counterexample: a remaining fraction of one eighth, which is between 0 and 1, gives
remaining 13 and currentValue 88; their sum 101 is not the usage 100. The same happens for a
`remainingFraction` of 0.005, where the product of the double with 100 is exactly one half:
remaining 1 and currentValue 100. -/
theorem remaining_plus_used_counterexample :
    (∃ r, fetchData demoHost
        (demoFetch [("model-c", demoModel (.val "Model C") (1 / 8))]) demoConfig = .ok r ∧
      toLimit demoHost ("model-c", demoModel (.val "Model C") (1 / 8)) ∈ r.limits ∧
      (toLimit demoHost ("model-c", demoModel (.val "Model C") (1 / 8))).remaining = 13 ∧
      (toLimit demoHost ("model-c", demoModel (.val "Model C") (1 / 8))).currentValue = 88 ∧
      (toLimit demoHost ("model-c", demoModel (.val "Model C") (1 / 8))).usage = 100 ∧
      (0 : ℚ) ≤ 1 / 8 ∧ (1 : ℚ) / 8 ≤ 1) ∧
    (∃ r, fetchData demoHost
        (demoFetch [("model-g", demoModel (.val "Model G") (roundDouble (1 / 200)))])
        demoConfig = .ok r ∧
      toLimit demoHost ("model-g", demoModel (.val "Model G") (roundDouble (1 / 200))) ∈
        r.limits ∧
      (toLimit demoHost
        ("model-g", demoModel (.val "Model G") (roundDouble (1 / 200)))).remaining = 1 ∧
      (toLimit demoHost
        ("model-g", demoModel (.val "Model G") (roundDouble (1 / 200)))).currentValue = 100 ∧
      0 ≤ roundDouble (1 / 200) ∧ roundDouble (1 / 200) ≤ 1) := by
  constructor
  · obtain ⟨r, hr, hin⟩ := mem_limits_of_kept
      (demoFetch_delivers_models [("model-c", demoModel (.val "Model C") (1 / 8))])
      (List.mem_singleton.mpr rfl) (by decide)
    have hrf : remainingOf (demoModel (.val "Model C") (1 / 8)) = 1 / 8 := rfl
    refine ⟨r, hr, hin, ?_, ?_, rfl, by norm_num, by norm_num⟩
    · rw [toLimit_remaining]
      simp only [hrf]
      exact parts_one_eighth.1
    · rw [toLimit_currentValue]
      simp only [hrf]
      exact parts_one_eighth.2
  · obtain ⟨r, hr, hin⟩ := mem_limits_of_kept
      (demoFetch_delivers_models
        [("model-g", demoModel (.val "Model G") (roundDouble (1 / 200)))])
      (List.mem_singleton.mpr rfl) (by decide)
    have hrf : remainingOf (demoModel (.val "Model G") (roundDouble (1 / 200))) =
        roundDouble (1 / 200) := rfl
    refine ⟨r, hr, hin, ?_, ?_, ?_, ?_⟩
    · rw [toLimit_remaining]
      simp only [hrf]
      exact parts_one_200.1
    · rw [toLimit_currentValue]
      simp only [hrf]
      exact parts_one_200.2
    · rw [roundDouble_one_200]
      norm_num
    · rw [roundDouble_one_200]
      norm_num

end Antigravity

/-! ## Days remaining of the kept subscriptions -/

namespace RightCode

theorem fetchData_ok_kept {h : Host} {fetch : Request → Except JsError (Response Payload)}
    {config : Config} {subs : List Subscription} {r : BalanceResult}
    (hd : Delivers fetch config subs) (hr : fetchData h fetch config = .ok r) :
    r.limits = (subs.filter (fun sub => !isExpired h sub.expired_at)).map (toLimit h) := by
  by_cases hkept : subs.filter (fun sub => !isExpired h sub.expired_at) = []
  · rw [fetchData_of_none_kept hd hkept] at hr
    cases hr
  · obtain ⟨r', hr', hlim⟩ := fetchData_of_kept (h := h) hd hkept
    rw [hr'] at hr
    cases hr
    exact hlim

theorem toLimit_daysRemaining (h : Host) (sub : Subscription) :
    (toLimit h sub).daysRemaining = getDaysRemaining h sub.expired_at := by
  simp only [toLimit]

theorem getDaysRemaining_of_invalid {h : Host} {s : String} (hne : s ≠ "")
    (hparse : h.parseDate s = none) : getDaysRemaining h (.val s) = none := by
  have htr : truthyStr (.val s) = true := (truthyStr_iff _).mpr ⟨s, rfl, hne⟩
  unfold getDaysRemaining
  simp only [htr, strOr_of_val hne, Bool.not_true, Bool.false_eq_true, if_false, hparse]

/-- C20 (amended): at a single current time every entry `fetchData` returns comes from a
subscription whose `expired_at` is non-empty and does not parse to a time before now; its
daysRemaining is at least 1 when the expiry time is after now, 0 when the expiry time equals
now, and NaN when `expired_at` does not parse to a time. -/
theorem days_remaining_of_kept (h : Host)
    (fetch : Request → Except JsError (Response Payload)) (config : Config)
    (subs : List Subscription) (r : BalanceResult) (hd : Delivers fetch config subs)
    (hr : fetchData h fetch config = .ok r) :
    ∀ l ∈ r.limits, ∃ sub ∈ subs, l = toLimit h sub ∧
      ∃ s, sub.expired_at = .val s ∧ s ≠ "" ∧
        (∀ E, h.parseDate s = some E → h.now ≤ E) ∧
        (∀ E, h.parseDate s = some E → h.now < E →
          ∃ d, l.daysRemaining = some d ∧ 1 ≤ d) ∧
        (h.parseDate s = some h.now → l.daysRemaining = some 0) ∧
        (h.parseDate s = none → l.daysRemaining = none) := by
  intro l hl
  rw [fetchData_ok_kept hd hr] at hl
  obtain ⟨sub, hsub, rfl⟩ := List.mem_map.mp hl
  obtain ⟨hmem, hkeep⟩ := List.mem_filter.mp hsub
  have hvalid : isExpired h sub.expired_at = false := by simpa using hkeep
  obtain ⟨s, hs, hne, hnot⟩ := (isExpired_eq_false_iff h sub.expired_at).mp hvalid
  refine ⟨sub, hmem, rfl, s, hs, hne, hnot, ?_, ?_, ?_⟩
  · intro E hE hlt
    refine ⟨⌈((E - h.now : ℤ) : ℚ) / 86400000⌉, ?_, ?_⟩
    · rw [toLimit_daysRemaining, hs]
      exact getDaysRemaining_of_valid hne hE (le_of_lt hlt)
    · have hpos : (0 : ℚ) < ((E - h.now : ℤ) : ℚ) / 86400000 := by
        apply div_pos _ (by norm_num)
        exact_mod_cast sub_pos.mpr hlt
      have hceil := Int.ceil_pos.mpr hpos
      omega
  · intro hE
    rw [toLimit_daysRemaining, hs, getDaysRemaining_of_valid hne hE (le_refl _)]
    simp
  · intro hparse
    rw [toLimit_daysRemaining, hs]
    exact getDaysRemaining_of_invalid hne hparse

/-- C20, worked example: a subscription that expires ten days after the clock value gives an
entry with a daysRemaining of at least 1. -/
theorem days_remaining_of_kept_witness :
    ∃ r, fetchData demoHost
        (demoFetch [demoSub 1 100 25 (.val "1970-01-11T00:00:00.000Z")]) demoConfig = .ok r ∧
      ∀ l ∈ r.limits, ∃ d, l.daysRemaining = some d ∧ 1 ≤ d := by
  obtain ⟨r, hr, _⟩ := fetchData_of_kept (h := demoHost)
    (demoFetch_delivers_list [demoSub 1 100 25 (.val "1970-01-11T00:00:00.000Z")])
    (by decide)
  refine ⟨r, hr, ?_⟩
  intro l hl
  obtain ⟨sub, hsub, _, s, hs, _, _, hafter, _, _⟩ := days_remaining_of_kept demoHost
    (demoFetch [demoSub 1 100 25 (.val "1970-01-11T00:00:00.000Z")]) demoConfig
    [demoSub 1 100 25 (.val "1970-01-11T00:00:00.000Z")] r (demoFetch_delivers_list _) hr l hl
  have hsubeq : sub = demoSub 1 100 25 (.val "1970-01-11T00:00:00.000Z") :=
    List.mem_singleton.mp hsub
  rw [hsubeq] at hs
  have hseq : "1970-01-11T00:00:00.000Z" = s := by
    injection hs
  rw [← hseq] at hafter
  exact hafter 864000000 (by decide) (by decide)

/-- C20, counterexample: a subscription that expires exactly at the clock value passes the
filter and is reported with daysRemaining 0; one whose `expired_at` does not parse to a time
passes as well and is reported with daysRemaining NaN. -/
theorem days_remaining_of_kept_counterexample :
    (∃ r, fetchData (demoHostAt 864000000)
        (demoFetch [demoSub 1 100 25 (.val "1970-01-11T00:00:00.000Z")]) demoConfig = .ok r ∧
      r.limits =
        [toLimit (demoHostAt 864000000) (demoSub 1 100 25 (.val "1970-01-11T00:00:00.000Z"))] ∧
      (toLimit (demoHostAt 864000000)
        (demoSub 1 100 25 (.val "1970-01-11T00:00:00.000Z"))).daysRemaining = some 0) ∧
      (∃ r, fetchData demoHost (demoFetch [demoSub 5 100 25 (.val "soon")]) demoConfig = .ok r ∧
        r.limits = [toLimit demoHost (demoSub 5 100 25 (.val "soon"))] ∧
        (toLimit demoHost (demoSub 5 100 25 (.val "soon"))).daysRemaining = none) := by
  constructor
  · have hkept : [demoSub 1 100 25 (.val "1970-01-11T00:00:00.000Z")].filter
        (fun sub => !isExpired (demoHostAt 864000000) sub.expired_at) =
        [demoSub 1 100 25 (.val "1970-01-11T00:00:00.000Z")] := by decide
    obtain ⟨r, hr, hlim⟩ := fetchData_of_kept (h := demoHostAt 864000000)
      (demoFetch_delivers_list [demoSub 1 100 25 (.val "1970-01-11T00:00:00.000Z")])
      (by rw [hkept]; simp)
    refine ⟨r, hr, ?_, ?_⟩
    · rw [hlim, hkept]
      rfl
    · rw [toLimit_daysRemaining]
      decide
  · have hkept : [demoSub 5 100 25 (.val "soon")].filter
        (fun sub => !isExpired demoHost sub.expired_at) = [demoSub 5 100 25 (.val "soon")] := by
      decide
    obtain ⟨r, hr, hlim⟩ := fetchData_of_kept (h := demoHost)
      (demoFetch_delivers_list [demoSub 5 100 25 (.val "soon")]) (by rw [hkept]; simp)
    refine ⟨r, hr, ?_, ?_⟩
    · rw [hlim, hkept]
      rfl
    · rw [toLimit_daysRemaining]
      exact getDaysRemaining_of_invalid (by decide) (by decide)

end RightCode

end AibalPlugins
